import Mathlib

/-!
# AllJoyn thin client: candidate registry and discovery transport

A shallow embedding of the routing-node response list
(`AJ_InitRoutingNodeResponselist`, `AJ_AddRoutingNodeToResponseList`,
`AJ_SelectRoutingNodeFromResponseList`), of `AJ_Initialize` (src/aj_init.c) and of
the discovery send path of src/target/linux/aj_net.c (`RewriteSenderInfo`,
`sendToBroadcast`, `AJ_Net_SendTo`), followed by the properties proved about them.
-/

namespace AJ

/-! ## Status codes -/

/-- The `AJ_Status` values the modelled functions return (aj_status.h). -/
inductive AJ_Status where
  | AJ_OK
  | AJ_ERR_READ
  | AJ_ERR_WRITE
  | AJ_ERR_TIMEOUT
  | AJ_ERR_INTERRUPTED
  | AJ_ERR_CONNECT
  | AJ_ERR_END_OF_DATA
deriving DecidableEq, Repr

open AJ_Status

/-! ## Candidate registry -/

/-- Modelled from the spec: the `AJ_Service` record (RoutingCandidate of section 3). Its
declaration is not part of the available sources; the fields are the ones the
initialisers of unit_test/DiscoveryTest.cc fill, in their order: address-type bitmask,
transport mask, IPv4 port, IPv6 port, IPv4 address, priority (the score, lower is
better), protocol version, IPv6 address words. -/
structure AJ_Service where
  addrTypes : Nat
  transportMask : Nat
  ipv4port : Nat
  ipv6port : Nat
  ipv4 : Nat
  priority : Nat
  pv : Nat
  ipv6 : List Nat
deriving DecidableEq, Repr

/-- Modelled from the spec: the rank order of section 3. `outranks a b` holds when `a`
is strictly better than `b`: a higher protocol version, or the same protocol version
and a lower numeric score. -/
def outranks (a b : AJ_Service) : Bool :=
  decide (b.pv < a.pv) || (a.pv == b.pv && decide (a.priority < b.priority))

/-- Modelled from the spec: the held candidates of the registry, in storage order. The
capacity `CAP` (`AJ_ROUTING_NODE_RESPONSELIST_SIZE`, absent from the sources) is a
parameter of the admission function. -/
abbrev ResponseList := List AJ_Service

/-- Modelled from the spec: `Reset()` of section 4.1, "clears all entries". The function
`AJ_InitRoutingNodeResponselist` is only called, never defined, in the sources. -/
def AJ_InitRoutingNodeResponselist (_list : ResponseList) : ResponseList := []

/-- Modelled from the spec: "the current worst-ranked entry" of section 4.1, computed
fresh over the live set. Among equally bad entries the earliest stored one is taken. -/
def worstEntry : ResponseList → Option AJ_Service
  | [] => none
  | x :: xs =>
    match worstEntry xs with
    | none => some x
    | some w => if outranks x w then some w else some x

/-- Modelled from the spec: "replace it" of section 4.1: the list in which the entry
found by `worstEntry` is overwritten in place by the candidate. -/
def replaceWorst (c : AJ_Service) : ResponseList → ResponseList
  | [] => []
  | x :: xs =>
    match worstEntry xs with
    | none => [c]
    | some w => if outranks x w then x :: replaceWorst c xs else c :: xs

/-- Modelled from the spec: `Admit(candidate)` of section 4.1: "if fewer than CAP
entries exist, append. If full, compare against the current worst-ranked entry:
replace it only if the candidate strictly outranks it; equal rank never evicts."
The function `AJ_AddRoutingNodeToResponseList` is only called (by the unit tests),
never defined, in the sources. -/
def AJ_AddRoutingNodeToResponseList (cap : Nat) (list : ResponseList)
    (service : AJ_Service) : ResponseList :=
  if list.length < cap then list ++ [service]
  else
    match worstEntry list with
    | none => list
    | some w => if outranks service w then replaceWorst service list else list

/-- Modelled from the spec: the removal step of `Select(out)` of section 4.1: "removes
and returns the single highest-ranked remaining candidate". Returns the chosen entry
and the remaining entries in their storage order, `none` on an empty list. The spec
leaves the choice among equally ranked entries open; here the earliest stored one is
returned. -/
def selectBest : ResponseList → Option (AJ_Service × ResponseList)
  | [] => none
  | x :: xs =>
    match selectBest xs with
    | none => some (x, [])
    | some (y, rest) => if outranks y x then some (y, x :: rest) else some (x, xs)

/-- Modelled from the spec: `Select(out)` of section 4.1 with the C calling convention
of the unit tests: the status, the value of `*service` after the call (left as it was
when the list is empty) and the list after the call. The function
`AJ_SelectRoutingNodeFromResponseList` is only called, never defined, in the sources. -/
def AJ_SelectRoutingNodeFromResponseList (list : ResponseList) (service : AJ_Service) :
    AJ_Status × AJ_Service × ResponseList :=
  match selectBest list with
  | none => (AJ_ERR_END_OF_DATA, service, list)
  | some (best, rest) => (AJ_OK, best, rest)

/-- Admission of a sequence of candidates, in arrival order. -/
def addAll (cap : Nat) (list : ResponseList) (cands : List AJ_Service) : ResponseList :=
  cands.foldl (AJ_AddRoutingNodeToResponseList cap) list

/-- The statuses and (on `AJ_OK`) candidates that `k` consecutive calls of
`AJ_SelectRoutingNodeFromResponseList` return, with no admission in between. -/
def drain : Nat → ResponseList → AJ_Service → List (AJ_Status × Option AJ_Service)
  | 0, _, _ => []
  | k + 1, list, service =>
    match AJ_SelectRoutingNodeFromResponseList list service with
    | (AJ_OK, out, rest) => (AJ_OK, some out) :: drain k rest out
    | (st, out, rest) => (st, none) :: drain k rest out

/-- The process state `AJ_Initialize` works on: its `initialized` flag and the response
list (the NVRAM, random generator, credentials and black list it also sets up do not
touch the response list and are left out). -/
structure InitState where
  initialized : Bool
  responseList : ResponseList
deriving DecidableEq, Repr

/-- `AJ_Initialize` of src/aj_init.c: on the first call it sets `initialized` and ends
with `AJ_InitRoutingNodeResponselist()`; later calls do nothing. -/
def AJ_Initialize (s : InitState) : InitState :=
  if !s.initialized then
    { initialized := true, responseList := AJ_InitRoutingNodeResponselist s.responseList }
  else s

/-- The rank of a candidate as a pair (protocol version, priority). -/
def rank (s : AJ_Service) : Nat × Nat := (s.pv, s.priority)

/-- Rank order on pairs, best first: `rankLE r t` when `r` is at least as good as `t`. -/
def rankLE (r t : Nat × Nat) : Prop := t.1 < r.1 ∨ (r.1 = t.1 ∧ r.2 ≤ t.2)

instance : DecidableRel rankLE := fun r t => by unfold rankLE; exact inferInstance

instance rankLE_isTotal : IsTotal (Nat × Nat) rankLE :=
  ⟨fun a b => by unfold rankLE; omega⟩

instance rankLE_isTrans : IsTrans (Nat × Nat) rankLE :=
  ⟨fun a b c h1 h2 => by unfold rankLE at *; omega⟩

instance rankLE_isAntisymm : IsAntisymm (Nat × Nat) rankLE :=
  ⟨fun a b h1 h2 => by
    unfold rankLE at *
    obtain ⟨a1, a2⟩ := a
    obtain ⟨b1, b2⟩ := b
    simp only [Prod.mk.injEq] at *
    omega⟩

/-- The retention invariant: the held entries `H` are `min cap |A|` of the admitted
candidates `A`, and no discarded candidate outranks a held one. -/
def Kept (cap : Nat) (A H : List AJ_Service) : Prop :=
  H.length = min cap A.length ∧
    ∃ D : List AJ_Service, A.Perm (H ++ D) ∧ ∀ d ∈ D, ∀ h ∈ H, outranks d h = false

/-- Modelled from the spec: the address-type bit `AJ_ADDR_TCP4` the test candidates carry
(aj_net.h, absent): the stream transport over IPv4 is advertised. Only that the four
address-type bits are distinct is used. -/
def AJ_ADDR_TCP4 : Nat := 0x04

/-- The candidate `serviceHighScore` of unit_test/DiscoveryTest.cc. -/
def serviceHighScore : AJ_Service := ⟨AJ_ADDR_TCP4, 0, 0, 0, 0x0100007f, 1234, 0, [0, 0, 0, 0]⟩

/-- The candidate `serviceLowScore` of unit_test/DiscoveryTest.cc. -/
def serviceLowScore : AJ_Service := ⟨AJ_ADDR_TCP4, 0, 0, 0, 0x0200007f, 2345, 0, [0, 0, 0, 0]⟩

/-- The candidate `serviceLowerScore2` of unit_test/DiscoveryTest.cc. -/
def serviceLowerScore2 : AJ_Service := ⟨AJ_ADDR_TCP4, 0, 0, 0, 0x0300007f, 3456, 0, [0, 0, 0, 0]⟩

/-- The candidate `serviceLowerScore3` of unit_test/DiscoveryTest.cc. -/
def serviceLowerScore3 : AJ_Service := ⟨AJ_ADDR_TCP4, 0, 0, 0, 0x0400007f, 4567, 0, [0, 0, 0, 0]⟩

/-- The candidate `serviceOldProtocol` of the test UpdateProtocolVersion. -/
def serviceOldProtocol : AJ_Service := ⟨AJ_ADDR_TCP4, 0, 0, 0, 0x0100007f, 1234, 11, [0, 0, 0, 0]⟩

/-- The candidate `serviceNewProtocol` of the test UpdateProtocolVersion. -/
def serviceNewProtocol : AJ_Service := ⟨AJ_ADDR_TCP4, 0, 0, 0, 0x0100007f, 5678, 12, [0, 0, 0, 0]⟩

/-- The zeroed `m_service` of the test fixture. -/
def m_service : AJ_Service := ⟨0, 0, 0, 0, 0, 0, 0, [0, 0, 0, 0]⟩

/-! ## Discovery transport: memory, buffers and addresses (src/target/linux/aj_net.c) -/

/-- Byte-addressed memory: the list of bytes at addresses `0, 1, 2, ...`. An I/O buffer
occupies a range of it; an access at an address outside the list is a fault. -/
abbrev Mem := List Nat

/-- Read of one byte; `none` is a fault. -/
def load (mem : Mem) (a : Nat) : Option Nat := mem[a]?

/-- Write of one byte; `none` is a fault. -/
def store (mem : Mem) (a : Nat) (b : Nat) : Option Mem :=
  if a < mem.length then some (mem.set a b) else none

/-- The library routine `memcpy(dst, src, src.length)`, byte by byte. -/
def memcpy (mem : Mem) (dst : Nat) : List Nat → Option Mem
  | [] => some mem
  | b :: bs =>
    match store mem dst b with
    | none => none
    | some m => memcpy m (dst + 1) bs

/-- The characters of a NUL-terminated C string stored in a `char` array that holds `s`
followed by a NUL: what `strlen` measures and what `memcpy(dst, s, strlen(s))` copies. -/
def cstr (s : List Nat) : List Nat := s.takeWhile (fun b => b != 0)

/-- Address family of IPv4 socket addresses (platform header). -/
def AF_INET : Nat := 2

/-- Address family of IPv6 socket addresses (platform header). -/
def AF_INET6 : Nat := 10

/-- Interface flag "up" (platform header). -/
def IFF_UP : Nat := 0x1

/-- Interface flag "running" (platform header). -/
def IFF_RUNNING : Nat := 0x40

/-- The value of an invalid socket descriptor (aj_net.c line 68). -/
def INVALID_SOCKET : Int := -1

/-- UDP port of the bus-discovery protocol (aj_net.c). -/
def AJ_UDP_PORT : Nat := 9956

/-- UDP port of mDNS (aj_net.c). -/
def MDNS_UDP_PORT : Nat := 5353

/-- IPv4 multicast group of the bus-discovery protocol (aj_net.c). -/
def AJ_IPV4_MULTICAST_GROUP : String := "224.0.0.113"

/-- IPv6 multicast group of the bus-discovery protocol (aj_net.c). -/
def AJ_IPV6_MULTICAST_GROUP : String := "ff02::13a"

/-- IPv4 multicast group of mDNS (aj_net.c). -/
def MDNS_IPV4_MULTICAST_GROUP : String := "224.0.0.251"

/-- IPv6 multicast group of mDNS (aj_net.c). -/
def MDNS_IPV6_MULTICAST_GROUP : String := "ff02::fb"

/-- Modelled from the spec: direction and content flags of an I/O buffer, declared in
aj_bufio.h, which is not part of the available sources. -/
def AJ_IO_BUF_RX : Nat := 1

/-- Modelled from the spec: the transmit direction, see `AJ_IO_BUF_RX`. -/
def AJ_IO_BUF_TX : Nat := 2

/-- Modelled from the spec: flag of a bus-discovery packet, see `AJ_IO_BUF_RX`. -/
def AJ_IO_BUF_AJ : Nat := 1

/-- Modelled from the spec: flag of an mDNS packet, see `AJ_IO_BUF_RX`. -/
def AJ_IO_BUF_MDNS : Nat := 2

/-- Modelled from the spec: the `AJ_IOBuffer` fields the send path uses (section 3
"Socket/IOBuffer": a fixed-capacity byte buffer with a fixed direction); the struct is
declared in aj_bufio.h, not part of the available sources. Pointers are addresses. -/
structure AJ_IOBuffer where
  direction : Nat
  flags : Nat
  bufSize : Nat
  bufStart : Nat
  readPtr : Nat
  writePtr : Nat
deriving DecidableEq, Repr

/-- Modelled from the spec: the macro `AJ_IO_BUF_AVAIL` of aj_bufio.h (absent): the
number of pending bytes, `(uint32_t)(writePtr - readPtr)`. -/
def AJ_IO_BUF_AVAIL (buf : AJ_IOBuffer) : Nat :=
  (((buf.writePtr : Int) - (buf.readPtr : Int)) % 4294967296).toNat

/-- Modelled from the spec: the macro `AJ_IO_BUF_RESET` of aj_bufio.h (absent): both
pointers go back to the start of the buffer and the flags are cleared. -/
def AJ_IO_BUF_RESET (buf : AJ_IOBuffer) : AJ_IOBuffer :=
  { buf with readPtr := buf.bufStart, writePtr := buf.bufStart, flags := 0 }

/-- A socket address as `RewriteSenderInfo` reads it through `struct sockaddr*`: the
family, the port (`sin_port` or `sin6_port`, value in host byte order), the IPv4 address
(`sin_addr.s_addr` in host byte order, read when the family is `AF_INET`) and the text
the platform routine `inet_ntop` prints for `sin6_addr` (read when it is `AF_INET6`). -/
structure SockAddr where
  sa_family : Nat
  port : Nat
  addr4 : Nat
  text6 : List Nat
deriving DecidableEq, Repr

/-- Decimal digits of `n` as ASCII bytes, most significant first (worker with fuel). -/
def decimalAux : Nat → Nat → List Nat → List Nat
  | 0, _, acc => acc
  | fuel + 1, n, acc =>
    if n < 10 then (n + 48) :: acc
    else decimalAux fuel (n / 10) ((n % 10 + 48) :: acc)

/-- The decimal text of `n` as ASCII bytes. -/
def decimal (n : Nat) : List Nat := decimalAux (n + 1) n []

/-- Modelled from the spec: `AJ_IntToString(val, buf, buflen)` of aj_util.c (absent):
the decimal text of a non-negative value; it fails when text and terminating NUL do not
fit in `buflen` bytes. -/
def AJ_IntToString (val : Nat) (buflen : Nat) : Option (List Nat) :=
  if (decimal val).length < buflen then some (decimal val) else none

/-- The dotted-quad text of a 32-bit IPv4 address given in host byte order. -/
def dottedQuad (addr : Nat) : List Nat :=
  decimal (addr / 16777216 % 256) ++ [46] ++ decimal (addr / 65536 % 256) ++ [46] ++
    decimal (addr / 256 % 256) ++ [46] ++ decimal (addr % 256)

/-- Modelled from the spec: `AJ_InetToString(addr, buf, buflen)` of aj_util.c (absent):
the dotted-quad text; it fails when text and terminating NUL do not fit. -/
def AJ_InetToString (addr : Nat) (buflen : Nat) : Option (List Nat) :=
  if (dottedQuad addr).length < buflen then some (dottedQuad addr) else none

/-- The platform routine `inet_ntop(AF_INET6, ..., buf, size)`: `NULL` (here `none`) when
the literal and its NUL do not fit in `size` bytes. -/
def inet_ntop6 (text6 : List Nat) (size : Nat) : Option (List Nat) :=
  if text6.length < size then some text6 else none

/-! ## Sender-info rewrite -/

/-- The array `snd` of `RewriteSenderInfo`: 'd', 'n', 'e', 's'. -/
def snd : List Nat := [100, 110, 101, 115]

/-- The array `sid` of `RewriteSenderInfo`: 's', 'i', 'd', '='. -/
def sid : List Nat := [115, 105, 100, 61]

/-- The static array `ipv` after `ipv[3] = digit`: 'i', 'p', 'v', digit, '='. -/
def ipv (digit : Nat) : List Nat := [105, 112, 118, digit, 61]

/-- The static array `upcv` after `upcv[4] = digit`: 'u', 'p', 'c', 'v', digit, '='. -/
def upcv (digit : Nat) : List Nat := [117, 112, 99, 118, digit, 61]

/-- The do-while loop of `RewriteSenderInfo` (lines 494-502), entered with `pkt` and
`match`: it reads `*pkt`, steps `pkt` down, compares the byte read with `snd[match]`,
and goes on while `pkt != readPtr && match != 4`. The result is the address of the last
byte read, which is the final value of `pkt` plus one (after a successful scan, the
address of the 's' of the marker), and the final `match`. A read outside the memory is
a fault (`none`); so is going on below address 0, the lowest address of the memory. -/
def scanMarker (mem : Mem) (readPtr : Nat) : Nat → Nat → Option (Nat × Nat)
  | 0, m =>
    match load mem 0 with
    | none => none
    | some b => if (if some b = snd[m]? then m + 1 else 0) ≠ 4 then none else some (0, 4)
  | p + 1, m =>
    match load mem (p + 1) with
    | none => none
    | some b =>
      if p ≠ readPtr ∧ (if some b = snd[m]? then m + 1 else 0) ≠ 4 then
        scanMarker mem readPtr p (if some b = snd[m]? then m + 1 else 0)
      else some (p + 1, if some b = snd[m]? then m + 1 else 0)

/-- One length-prefixed key/value pair as `RewriteSenderInfo` writes it (lines 523-527
and the two repetitions): `*pkt++ = sizeof(key) + strlen(val)`, then the key, then the
`strlen(val)` characters of the value. Returns the memory and the advanced `pkt`. -/
def putField (mem : Mem) (pkt : Nat) (key val : List Nat) : Option (Mem × Nat) :=
  match store mem pkt ((key.length + (cstr val).length) % 256) with
  | none => none
  | some m1 =>
    match memcpy m1 (pkt + 1) key with
    | none => none
    | some m2 =>
      match memcpy m2 (pkt + 1 + key.length) (cstr val) with
      | none => none
      | some m3 => some (m3, pkt + 1 + key.length + (cstr val).length)

/-- The part of `RewriteSenderInfo` after the conversions (lines 494-543): the backward
scan for the marker, the data-length field, the (optional) assert and the three
key/value pairs. `digit` is '4' or '6'. With `q` the address the scan ended on, the C
variable `pkt` is `q - 1` after the loop, so `pkt + 22` is `q + 21` and the fields start
at `pkt + 22 + 2 + 23 = q + 46`. -/
def rewriteAt (ndebug : Bool) (mem : Mem) (buf : AJ_IOBuffer) (digit : Nat)
    (sidStr ipvStr upcvStr : List Nat) : Option (AJ_Status × Mem × AJ_IOBuffer) :=
  match scanMarker mem buf.readPtr buf.writePtr 0 with
  | none => none
  | some (q, m) =>
    if m ≠ 4 then some (AJ_ERR_WRITE, mem, buf)
    else
      let dataLength := (23 + 1 + sid.length + (cstr sidStr).length + 1 + (ipv digit).length +
        (cstr ipvStr).length + 1 + (upcv digit).length + (cstr upcvStr).length) % 65536
      match store mem (q + 21) (dataLength / 256 % 256) with
      | none => none
      | some m1 =>
        match store m1 (q + 22) (dataLength % 256) with
        | none => none
        | some m2 =>
          if !ndebug && load m2 (q + 46 + 1) != some 115 then none
          else
            match putField m2 (q + 46) sid sidStr with
            | none => none
            | some (m3, pkt3) =>
              match putField m3 pkt3 (ipv digit) ipvStr with
              | none => none
              | some (m4, pkt4) =>
                match putField m4 pkt4 (upcv digit) upcvStr with
                | none => none
                | some (m5, pkt5) => some (AJ_OK, m5, { buf with writePtr := pkt5 })

/-- The 16-bit search id `RewriteSenderInfo` plucks from the first two bytes at
`readPtr`: `sidVal = *readPtr << 8; sidVal += *(readPtr + 1)` in `uint16_t`. -/
def sidVal (b0 b1 : Nat) : Nat := ((b0 * 256) % 65536 + b1) % 65536

/-- `RewriteSenderInfo(buf, saddr)` of aj_net.c (lines 443-544). The result is the
status, the memory and the buffer after the call; `none` means that the call does not
return normally: a memory fault, a failed `assert` (when `ndebug` is false), or the use
of the never initialised `ipvStr`/`upcvStr`. For a family other than `AF_INET` and
`AF_INET6` neither branch of the conversion runs (there is no `else`): the scan is made,
and the call returns `AJ_ERR_WRITE` when it finds no marker; when it finds one, the
never initialised strings are read. For the two families the static arrays `ipv` and
`upcv` are written before they are used, so they carry no state from call to call. -/
def RewriteSenderInfo (ndebug : Bool) (mem : Mem) (buf : AJ_IOBuffer) (saddr : SockAddr) :
    Option (AJ_Status × Mem × AJ_IOBuffer) :=
  match load mem buf.readPtr, load mem (buf.readPtr + 1) with
  | some b0, some b1 =>
    match AJ_IntToString (sidVal b0 b1) 6 with
    | none => some (AJ_ERR_WRITE, mem, buf)
    | some sidStr =>
      if saddr.sa_family = AF_INET then
        match AJ_IntToString (saddr.port % 65536) 6 with
        | none => some (AJ_ERR_WRITE, mem, buf)
        | some upcvStr =>
          match AJ_InetToString (saddr.addr4 % 4294967296) 40 with
          | none => some (AJ_ERR_WRITE, mem, buf)
          | some ipvStr => rewriteAt ndebug mem buf 52 sidStr ipvStr upcvStr
      else if saddr.sa_family = AF_INET6 then
        match AJ_IntToString (saddr.port % 65536) 6 with
        | none => some (AJ_ERR_WRITE, mem, buf)
        | some upcvStr =>
          match inet_ntop6 saddr.text6 40 with
          | none => some (AJ_ERR_WRITE, mem, buf)
          | some ipvStr => rewriteAt ndebug mem buf 54 sidStr ipvStr upcvStr
      else
        match scanMarker mem buf.readPtr buf.writePtr 0 with
        | none => none
        | some (_, m) => if m ≠ 4 then some (AJ_ERR_WRITE, mem, buf) else none
  | _, _ => none

/-! ## Sending a discovery packet -/

/-- The fields of `MCastContext` (aj_net.c lines 108-119) the send path reads. -/
structure MCastContext where
  udpSock : Int
  udp6Sock : Int
  mDnsSock : Int
  mDns6Sock : Int
  mDnsRecvSock : Int
  mDns6RecvSock : Int
  mDnsRecvAddr : SockAddr
deriving DecidableEq, Repr

/-- One entry of the list `getifaddrs` returns: `ifa_addr` (or `NULL`), `ifa_flags`
and `ifa_ifu.ifu_broadaddr` (or `NULL`). -/
structure IfAddr where
  ifa_addr : Option SockAddr
  ifa_flags : Nat
  ifu_broadaddr : Option SockAddr
deriving DecidableEq, Repr

/-- One `sendto` call as the platform saw it: socket, destination, the `tx` bytes at
`readPtr` that were offered, and the value the call returned. -/
structure SendRec where
  sock : Int
  dest : SockAddr
  tx : Nat
  data : List Nat
  ret : Int
deriving DecidableEq, Repr

/-- The surroundings of one `AJ_Net_SendTo` call: whether the code was compiled with
`NDEBUG`, the interface list `getifaddrs` returns, the value of `inet_pton(family, text)`
and the value the `n`-th `sendto` call returns (`n` counts the calls made so far). -/
structure NetEnv where
  ndebug : Bool
  ifaddrs : List IfAddr
  inet_pton : Nat → String → Int
  sendto : Nat → Int

/-- The state the send path works on: memory, the `AJ_IOBuffer` and the `sendto` calls
made so far. -/
structure NetState where
  mem : Mem
  buf : AJ_IOBuffer
  sent : List SendRec
deriving DecidableEq, Repr

/-- A `sendto(sock, buf->readPtr, tx, MSG_NOSIGNAL, dest, ...)` call: the environment
supplies the return value and the call is recorded. -/
def do_sendto (env : NetEnv) (st : NetState) (sock : Int) (tx : Nat) (dest : SockAddr) :
    Int × NetState :=
  (env.sendto st.sent.length,
    { st with sent := st.sent ++
        [{ sock := sock, dest := dest, tx := tx,
           data := (st.mem.drop st.buf.readPtr).take tx,
           ret := env.sendto st.sent.length }] })

/-- The test `tx == ret` followed by `sendSucceeded = TRUE`: the new value of
`sendSucceeded`. For the values `sendto` returns (-1 or a byte count) the comparison
of `size_t` with `ssize_t` is the equality of the integers. -/
def markSent (tx : Nat) (ret : Int) (sendSucceeded : Bool) : Bool :=
  if (tx : Int) = ret then true else sendSucceeded

/-- The loop of `sendToBroadcast(sock, port, buf, tx)` (aj_net.c lines 399-441) over
the interface list, carrying the state and `sendSucceeded`. `none`: a
`RewriteSenderInfo` call did not return normally. -/
def sendToBroadcastLoop (env : NetEnv) (sock : Int) (port : Nat) :
    List IfAddr → NetState → Bool → Option (Bool × NetState)
  | [], st, sendSucceeded => some (sendSucceeded, st)
  | addr :: rest, st, sendSucceeded =>
    match addr.ifa_addr with
    | none => sendToBroadcastLoop env sock port rest st sendSucceeded
    | some ifa =>
      if (ifa.sa_family = AF_INET ∨ AF_INET6 = ifa.sa_family) ∧
          addr.ifa_flags &&& IFF_UP ≠ 0 ∧ addr.ifa_flags &&& IFF_RUNNING ≠ 0 then
        match addr.ifu_broadaddr with
        | none => sendToBroadcastLoop env sock port rest st sendSucceeded
        | some sin_bcast =>
          if st.buf.flags &&& AJ_IO_BUF_MDNS ≠ 0 then
            match RewriteSenderInfo env.ndebug st.mem st.buf { ifa with port := port } with
            | none => none
            | some (status, mem1, buf1) =>
              if status ≠ AJ_OK then
                sendToBroadcastLoop env sock port rest { st with mem := mem1, buf := buf1 }
                  sendSucceeded
              else
                sendToBroadcastLoop env sock port rest
                  (do_sendto env { st with mem := mem1, buf := buf1 } sock
                    (AJ_IO_BUF_AVAIL buf1) { sin_bcast with port := port }).2
                  (markSent (AJ_IO_BUF_AVAIL buf1)
                    (do_sendto env { st with mem := mem1, buf := buf1 } sock
                      (AJ_IO_BUF_AVAIL buf1) { sin_bcast with port := port }).1 sendSucceeded)
          else sendToBroadcastLoop env sock port rest st sendSucceeded
      else sendToBroadcastLoop env sock port rest st sendSucceeded

/-- `sendToBroadcast(sock, port, buf, tx)` of aj_net.c: the loop started with
`sendSucceeded = FALSE` on the list `getifaddrs` returns. The parameter `tx` is
overwritten before its only use and is left out. -/
def sendToBroadcast (env : NetEnv) (sock : Int) (port : Nat) (st : NetState) :
    Option (Bool × NetState) :=
  sendToBroadcastLoop env sock port env.ifaddrs st false

/-- The locals `ret`, `sendSucceeded` and `tx` of `AJ_Net_SendTo`. -/
structure SendVars where
  ret : Int
  sendSucceeded : Bool
  tx : Nat
deriving DecidableEq, Repr

/-- The IPv4 multicast group of the bus-discovery protocol, 224.0.0.113, with its port. -/
def ajGroup4 : SockAddr :=
  { sa_family := AF_INET, port := AJ_UDP_PORT, addr4 := 0xE0000071, text6 := [] }

/-- The IPv6 multicast group of the bus-discovery protocol, ff02::13a, with its port. -/
def ajGroup6 : SockAddr :=
  { sa_family := AF_INET6, port := AJ_UDP_PORT, addr4 := 0,
    text6 := [102, 102, 48, 50, 58, 58, 49, 51, 97] }

/-- The IPv4 mDNS group, 224.0.0.251, with the mDNS port. -/
def mdnsGroup4 : SockAddr :=
  { sa_family := AF_INET, port := MDNS_UDP_PORT, addr4 := 0xE00000FB, text6 := [] }

/-- The IPv6 mDNS group, ff02::fb, with the mDNS port. -/
def mdnsGroup6 : SockAddr :=
  { sa_family := AF_INET6, port := MDNS_UDP_PORT, addr4 := 0,
    text6 := [102, 102, 48, 50, 58, 58, 102, 98] }

/-- A `sendto` of the `tx` pending bytes to `dest` followed by
`if (tx == ret) sendSucceeded = TRUE`, on the locals and the state. -/
def sendGroup (env : NetEnv) (sock : Int) (dest : SockAddr) (s : SendVars × NetState) :
    SendVars × NetState :=
  ({ s.1 with
      ret := (do_sendto env s.2 sock s.1.tx dest).1,
      sendSucceeded := markSent s.1.tx (do_sendto env s.2 sock s.1.tx dest).1 s.1.sendSucceeded },
    (do_sendto env s.2 sock s.1.tx dest).2)

/-- The statement `if (sendToBroadcast(sock, port, buf, tx) == TRUE) sendSucceeded = TRUE`. -/
def withBroadcast (env : NetEnv) (sock : Int) (port : Nat) (s : SendVars × NetState) :
    Option (SendVars × NetState) :=
  match sendToBroadcast env sock port s.2 with
  | none => none
  | some (b, st2) =>
    some ({ s.1 with sendSucceeded := if b then true else s.1.sendSucceeded }, st2)

/-- Lines 556-575 of `AJ_Net_SendTo`: the bus-discovery send to the IPv4 group and to the
subnet broadcast addresses. -/
def sendAJ4 (env : NetEnv) (context : MCastContext) (s : SendVars × NetState) :
    Option (SendVars × NetState) :=
  if context.udpSock ≠ INVALID_SOCKET ∧ s.2.buf.flags &&& AJ_IO_BUF_AJ ≠ 0 then
    withBroadcast env context.udpSock AJ_UDP_PORT
      (if env.inet_pton AF_INET AJ_IPV4_MULTICAST_GROUP = 1 then
        sendGroup env context.udpSock ajGroup4 s else s)
  else some s

/-- Lines 578-594 of `AJ_Net_SendTo`: the bus-discovery send to the IPv6 group. -/
def sendAJ6 (env : NetEnv) (context : MCastContext) (s : SendVars × NetState) :
    SendVars × NetState :=
  if context.udp6Sock ≠ INVALID_SOCKET ∧ s.2.buf.flags &&& AJ_IO_BUF_AJ ≠ 0 then
    if env.inet_pton AF_INET6 AJ_IPV6_MULTICAST_GROUP = 1 then
      sendGroup env context.udp6Sock ajGroup6 s else s
  else s

/-- Lines 597-604 of `AJ_Net_SendTo`: for an mDNS buffer the sender-info is rewritten
for `mDnsRecvAddr`; a failure sets `tx = 0`, a success sets `tx` to the new number of
pending bytes. -/
def rewriteForRecvAddr (env : NetEnv) (context : MCastContext) (s : SendVars × NetState) :
    Option (SendVars × NetState) :=
  if s.2.buf.flags &&& AJ_IO_BUF_MDNS ≠ 0 then
    match RewriteSenderInfo env.ndebug s.2.mem s.2.buf context.mDnsRecvAddr with
    | none => none
    | some (status, mem1, buf1) =>
      if status ≠ AJ_OK then
        some ({ s.1 with tx := 0 }, { s.2 with mem := mem1, buf := buf1 })
      else
        some ({ s.1 with tx := AJ_IO_BUF_AVAIL buf1 }, { s.2 with mem := mem1, buf := buf1 })
  else some s

/-- Lines 607-626 of `AJ_Net_SendTo`: the mDNS send to the IPv4 group and to the subnet
broadcast addresses. -/
def sendMDns4 (env : NetEnv) (context : MCastContext) (s : SendVars × NetState) :
    Option (SendVars × NetState) :=
  if context.mDnsSock ≠ INVALID_SOCKET ∧ s.2.buf.flags &&& AJ_IO_BUF_MDNS ≠ 0 then
    withBroadcast env context.mDnsSock MDNS_UDP_PORT
      (if env.inet_pton AF_INET MDNS_IPV4_MULTICAST_GROUP = 1 then
        sendGroup env context.mDnsSock mdnsGroup4 s else s)
  else some s

/-- Lines 628-651 of `AJ_Net_SendTo`: the mDNS send to the IPv6 group, after a rewrite
of the sender-info for that group. -/
def sendMDns6 (env : NetEnv) (context : MCastContext) (s : SendVars × NetState) :
    Option (SendVars × NetState) :=
  if context.mDns6Sock ≠ INVALID_SOCKET ∧ s.2.buf.flags &&& AJ_IO_BUF_MDNS ≠ 0 then
    if env.inet_pton AF_INET6 MDNS_IPV6_MULTICAST_GROUP = 1 then
      match RewriteSenderInfo env.ndebug s.2.mem s.2.buf mdnsGroup6 with
      | none => none
      | some (status, mem1, buf1) =>
        if status ≠ AJ_OK then
          some ({ s.1 with tx := 0 }, { s.2 with mem := mem1, buf := buf1 })
        else
          some (sendGroup env context.mDns6Sock mdnsGroup6
            ({ s.1 with tx := AJ_IO_BUF_AVAIL buf1 }, { s.2 with mem := mem1, buf := buf1 }))
    else some s
  else some s

/-- The first `if (tx > 0)` block of `AJ_Net_SendTo` (lines 555-595). -/
def sendAJ (env : NetEnv) (context : MCastContext) (s : SendVars × NetState) :
    Option (SendVars × NetState) :=
  if 0 < s.1.tx then
    match sendAJ4 env context s with
    | none => none
    | some s1 => some (sendAJ6 env context s1)
  else some s

/-- The locals of `AJ_Net_SendTo` on entry: `ret = -1`, `sendSucceeded = FALSE`,
`tx = AJ_IO_BUF_AVAIL(buf)`. -/
def sendVars0 (st : NetState) : SendVars :=
  { ret := -1, sendSucceeded := false, tx := AJ_IO_BUF_AVAIL st.buf }

/-- The statement `buf->readPtr += ret`. -/
def advanceRead (buf : AJ_IOBuffer) (ret : Int) : AJ_IOBuffer :=
  { buf with readPtr := ((buf.readPtr : Int) + ret).toNat }

/-- The tail of `AJ_Net_SendTo` (lines 606-662): the second `if (tx > 0)` block with the
mDNS sends and the test of `sendSucceeded`, then the buffer reset. -/
def sendTail (env : NetEnv) (context : MCastContext) (s : SendVars × NetState) :
    Option (AJ_Status × NetState) :=
  if 0 < s.1.tx then
    match sendMDns4 env context s with
    | none => none
    | some s3 =>
      match sendMDns6 env context s3 with
      | none => none
      | some s4 =>
        if !s4.1.sendSucceeded then some (AJ_ERR_WRITE, s4.2)
        else
          some (AJ_OK, { s4.2 with buf := AJ_IO_BUF_RESET (advanceRead s4.2.buf s4.1.ret) })
  else some (AJ_OK, { s.2 with buf := AJ_IO_BUF_RESET s.2.buf })

/-- `AJ_Net_SendTo(buf)` of aj_net.c (lines 546-663) on the state that holds the buffer.
`none`: the call does not return a status (failed `assert`, or a `RewriteSenderInfo`
call that does not return normally). -/
def AJ_Net_SendTo (env : NetEnv) (context : MCastContext) (st : NetState) :
    Option (AJ_Status × NetState) :=
  if !env.ndebug && st.buf.direction != AJ_IO_BUF_TX then none
  else
    match sendAJ env context (sendVars0 st, st) with
    | none => none
    | some s1 =>
      match rewriteForRecvAddr env context s1 with
      | none => none
      | some s2 => sendTail env context s2

/-- The memory `mem` with the bytes `xs` written at the addresses `a ..< a + xs.length`. -/
def splice (mem : Mem) (a : Nat) (xs : List Nat) : Mem :=
  mem.take a ++ xs ++ mem.drop (a + xs.length)

/-- The bytes of one length-prefixed key/value pair: the length byte, the key, the
characters of the value. -/
def fieldBytes (key val : List Nat) : List Nat :=
  [(key.length + (cstr val).length) % 256] ++ key ++ cstr val

/-- The value `RewriteSenderInfo` computes for `dataLength`. -/
def dataLengthOf (digit : Nat) (sidStr ipvStr upcvStr : List Nat) : Nat :=
  (23 + 1 + sid.length + (cstr sidStr).length + 1 + (ipv digit).length +
    (cstr ipvStr).length + 1 + (upcv digit).length + (cstr upcvStr).length) % 65536

/-! ## Sample data -/

/-- An mDNS response in memory: the 12-byte header with search id 0x1234, the
sender-info record ("sender-info" label, 10 bytes of type, class and ttl, the 2-byte
data length, 23 bytes of static pairs `txtvrs=0`, `ajpv=12`, `pv=02`), the pairs
`sid=1`, `ipv4=0.0.0.0`, `upcv4=0`, and 20 spare bytes. -/
def samplePacket : Mem :=
  [0x12, 0x34, 0, 0, 0, 0, 0, 0, 0, 0, 0, 0] ++
  [11, 115, 101, 110, 100, 101, 114, 45, 105, 110, 102, 111] ++
  [0, 16, 0, 1, 0, 0, 0, 120, 0, 0] ++ [0, 50] ++
  [8, 116, 120, 116, 118, 114, 115, 61, 48, 7, 97, 106, 112, 118, 61, 49, 50,
    5, 112, 118, 61, 48, 50] ++
  [5, 115, 105, 100, 61, 49] ++
  [12, 105, 112, 118, 52, 61, 48, 46, 48, 46, 48, 46, 48] ++
  [7, 117, 112, 99, 118, 52, 61, 48] ++
  List.replicate 20 0

/-- The transmit buffer over `samplePacket`: an mDNS buffer of 106 bytes that holds the
86 bytes of the response. -/
def sampleBuf : AJ_IOBuffer :=
  { direction := AJ_IO_BUF_TX, flags := AJ_IO_BUF_MDNS, bufSize := 106, bufStart := 0,
    readPtr := 0, writePtr := 86 }

/-- The interface address 192.168.0.1, port 9956. -/
def sampleAddr : SockAddr :=
  { sa_family := AF_INET, port := 9956, addr4 := 0xC0A80001, text6 := [] }

/-- The memory after the rewrite of `samplePacket` for `sampleAddr`: data length 60,
then `sid=4660`, `ipv4=192.168.0.1`, `upcv4=9956`. -/
def samplePacketRewritten : Mem :=
  [0x12, 0x34, 0, 0, 0, 0, 0, 0, 0, 0, 0, 0] ++
  [11, 115, 101, 110, 100, 101, 114, 45, 105, 110, 102, 111] ++
  [0, 16, 0, 1, 0, 0, 0, 120, 0, 0] ++ [0, 60] ++
  [8, 116, 120, 116, 118, 114, 115, 61, 48, 7, 97, 106, 112, 118, 61, 49, 50,
    5, 112, 118, 61, 48, 50] ++
  [8, 115, 105, 100, 61, 52, 54, 54, 48] ++
  [16, 105, 112, 118, 52, 61, 49, 57, 50, 46, 49, 54, 56, 46, 48, 46, 49] ++
  [10, 117, 112, 99, 118, 52, 61, 57, 57, 53, 54] ++
  List.replicate 10 0

/-- The buffer after the rewrite of `samplePacket` for `sampleAddr`. -/
def sampleBufRewritten : AJ_IOBuffer :=
  { direction := AJ_IO_BUF_TX, flags := AJ_IO_BUF_MDNS, bufSize := 106, bufStart := 0,
    readPtr := 0, writePtr := 96 }

/-! ## Bookkeeping for the send path -/

/-- From `st` to `st'` the `sendto` calls `new` were made, and `ok'` holds exactly when
`ok` held before or one of these calls transferred all the bytes it was given. -/
def Sends (st st' : NetState) (ok ok' : Bool) : Prop :=
  ∃ new : List SendRec, st'.sent = st.sent ++ new ∧
    (ok' = true ↔ (ok = true ∨ ∃ r ∈ new, (r.tx : Int) = r.ret))

/-- An environment in which every `sendto` transfers 20 bytes, `inet_pton` accepts the
group literals, and one interface (192.168.0.5, up and running, broadcast address
192.168.0.255) is configured; compiled with asserts. -/
def sampleEnv : NetEnv :=
  { ndebug := false,
    ifaddrs := [{ ifa_addr := some { sa_family := AF_INET, port := 0, addr4 := 0xC0A80005,
                                     text6 := [] },
                  ifa_flags := IFF_UP ||| IFF_RUNNING,
                  ifu_broadaddr := some { sa_family := AF_INET, port := 0,
                                          addr4 := 0xC0A800FF, text6 := [] } }],
    inet_pton := fun _ _ => 1,
    sendto := fun _ => 20 }

/-- A multicast context with all six sockets open and the mDNS reply address
10.0.0.1, port 40000. -/
def sampleContext : MCastContext :=
  { udpSock := 3, udp6Sock := 4, mDnsSock := 5, mDns6Sock := 6, mDnsRecvSock := 7,
    mDns6RecvSock := 8,
    mDnsRecvAddr := { sa_family := AF_INET, port := 40000, addr4 := 0x0A000001, text6 := [] } }

/-- A 32-byte memory holding a 20-byte packet that contains no "send" marker. -/
def plainPacket : Mem := [0x12, 0x34] ++ List.replicate 30 0

/-- An mDNS transmit buffer with the 20 bytes of `plainPacket` pending (a packet that
carries no sender-info record), nothing sent yet. -/
def mdnsNoMarkerState : NetState :=
  { mem := plainPacket,
    buf := { direction := AJ_IO_BUF_TX, flags := AJ_IO_BUF_MDNS, bufSize := 32, bufStart := 0,
             readPtr := 0, writePtr := 20 },
    sent := [] }

/-- A bus-discovery transmit buffer with the 20 bytes of `plainPacket` pending, nothing
sent yet. -/
def ajState : NetState :=
  { mem := plainPacket,
    buf := { direction := AJ_IO_BUF_TX, flags := AJ_IO_BUF_AJ, bufSize := 32, bufStart := 0,
             readPtr := 0, writePtr := 20 },
    sent := [] }

/-- The state after `AJ_Net_SendTo` on `ajState` in `sampleEnv`: the buffer is reset and
the packet went to the IPv4 and the IPv6 group of the bus-discovery protocol. -/
def ajStateSent : NetState :=
  { mem := plainPacket,
    buf := { direction := AJ_IO_BUF_TX, flags := 0, bufSize := 32, bufStart := 0,
             readPtr := 0, writePtr := 0 },
    sent := [{ sock := 3, dest := ajGroup4, tx := 20, data := plainPacket.take 20, ret := 20 },
             { sock := 4, dest := ajGroup6, tx := 20, data := plainPacket.take 20, ret := 20 }] }

/-! ## The marker of the sender-info record -/

/-- The bytes 's', 'e', 'n', 'd' stand at the addresses `q, q + 1, q + 2, q + 3`. -/
def markerAt (mem : Mem) (q : Nat) : Prop :=
  load mem q = some 115 ∧ load mem (q + 1) = some 101 ∧ load mem (q + 2) = some 110 ∧
    load mem (q + 3) = some 100

instance (mem : Mem) (q : Nat) : Decidable (markerAt mem q) := by
  unfold markerAt; exact inferInstance

/-- An mDNS transmit buffer with readPtr 0 and writePtr 20. -/
def buf20 : AJ_IOBuffer :=
  { direction := AJ_IO_BUF_TX, flags := AJ_IO_BUF_MDNS, bufSize := 32, bufStart := 0,
    readPtr := 0, writePtr := 20 }

/-! ## Cancellable socket I/O (src/target/linux/aj_net.c) -/

/-- The fields of `NetContext` (aj_net.c lines 103-106). -/
structure NetContext where
  tcpSock : Int
  udpSock : Int
deriving DecidableEq, Repr

/-- A system call the socket functions make, with the arguments that matter here:
`select(nfds, &fds, NULL, NULL, &tv)` with the descriptors put in `fds` and the two
fields of `tv`; `read` and `write` of 8 bytes on the interrupt descriptor; `recv`,
`recvfrom` and `send` with the socket and the byte count. -/
inductive SysCall where
  | select (nfds : Int) (fds : List Int) (tv_sec tv_usec : Nat)
  | read (fd : Int)
  | write (fd : Int)
  | recv (sock : Int) (len : Nat)
  | recvfrom (sock : Int) (len : Nat)
  | send (sock : Int) (len : Nat)
deriving DecidableEq, Repr

/-- What a `select` call hands back: its return value and the descriptors that are
set in `fds` afterwards. -/
structure SelectResult where
  rc : Int
  fds : List Int
deriving DecidableEq, Repr

/-- The surroundings of the socket functions: whether the code was compiled with
`NDEBUG`, the size `UDP_SEGBMAX` of the datagram buffer (aj_ardp.h, absent), and the
value each system call returns, given the calls the program made before it and the
arguments of the call. -/
structure SysEnv where
  ndebug : Bool
  udpSegbmax : Nat
  select : List SysCall → Int → List Int → Nat → Nat → SelectResult
  recv : List SysCall → Int → Nat → Int
  recvfrom : List SysCall → Int → Nat → Int
  send : List SysCall → Int → Nat → Int

/-- The file-scope variables `interruptFd` and `blocked` of aj_net.c (lines 209-217),
and the system calls made so far. -/
structure SockState where
  interruptFd : Int
  blocked : Bool
  calls : List SysCall
deriving DecidableEq, Repr

/-- Modelled from the spec: the macro `AJ_IO_BUF_SPACE` of aj_bufio.h (absent): the free
bytes after `writePtr`, `(uint32_t)(bufSize - (writePtr - bufStart))`. -/
def AJ_IO_BUF_SPACE (buf : AJ_IOBuffer) : Nat :=
  (((buf.bufSize : Int) - ((buf.writePtr : Int) - (buf.bufStart : Int))) % 4294967296).toNat

/-- The statement `buf->writePtr += ret`. -/
def advanceWrite (buf : AJ_IOBuffer) (ret : Int) : AJ_IOBuffer :=
  { buf with writePtr := ((buf.writePtr : Int) + ret).toNat }

/-- `AJ_Net_Send(buf)` of aj_net.c (lines 183-207). `none`: the `assert` on the
direction failed. The bytes handed to `send` are the `tx` bytes at `readPtr`. -/
def AJ_Net_Send (env : SysEnv) (context : NetContext) (st : SockState) (buf : AJ_IOBuffer) :
    Option (AJ_Status × SockState × AJ_IOBuffer) :=
  if !env.ndebug && buf.direction != AJ_IO_BUF_TX then none
  else if 0 < AJ_IO_BUF_AVAIL buf then
    if env.send st.calls context.tcpSock (AJ_IO_BUF_AVAIL buf) = -1 then
      some (AJ_ERR_WRITE,
        { st with calls := st.calls ++ [SysCall.send context.tcpSock (AJ_IO_BUF_AVAIL buf)] },
        buf)
    else
      some (AJ_OK,
        { st with calls := st.calls ++ [SysCall.send context.tcpSock (AJ_IO_BUF_AVAIL buf)] },
        if AJ_IO_BUF_AVAIL (advanceRead buf
            (env.send st.calls context.tcpSock (AJ_IO_BUF_AVAIL buf))) = 0 then
          AJ_IO_BUF_RESET (advanceRead buf
            (env.send st.calls context.tcpSock (AJ_IO_BUF_AVAIL buf)))
        else advanceRead buf (env.send st.calls context.tcpSock (AJ_IO_BUF_AVAIL buf)))
  else
    some (AJ_OK, st, if AJ_IO_BUF_AVAIL buf = 0 then AJ_IO_BUF_RESET buf else buf)

/-- `AJ_Net_Interrupt()` of aj_net.c (lines 222-231): a `write` on the interrupt
descriptor when `blocked` is set, nothing otherwise. The value of the `write` is only
logged. -/
def AJ_Net_Interrupt (st : SockState) : SockState :=
  if st.blocked then { st with calls := st.calls ++ [SysCall.write st.interruptFd] } else st

/-- The descriptor set and `maxFd` that `AJ_Net_Recv` builds (lines 248-253). -/
def recvFds (context : NetContext) (st : SockState) : Int × List Int :=
  if 0 ≤ st.interruptFd then
    (max context.tcpSock st.interruptFd, [context.tcpSock, st.interruptFd])
  else (context.tcpSock, [context.tcpSock])

/-- The `select` call of `AJ_Net_Recv` (line 255), with `tv` built from `timeout` as in
line 242. -/
def recvSelect (context : NetContext) (st : SockState) (timeout : Nat) : SysCall :=
  SysCall.select ((recvFds context st).1 + 1) (recvFds context st).2 (timeout / 1000)
    (1000 * (timeout % 1000))

/-- `AJ_Net_Recv(buf, len, timeout)` of aj_net.c (lines 234-279). `none`: the `assert`
on the direction failed. `blocked` is set for the duration of the `select` call only,
so it is clear in every state the function returns. The bytes `recv` stores are not
modelled. -/
def AJ_Net_Recv (env : SysEnv) (context : NetContext) (st : SockState) (buf : AJ_IOBuffer)
    (len timeout : Nat) : Option (AJ_Status × SockState × AJ_IOBuffer) :=
  if !env.ndebug && buf.direction != AJ_IO_BUF_RX then none
  else if (env.select st.calls ((recvFds context st).1 + 1) (recvFds context st).2
      (timeout / 1000) (1000 * (timeout % 1000))).rc = 0 then
    some (AJ_ERR_TIMEOUT,
      { st with blocked := false, calls := st.calls ++ [recvSelect context st timeout] }, buf)
  else if 0 ≤ st.interruptFd ∧
      st.interruptFd ∈ (env.select st.calls ((recvFds context st).1 + 1)
        (recvFds context st).2 (timeout / 1000) (1000 * (timeout % 1000))).fds then
    some (AJ_ERR_INTERRUPTED,
      { st with blocked := false,
                calls := st.calls ++ [recvSelect context st timeout,
                                      SysCall.read st.interruptFd] }, buf)
  else if min (AJ_IO_BUF_SPACE buf) len ≠ 0 then
    if env.recv (st.calls ++ [recvSelect context st timeout]) context.tcpSock
          (min (AJ_IO_BUF_SPACE buf) len) = -1 ∨
        env.recv (st.calls ++ [recvSelect context st timeout]) context.tcpSock
          (min (AJ_IO_BUF_SPACE buf) len) = 0 then
      some (AJ_ERR_READ,
        { st with blocked := false,
                  calls := st.calls ++ [recvSelect context st timeout,
                    SysCall.recv context.tcpSock (min (AJ_IO_BUF_SPACE buf) len)] }, buf)
    else
      some (AJ_OK,
        { st with blocked := false,
                  calls := st.calls ++ [recvSelect context st timeout,
                    SysCall.recv context.tcpSock (min (AJ_IO_BUF_SPACE buf) len)] },
        advanceWrite buf (env.recv (st.calls ++ [recvSelect context st timeout])
          context.tcpSock (min (AJ_IO_BUF_SPACE buf) len)))
  else
    some (AJ_OK,
      { st with blocked := false, calls := st.calls ++ [recvSelect context st timeout] }, buf)

/-- The descriptor set that `AJ_ARDP_UDP_Recv` builds (lines 1239-1243). -/
def ardpFds (ctx : NetContext) (st : SockState) : List Int :=
  if 0 < st.interruptFd then [ctx.udpSock, st.interruptFd] else [ctx.udpSock]

/-- The `select` call of `AJ_ARDP_UDP_Recv` (line 1246), with
`maxFd = max(ctx->udpSock, interruptFd)`. -/
def ardpSelect (ctx : NetContext) (st : SockState) (timeout : Nat) : SysCall :=
  SysCall.select (max ctx.udpSock st.interruptFd + 1) (ardpFds ctx st) (timeout / 1000)
    (1000 * (timeout % 1000))

/-- `AJ_ARDP_UDP_Recv(context, data, recved, timeout)` of aj_net.c (lines 1221-1273):
the status, the state, and the value stored in `*recved` when a datagram was read
(`none` when `*data` stays `NULL`). -/
def AJ_ARDP_UDP_Recv (env : SysEnv) (ctx : NetContext) (st : SockState) (timeout : Nat) :
    AJ_Status × SockState × Option Int :=
  if (env.select st.calls (max ctx.udpSock st.interruptFd + 1) (ardpFds ctx st)
      (timeout / 1000) (1000 * (timeout % 1000))).rc = 0 then
    (AJ_ERR_TIMEOUT,
      { st with blocked := false, calls := st.calls ++ [ardpSelect ctx st timeout] }, none)
  else if (env.select st.calls (max ctx.udpSock st.interruptFd + 1) (ardpFds ctx st)
      (timeout / 1000) (1000 * (timeout % 1000))).rc = -1 then
    (AJ_ERR_READ,
      { st with blocked := false, calls := st.calls ++ [ardpSelect ctx st timeout] }, none)
  else if 0 < st.interruptFd ∧
      st.interruptFd ∈ (env.select st.calls (max ctx.udpSock st.interruptFd + 1)
        (ardpFds ctx st) (timeout / 1000) (1000 * (timeout % 1000))).fds then
    (AJ_ERR_INTERRUPTED,
      { st with blocked := false,
                calls := st.calls ++ [ardpSelect ctx st timeout,
                                      SysCall.read st.interruptFd] }, none)
  else if ctx.udpSock ∈ (env.select st.calls (max ctx.udpSock st.interruptFd + 1)
      (ardpFds ctx st) (timeout / 1000) (1000 * (timeout % 1000))).fds then
    if env.recvfrom (st.calls ++ [ardpSelect ctx st timeout]) ctx.udpSock env.udpSegbmax
        = -1 then
      (AJ_ERR_READ,
        { st with blocked := false,
                  calls := st.calls ++ [ardpSelect ctx st timeout,
                    SysCall.recvfrom ctx.udpSock env.udpSegbmax] }, none)
    else
      (AJ_OK,
        { st with blocked := false,
                  calls := st.calls ++ [ardpSelect ctx st timeout,
                    SysCall.recvfrom ctx.udpSock env.udpSegbmax] },
        some (env.recvfrom (st.calls ++ [ardpSelect ctx st timeout]) ctx.udpSock
          env.udpSegbmax))
  else
    (AJ_OK, { st with blocked := false, calls := st.calls ++ [ardpSelect ctx st timeout] },
      none)

/-- The descriptor set of `AJ_Net_RecvFrom` (lines 683-708): `mDnsRecvSock`, then each
of the other five sockets that is open, in the order of the source. -/
def recvFromFds (context : MCastContext) : List Int :=
  [context.mDnsRecvSock] ++
  (if context.mDns6RecvSock ≠ INVALID_SOCKET then [context.mDns6RecvSock] else []) ++
  (if context.udpSock ≠ INVALID_SOCKET then [context.udpSock] else []) ++
  (if context.udp6Sock ≠ INVALID_SOCKET then [context.udp6Sock] else []) ++
  (if context.mDnsSock ≠ INVALID_SOCKET then [context.mDnsSock] else []) ++
  (if context.mDns6Sock ≠ INVALID_SOCKET then [context.mDns6Sock] else [])

/-- The value of `maxFd` in `AJ_Net_RecvFrom` (lines 685-708). -/
def recvFromMaxFd (context : MCastContext) : Int :=
  (recvFromFds context).foldl max context.mDnsRecvSock

/-- The `select` call of `AJ_Net_RecvFrom` (line 710). -/
def recvFromSelect (context : MCastContext) (timeout : Nat) : SysCall :=
  SysCall.select (recvFromMaxFd context + 1) (recvFromFds context) (timeout / 1000)
    (1000 * (timeout % 1000))

/-- The six sockets `AJ_Net_RecvFrom` tries after the `select`, in the order of the
source (lines 718-836), each with the flag it tags the buffer with. -/
def recvFromOrder (context : MCastContext) : List (Int × Nat) :=
  [(context.mDnsRecvSock, AJ_IO_BUF_MDNS), (context.mDns6RecvSock, AJ_IO_BUF_MDNS),
   (context.udp6Sock, AJ_IO_BUF_AJ), (context.udpSock, AJ_IO_BUF_AJ),
   (context.mDnsSock, AJ_IO_BUF_MDNS), (context.mDns6Sock, AJ_IO_BUF_MDNS)]

/-- The six blocks of `AJ_Net_RecvFrom` after the `select` (lines 718-836), which differ
only in socket and flag: `rx = AJ_IO_BUF_SPACE(buf)`; if the socket is open and set in
`fds` and `min(rx, len)` is not 0, one `recvfrom`; `-1` sets `status = AJ_ERR_READ` and
goes on with the next socket, any other value tags the buffer, advances `writePtr`, sets
`status = AJ_OK` and jumps to `Finished`. The `scope_id` the IPv6 blocks store and the
bytes received are not modelled. -/
def recvFromSocks (env : SysEnv) (fds : List Int) (len : Nat) :
    List (Int × Nat) → AJ_Status → SockState → AJ_IOBuffer →
    AJ_Status × SockState × AJ_IOBuffer
  | [], status, st, buf => (status, st, buf)
  | (sock, flag) :: rest, status, st, buf =>
    if sock ≠ INVALID_SOCKET ∧ sock ∈ fds then
      if min (AJ_IO_BUF_SPACE buf) len ≠ 0 then
        if env.recvfrom st.calls sock (min (AJ_IO_BUF_SPACE buf) len) = -1 then
          recvFromSocks env fds len rest AJ_ERR_READ
            { st with calls := st.calls ++
                [SysCall.recvfrom sock (min (AJ_IO_BUF_SPACE buf) len)] } buf
        else
          (AJ_OK,
            { st with calls := st.calls ++
                [SysCall.recvfrom sock (min (AJ_IO_BUF_SPACE buf) len)] },
            advanceWrite { buf with flags := buf.flags ||| flag }
              (env.recvfrom st.calls sock (min (AJ_IO_BUF_SPACE buf) len)))
      else recvFromSocks env fds len rest status st buf
    else recvFromSocks env fds len rest status st buf

/-- `AJ_Net_RecvFrom(buf, len, timeout)` of aj_net.c (lines 665-844). `none`: one of the
two asserts failed. Neither `interruptFd` nor `blocked` is read or written. -/
def AJ_Net_RecvFrom (env : SysEnv) (context : MCastContext) (st : SockState)
    (buf : AJ_IOBuffer) (len timeout : Nat) : Option (AJ_Status × SockState × AJ_IOBuffer) :=
  if !env.ndebug && (buf.direction != AJ_IO_BUF_RX || context.mDnsRecvSock == INVALID_SOCKET)
  then none
  else if (env.select st.calls (recvFromMaxFd context + 1) (recvFromFds context)
      (timeout / 1000) (1000 * (timeout % 1000))).rc = 0 then
    some (AJ_ERR_TIMEOUT,
      { st with calls := st.calls ++ [recvFromSelect context timeout] }, buf)
  else
    some (recvFromSocks env
      (env.select st.calls (recvFromMaxFd context + 1) (recvFromFds context)
        (timeout / 1000) (1000 * (timeout % 1000))).fds
      len (recvFromOrder context) AJ_OK
      { st with calls := st.calls ++ [recvFromSelect context timeout] } buf)

/-! ## Bookkeeping and sample data for the socket functions -/

/-- The calls `pre`, made one after the other from the history `hist`, are `recvfrom`
calls that each returned -1. -/
def allFailed (env : SysEnv) : List SysCall → List SysCall → Bool
  | _, [] => true
  | hist, SysCall.recvfrom s l :: rest =>
    env.recvfrom hist s l == -1 && allFailed env (hist ++ [SysCall.recvfrom s l]) rest
  | _, _ :: _ => false

/-- An environment compiled with asserts in which `select` reports the watched
descriptors that are in `ready` (and returns their number), and every `recv`,
`recvfrom` and `send` returns `ret`. -/
def readyEnv (ready : List Int) (ret : Int) : SysEnv :=
  { ndebug := false,
    udpSegbmax := 1472,
    select := fun _ _ fds _ _ =>
      { rc := ((fds.filter (fun fd => ready.contains fd)).length : Int),
        fds := fds.filter (fun fd => ready.contains fd) },
    recv := fun _ _ _ => ret,
    recvfrom := fun _ _ _ => ret,
    send := fun _ _ _ => ret }

/-- A connection with the TCP socket 5 and the UDP socket 6. -/
def tcpContext : NetContext := { tcpSock := 5, udpSock := 6 }

/-- The interrupt descriptor 9 is open, no wait is outstanding and no call was made. -/
def idleState : SockState := { interruptFd := 9, blocked := false, calls := [] }

/-- An empty receive buffer of 64 bytes with no flag set. -/
def rxBuf : AJ_IOBuffer :=
  { direction := AJ_IO_BUF_RX, flags := 0, bufSize := 64, bufStart := 0, readPtr := 0,
    writePtr := 0 }

/-- An empty receive buffer of 64 bytes that still carries the flag `AJ_IO_BUF_AJ`. -/
def staleRxBuf : AJ_IOBuffer :=
  { direction := AJ_IO_BUF_RX, flags := AJ_IO_BUF_AJ, bufSize := 64, bufStart := 0,
    readPtr := 0, writePtr := 0 }

/-- The mDNS response `samplePacket` pending in `sampleBuf`, nothing sent yet. -/
def sampleState : NetState := { mem := samplePacket, buf := sampleBuf, sent := [] }

/-- The interface 192.168.0.1, up and running, with the broadcast address
192.168.0.255. -/
def bcastIf : IfAddr :=
  { ifa_addr := some { sa_family := AF_INET, port := 0, addr4 := 0xC0A80001, text6 := [] },
    ifa_flags := IFF_UP ||| IFF_RUNNING,
    ifu_broadaddr := some { sa_family := AF_INET, port := 0, addr4 := 0xC0A800FF,
                            text6 := [] } }

/-- An environment with the one interface `bcastIf` in which every `sendto` transfers
96 bytes. -/
def bcastEnv : NetEnv :=
  { ndebug := false, ifaddrs := [bcastIf], inet_pton := fun _ _ => 1, sendto := fun _ => 96 }

/-- The state after `sendToBroadcast` on `sampleState` in `bcastEnv` with socket 5 and
port 9956: the packet is rewritten for 192.168.0.1 and went to 192.168.0.255. -/
def bcastSentState : NetState :=
  { mem := samplePacketRewritten,
    buf := sampleBufRewritten,
    sent := [{ sock := 5,
               dest := { sa_family := AF_INET, port := 9956, addr4 := 0xC0A800FF, text6 := [] },
               tx := 96, data := samplePacketRewritten.take 96, ret := 96 }] }

/-- An entry of family `AF_INET6` (address text "fe80::1"), up and running, whose
`ifu_broadaddr` is not `NULL`. -/
def v6If : IfAddr :=
  { ifa_addr := some { sa_family := AF_INET6, port := 0, addr4 := 0,
                       text6 := [102, 101, 56, 48, 58, 58, 49] },
    ifa_flags := IFF_UP ||| IFF_RUNNING,
    ifu_broadaddr := some { sa_family := AF_INET6, port := 0, addr4 := 0,
                            text6 := [102, 102, 48, 50, 58, 58, 49] } }

/-- An environment whose only interface entry is `v6If`. -/
def v6Env : NetEnv :=
  { ndebug := false, ifaddrs := [v6If], inet_pton := fun _ _ => 1, sendto := fun _ => 92 }

/-! ## The timeout of the waits, the event counter, the reads of the scan -/

/-- The initialiser `struct timeval tv = { timeout / 1000, 1000 * (timeout % 1000) }` of
`AJ_Net_Recv` (line 242), `AJ_Net_RecvFrom` (line 676) and `AJ_ARDP_UDP_Recv`
(line 1224), with `timeout` a `uint32_t`: both expressions are computed in 32-bit
unsigned arithmetic. The result is `(tv_sec, tv_usec)`. -/
def timevalOf (timeout : Nat) : Nat × Nat :=
  ((timeout % 4294967296) / 1000 % 4294967296,
    (1000 * ((timeout % 4294967296) % 1000)) % 4294967296)

/-- The counter of the eventfd `fd` after the calls `calls`, starting from 0 (the descriptor
is created with `eventfd(0, O_NONBLOCK)`): a `read` takes the counter back to 0, and every
`write` on it is counted as adding one. (`AJ_Net_Interrupt` writes the local `u64` without
setting it; the count stands for a write that raises the counter.) -/
def eventCounter (fd : Int) (calls : List SysCall) : Nat :=
  calls.foldl
    (fun n c =>
      match c with
      | SysCall.write f => if f = fd then n + 1 else n
      | SysCall.read f => if f = fd then 0 else n
      | _ => n)
    0

/-- In the environment `env` the descriptor `fd` behaves as an eventfd: `select` reports
it ready exactly when it is watched and its counter is not 0, and `select` does not
return 0 when it reports a descriptor ready. A `select` that fails and leaves the
descriptor set as it was given is excluded: it would leave `fd` in the set with the
counter at 0. -/
def EventfdFaithful (env : SysEnv) (fd : Int) : Prop :=
  ∀ (calls : List SysCall) (nfds : Int) (fds : List Int) (s us : Nat),
    (fd ∈ (env.select calls nfds fds s us).fds ↔ (fd ∈ fds ∧ 0 < eventCounter fd calls)) ∧
    ((env.select calls nfds fds s us).fds ≠ [] → (env.select calls nfds fds s us).rc ≠ 0)

/-- An environment compiled with asserts in which `fd` is an eventfd: `select` reports
the watched descriptors that are in `ready`, and `fd` when it is watched and its counter
is not 0; every `recv`, `recvfrom` and `send` returns `ret`. -/
def eventfdEnv (fd : Int) (ready : List Int) (ret : Int) : SysEnv :=
  { ndebug := false,
    udpSegbmax := 1472,
    select := fun calls _ fds _ _ =>
      { rc := ((fds.filter (fun d =>
                  (d != fd && ready.contains d) ||
                    (d == fd && decide (0 < eventCounter fd calls)))).length : Int),
        fds := fds.filter (fun d =>
                  (d != fd && ready.contains d) ||
                    (d == fd && decide (0 < eventCounter fd calls))) },
    recv := fun _ _ _ => ret,
    recvfrom := fun _ _ _ => ret,
    send := fun _ _ _ => ret }

/-- The addresses the do-while loop of `RewriteSenderInfo` (lines 494-502) reads, in the
order it reads them, when entered with `pkt` and `match`: the companion of `scanMarker`,
with the same tests. A read that faults is listed too; the list ends there. -/
def scanReads (mem : Mem) (readPtr : Nat) : Nat → Nat → List Nat
  | 0, _ => [0]
  | p + 1, m =>
    match load mem (p + 1) with
    | none => [p + 1]
    | some b =>
      if p ≠ readPtr ∧ (if some b = snd[m]? then m + 1 else 0) ≠ 4 then
        (p + 1) :: scanReads mem readPtr p (if some b = snd[m]? then m + 1 else 0)
      else [p + 1]

/-- A 32-byte memory with the marker 's', 'e', 'n', 'd' at the addresses 2 to 5, below an
empty buffer that starts at address 8. -/
def markerBelowPacket : Mem := [0, 0, 115, 101, 110, 100, 0, 0] ++ List.replicate 24 0

/-- An empty mDNS transmit buffer of 24 bytes that starts at address 8. -/
def emptyBuf : AJ_IOBuffer :=
  { direction := AJ_IO_BUF_TX, flags := AJ_IO_BUF_MDNS, bufSize := 24, bufStart := 8,
    readPtr := 8, writePtr := 8 }

/-- The transmit buffer `sampleBuf` with the capacity cut to the 86 bytes it holds. -/
def fullBuf : AJ_IOBuffer := { sampleBuf with bufSize := 86 }

/-- The characters of an address literal: a decimal digit, a hexadecimal letter, '.' or
':'. -/
def isAddrChar (c : Nat) : Bool :=
  (decide (48 ≤ c) && decide (c ≤ 57)) || (decide (97 ≤ c) && decide (c ≤ 102)) ||
    (decide (65 ≤ c) && decide (c ≤ 70)) || c == 46 || c == 58

/-- The byte is none of the letters 's', 'e', 'n', 'd' of the marker. -/
def neutralByte (b : Nat) : Bool := b != 100 && b != 110 && b != 101 && b != 115

/-- The byte at address `a` can be read and is no letter of the marker. -/
def neutralAt (mem : Mem) (a : Nat) : Bool :=
  match load mem a with
  | some b => neutralByte b
  | none => false

/-- The memory after the rewrite of `samplePacket` for the address 10.0.0.1, port 40000:
data length 58, then `sid=4660`, `ipv4=10.0.0.1`, `upcv4=40000`. -/
def samplePacketRecv : Mem :=
  [0x12, 0x34, 0, 0, 0, 0, 0, 0, 0, 0, 0, 0] ++
  [11, 115, 101, 110, 100, 101, 114, 45, 105, 110, 102, 111] ++
  [0, 16, 0, 1, 0, 0, 0, 120, 0, 0] ++ [0, 58] ++
  [8, 116, 120, 116, 118, 114, 115, 61, 48, 7, 97, 106, 112, 118, 61, 49, 50,
    5, 112, 118, 61, 48, 50] ++
  [8, 115, 105, 100, 61, 52, 54, 54, 48] ++
  [13, 105, 112, 118, 52, 61, 49, 48, 46, 48, 46, 48, 46, 49] ++
  [11, 117, 112, 99, 118, 52, 61, 52, 48, 48, 48, 48] ++
  List.replicate 12 0

/-- The 475 bytes of `txDataMCast` filled to the last byte by an mDNS packet, followed by
64 bytes that stand for the memory behind the array: the header with search id 0xFFFF,
373 bytes of other sections, and the sender-info record with the longest IPv4 fields,
`sid=65535`, `ipv4=192.168.100.100`, `upcv4=40000` (data length 66). The marker is at
address 386. -/
def fullQueryPacket : Mem :=
  [0xFF, 0xFF, 0, 0, 0, 0, 0, 0, 0, 0, 0, 0] ++ List.replicate 373 0 ++
  [11, 115, 101, 110, 100, 101, 114, 45, 105, 110, 102, 111] ++
  [0, 16, 0, 1, 0, 0, 0, 120, 0, 0] ++ [0, 66] ++
  [8, 116, 120, 116, 118, 114, 115, 61, 48, 7, 97, 106, 112, 118, 61, 49, 50,
    5, 112, 118, 61, 48, 50] ++
  [9, 115, 105, 100, 61, 54, 53, 53, 51, 53] ++
  [20, 105, 112, 118, 52, 61, 49, 57, 50, 46, 49, 54, 56, 46, 49, 48, 48, 46, 49, 48, 48] ++
  [11, 117, 112, 99, 118, 52, 61, 52, 48, 48, 48, 48] ++
  List.replicate 64 0

/-- The transmit buffer of the multicast socket as `AJ_Net_MCastUp` sets it up over
`txDataMCast` (line 1150), full: `bufSize` is 475 and `writePtr` is at the end. -/
def mcastTxBuf : AJ_IOBuffer :=
  { direction := AJ_IO_BUF_TX, flags := AJ_IO_BUF_MDNS, bufSize := 475, bufStart := 0,
    readPtr := 0, writePtr := 475 }

/-- The IPv6 interface address fe80::1234:5678:9abc:def0, port 9956. -/
def linkLocalAddr : SockAddr :=
  { sa_family := AF_INET6, port := 9956, addr4 := 0,
    text6 := [102, 101, 56, 48, 58, 58, 49, 50, 51, 52, 58, 53, 54, 55, 56, 58, 57, 97, 98,
      99, 58, 100, 101, 102, 48] }

/-- The IPv4 address 192.168.100.100, port 40000: the longest IPv4 literal and port
text. -/
def longV4Addr : SockAddr :=
  { sa_family := AF_INET, port := 40000, addr4 := 0xC0A86464, text6 := [] }

/-- An environment compiled with asserts in which `select` fails: it returns -1 and
leaves the descriptor set as it was given; every `recv`, `recvfrom` and `send` returns
-1. -/
def failedSelectEnv : SysEnv :=
  { ndebug := false,
    udpSegbmax := 1472,
    select := fun _ _ fds _ _ => { rc := -1, fds := fds },
    recv := fun _ _ _ => -1,
    recvfrom := fun _ _ _ => -1,
    send := fun _ _ _ => -1 }

/-! ## Connection setup and teardown (src/target/linux/aj_net.c) -/

/-- Modelled from the spec: the address-type bit `AJ_ADDR_UDP4` of a candidate
(aj_net.h, absent): the datagram transport over IPv4 is advertised. The four bits are
distinct; only that is used. -/
def AJ_ADDR_UDP4 : Nat := 0x01

/-- Modelled from the spec: the address-type bit `AJ_ADDR_UDP6` (aj_net.h, absent). -/
def AJ_ADDR_UDP6 : Nat := 0x02

/-- Modelled from the spec: the address-type bit `AJ_ADDR_TCP6` (aj_net.h, absent). -/
def AJ_ADDR_TCP6 : Nat := 0x08

/-- Socket type of stream sockets (platform header). -/
def SOCK_STREAM : Nat := 1

/-- Socket type of datagram sockets (platform header). -/
def SOCK_DGRAM : Nat := 2

/-- A call the connection functions make on the platform or on the ARDP layer, with the
value it returned: `eventfd(0, O_NONBLOCK)`; `socket(family, type, 0)`;
`connect(fd, &addrBuf, addrSize)` with the family stored in `addrBuf` (0 after the
`memset`) and `addrSize` (`none` while the variable is not initialised);
`setsockopt(fd, SOL_SOCKET, SO_LINGER, {1, 0})`; `shutdown(fd, SHUT_RDWR)`; `close(fd)`;
`AJ_ARDP_UDP_Connect` (whether it returned `AJ_OK`); `AJ_ARDP_Disconnect(FALSE)`. -/
inductive ConnCall where
  | eventfd (ret : Int)
  | socket (family type : Nat) (ret : Int)
  | connect (fd : Int) (family : Nat) (addrSize : Option Nat) (ret : Int)
  | setsockopt (fd : Int)
  | shutdown (fd : Int)
  | close (fd : Int)
  | ardpConnect (ok : Bool)
  | ardpDisconnect
deriving DecidableEq, Repr

/-- The surroundings of the connection functions: for each call that can fail, whether
it succeeds, given the calls made before it (`handshakeOk` stands for
`AJ_ARDP_UDP_Connect` of aj_ardp.c, absent, returning `AJ_OK`); and the addresses and
sizes of the static arrays `rxData` and `txData` (`AJ_RX_DATA_SIZE`, `AJ_TX_DATA_SIZE`,
absent). -/
structure ConnEnv where
  eventfdOk : List ConnCall → Bool
  socketOk : List ConnCall → Nat → Nat → Bool
  connectOk : List ConnCall → Int → Nat → Bool
  handshakeOk : List ConnCall → Bool
  rxData : Nat
  rxSize : Nat
  txData : Nat
  txSize : Nat

/-- The caller's handle `AJ_NetSocket` (`bus->sock`): the two I/O buffers, whether their
`context` pointers are set (when set they point to `netContext`), and the `recv` and
`send` function pointers (0: `NULL`, 1: `AJ_Net_Recv` / `AJ_Net_Send`, 2: `AJ_ARDP_Recv` /
`AJ_ARDP_Send`). -/
structure AJ_NetSocket where
  tx : AJ_IOBuffer
  txContext : Bool
  txSend : Nat
  rx : AJ_IOBuffer
  rxContext : Bool
  rxRecv : Nat
deriving DecidableEq, Repr

/-- The handle after `memset(netSock, 0, sizeof(AJ_NetSocket))`. -/
def zeroNetSocket : AJ_NetSocket :=
  { tx := { direction := 0, flags := 0, bufSize := 0, bufStart := 0, readPtr := 0,
            writePtr := 0 },
    txContext := false, txSend := 0,
    rx := { direction := 0, flags := 0, bufSize := 0, bufStart := 0, readPtr := 0,
            writePtr := 0 },
    rxContext := false, rxRecv := 0 }

/-- Modelled from the spec: `AJ_IOBufInit(ioBuf, buffer, bufLen, direction, context)` of
aj_bufio.c (absent): an empty buffer over `buffer` with no flag set. -/
def AJ_IOBufInit (buffer bufLen direction : Nat) : AJ_IOBuffer :=
  { direction := direction, flags := 0, bufSize := bufLen, bufStart := buffer,
    readPtr := buffer, writePtr := buffer }

/-- The file-scope state of aj_net.c the connection functions work on (`interruptFd`,
`netContext`), the caller's handle, the descriptors that are open in the process, and
the calls made so far. -/
structure ConnState where
  interruptFd : Int
  tcpSock : Int
  udpSock : Int
  sock : AJ_NetSocket
  openFds : List Int
  calls : List ConnCall
deriving DecidableEq, Repr

/-- The descriptor a successful `eventfd` or `socket` returns: the lowest number that is
not open. -/
def lowestFree (openFds : List Int) : Int :=
  Int.ofNat (((List.range (openFds.length + 1)).find?
    (fun n => !openFds.contains (Int.ofNat n))).getD openFds.length)

/-- The platform call `eventfd(0, O_NONBLOCK)`: the value returned (-1 on failure) and
the state with the call logged. -/
def sys_eventfd (env : ConnEnv) (s : ConnState) : Int × ConnState :=
  if env.eventfdOk s.calls then
    (lowestFree s.openFds,
      { s with openFds := s.openFds ++ [lowestFree s.openFds],
               calls := s.calls ++ [ConnCall.eventfd (lowestFree s.openFds)] })
  else (-1, { s with calls := s.calls ++ [ConnCall.eventfd (-1)] })

/-- The platform call `socket(family, type, 0)`. -/
def sys_socket (env : ConnEnv) (s : ConnState) (family type : Nat) : Int × ConnState :=
  if env.socketOk s.calls family type then
    (lowestFree s.openFds,
      { s with openFds := s.openFds ++ [lowestFree s.openFds],
               calls := s.calls ++ [ConnCall.socket family type (lowestFree s.openFds)] })
  else (-1, { s with calls := s.calls ++ [ConnCall.socket family type (-1)] })

/-- The platform call `connect(fd, &addrBuf, addrSize)`: it fails (-1) on a descriptor
that is not open, whatever the other arguments are; on an open descriptor the
environment decides between 0 and -1. -/
def sys_connect (env : ConnEnv) (s : ConnState) (fd : Int) (family : Nat)
    (addrSize : Option Nat) : Int × ConnState :=
  if fd ∈ s.openFds ∧ env.connectOk s.calls fd family = true then
    (0, { s with calls := s.calls ++ [ConnCall.connect fd family addrSize 0] })
  else (-1, { s with calls := s.calls ++ [ConnCall.connect fd family addrSize (-1)] })

/-- The platform call `close(fd)`: the descriptor is open no more. A `close` of a
descriptor that is not open is logged as well. -/
def sys_close (s : ConnState) (fd : Int) : ConnState :=
  { s with openFds := s.openFds.erase fd, calls := s.calls ++ [ConnCall.close fd] }

/-- The statement `if (interruptFd != INVALID_SOCKET) { close(interruptFd); interruptFd =
INVALID_SOCKET; }` of the two connect functions (lines 340-343 and 1350-1353). -/
def closeInterrupt (s : ConnState) : ConnState :=
  if s.interruptFd ≠ INVALID_SOCKET then
    { sys_close s s.interruptFd with interruptFd := INVALID_SOCKET }
  else s

/-- The label `ConnectError` of `AJ_TCP_Connect` (lines 339-350), reached with the local
`tcpSock`. -/
def tcpConnectError (s : ConnState) (tcpSock : Int) : AJ_Status × ConnState :=
  (AJ_ERR_CONNECT,
    if tcpSock ≠ INVALID_SOCKET then sys_close (closeInterrupt s) tcpSock
    else closeInterrupt s)

/-- The handle as `AJ_TCP_Connect` fills it (lines 331-334). -/
def tcpNetSocket (env : ConnEnv) : AJ_NetSocket :=
  { tx := AJ_IOBufInit env.txData env.txSize AJ_IO_BUF_TX, txContext := true, txSend := 1,
    rx := AJ_IOBufInit env.rxData env.rxSize AJ_IO_BUF_RX, rxContext := true, rxRecv := 1 }

/-- The handle as `AJ_Net_ARDP_Connect` fills it (lines 1331-1334). -/
def ardpNetSocket (env : ConnEnv) : AJ_NetSocket :=
  { tx := AJ_IOBufInit env.txData env.txSize AJ_IO_BUF_TX, txContext := true, txSend := 2,
    rx := AJ_IOBufInit env.rxData env.rxSize AJ_IO_BUF_RX, rxContext := true, rxRecv := 2 }

/-- The part of `AJ_TCP_Connect` after the `socket` call succeeded (lines 305-337): the
address is built for the family the candidate advertises, then `connect`. -/
def tcpConnectTo (env : ConnEnv) (s : ConnState) (service : AJ_Service) (tcpSock : Int) :
    AJ_Status × ConnState :=
  if service.addrTypes &&& AJ_ADDR_TCP4 ≠ 0 then
    if (sys_connect env s tcpSock AF_INET (some 16)).1 < 0 then
      tcpConnectError (sys_connect env s tcpSock AF_INET (some 16)).2 tcpSock
    else
      (AJ_OK, { (sys_connect env s tcpSock AF_INET (some 16)).2 with
                  tcpSock := tcpSock, sock := tcpNetSocket env })
  else if service.addrTypes &&& AJ_ADDR_TCP6 ≠ 0 then
    if (sys_connect env s tcpSock AF_INET6 (some 28)).1 < 0 then
      tcpConnectError (sys_connect env s tcpSock AF_INET6 (some 28)).2 tcpSock
    else
      (AJ_OK, { (sys_connect env s tcpSock AF_INET6 (some 28)).2 with
                  tcpSock := tcpSock, sock := tcpNetSocket env })
  else tcpConnectError s tcpSock

/-- `AJ_TCP_Connect(bus, service)` of aj_net.c (lines 285-351). The socket is created
with `socket(AF_INET, SOCK_STREAM, 0)` before the address types are looked at. -/
def AJ_TCP_Connect (env : ConnEnv) (s : ConnState) (service : AJ_Service) :
    AJ_Status × ConnState :=
  if (sys_eventfd env s).1 < 0 then
    tcpConnectError { (sys_eventfd env s).2 with interruptFd := (sys_eventfd env s).1 }
      INVALID_SOCKET
  else if (sys_socket env { (sys_eventfd env s).2 with interruptFd := (sys_eventfd env s).1 }
      AF_INET SOCK_STREAM).1 = INVALID_SOCKET then
    tcpConnectError (sys_socket env
      { (sys_eventfd env s).2 with interruptFd := (sys_eventfd env s).1 }
      AF_INET SOCK_STREAM).2 INVALID_SOCKET
  else
    tcpConnectTo env
      (sys_socket env { (sys_eventfd env s).2 with interruptFd := (sys_eventfd env s).1 }
        AF_INET SOCK_STREAM).2 service
      (sys_socket env { (sys_eventfd env s).2 with interruptFd := (sys_eventfd env s).1 }
        AF_INET SOCK_STREAM).1

/-- The locals `udpSock`, `addrBuf` (its family field, 0 after the `memset`) and
`addrSize` (`none` while not initialised) of `AJ_Net_ARDP_Connect`. -/
structure ArdpLocals where
  udpSock : Int
  family : Nat
  addrSize : Option Nat
deriving DecidableEq, Repr

/-- `AJ_Net_ARDP_Disconnect(netSock)` of aj_net.c (lines 1362-1369):
`AJ_ARDP_Disconnect(FALSE)`, `close(netContext.udpSock)`, `netContext.udpSock =
INVALID_SOCKET`, and the handle is zeroed. -/
def AJ_Net_ARDP_Disconnect (s : ConnState) : ConnState :=
  { sys_close { s with calls := s.calls ++ [ConnCall.ardpDisconnect] } s.udpSock with
      udpSock := INVALID_SOCKET, sock := zeroNetSocket }

/-- The two `if` blocks at the head of the loop body of `AJ_Net_ARDP_Connect` (lines
1293-1320) in iteration `i`: a socket is created when `i` is 0 and `AJ_ADDR_UDP4` is
advertised, or `i` is 1 and `AJ_ADDR_UDP6` is advertised; otherwise the locals keep the
values of the iteration before. The first component is `false` when the block left the
iteration with `continue` (the `socket` call failed). -/
def ardpOpen (env : ConnEnv) (service : AJ_Service) (i : Nat) (l : ArdpLocals)
    (s : ConnState) : Bool × ArdpLocals × ConnState :=
  if i = 0 ∧ service.addrTypes &&& AJ_ADDR_UDP4 ≠ 0 then
    if (sys_socket env s AF_INET SOCK_DGRAM).1 = INVALID_SOCKET then
      (false, { l with udpSock := INVALID_SOCKET }, (sys_socket env s AF_INET SOCK_DGRAM).2)
    else
      (true,
        { udpSock := (sys_socket env s AF_INET SOCK_DGRAM).1, family := AF_INET,
          addrSize := some 16 },
        (sys_socket env s AF_INET SOCK_DGRAM).2)
  else if i = 1 ∧ service.addrTypes &&& AJ_ADDR_UDP6 ≠ 0 then
    if (sys_socket env s AF_INET6 SOCK_DGRAM).1 = INVALID_SOCKET then
      (false, { l with udpSock := INVALID_SOCKET }, (sys_socket env s AF_INET6 SOCK_DGRAM).2)
    else
      (true,
        { udpSock := (sys_socket env s AF_INET6 SOCK_DGRAM).1, family := AF_INET6,
          addrSize := some 28 },
        (sys_socket env s AF_INET6 SOCK_DGRAM).2)
  else (true, l, s)

/-- The rest of the loop body of `AJ_Net_ARDP_Connect` (lines 1322-1345): `connect` on the
local `udpSock`; on 0 the socket is stored in `netContext.udpSock`, the handle is filled
and `AJ_ARDP_UDP_Connect` runs; when that fails `AJ_Net_ARDP_Disconnect` is called. The
first component is `true` when the function returns `AJ_OK` here, `false` when the
iteration ends with `continue`. -/
def ardpHandshake (env : ConnEnv) (l : ArdpLocals) (s : ConnState) : Bool × ConnState :=
  if (sys_connect env s l.udpSock l.family l.addrSize).1 = 0 then
    if env.handshakeOk (sys_connect env s l.udpSock l.family l.addrSize).2.calls then
      (true,
        { (sys_connect env s l.udpSock l.family l.addrSize).2 with
            udpSock := l.udpSock, sock := ardpNetSocket env,
            calls := (sys_connect env s l.udpSock l.family l.addrSize).2.calls ++
              [ConnCall.ardpConnect true] })
    else
      (false,
        AJ_Net_ARDP_Disconnect
          { (sys_connect env s l.udpSock l.family l.addrSize).2 with
              udpSock := l.udpSock, sock := ardpNetSocket env,
              calls := (sys_connect env s l.udpSock l.family l.addrSize).2.calls ++
                [ConnCall.ardpConnect false] })
  else (false, (sys_connect env s l.udpSock l.family l.addrSize).2)

/-- One iteration of the loop of `AJ_Net_ARDP_Connect`: whether the function returned
`AJ_OK` in it, the locals and the state after it. -/
def ardpIteration (env : ConnEnv) (service : AJ_Service) (i : Nat) (l : ArdpLocals)
    (s : ConnState) : Bool × ArdpLocals × ConnState :=
  if (ardpOpen env service i l s).1 then
    ((ardpHandshake env (ardpOpen env service i l s).2.1 (ardpOpen env service i l s).2.2).1,
      (ardpOpen env service i l s).2.1,
      (ardpHandshake env (ardpOpen env service i l s).2.1 (ardpOpen env service i l s).2.2).2)
  else (false, (ardpOpen env service i l s).2.1, (ardpOpen env service i l s).2.2)

/-- The statements after the loop of `AJ_Net_ARDP_Connect` (lines 1348-1359). -/
def ardpConnectError (l : ArdpLocals) (s : ConnState) : AJ_Status × ConnState :=
  (AJ_ERR_CONNECT,
    if l.udpSock ≠ INVALID_SOCKET then sys_close (closeInterrupt s) l.udpSock
    else closeInterrupt s)

/-- The state `AJ_Net_ARDP_Connect` enters its loop in: `interruptFd` holds the new
eventfd. -/
def ardpStart (env : ConnEnv) (s : ConnState) : ConnState :=
  { (sys_eventfd env s).2 with interruptFd := (sys_eventfd env s).1 }

/-- `AJ_Net_ARDP_Connect(bus, service)` of aj_net.c (lines 1275-1360): the eventfd, then
the loop `for (i = 0; i < 2; i++)` unrolled, then the statements after the loop. -/
def AJ_Net_ARDP_Connect (env : ConnEnv) (s : ConnState) (service : AJ_Service) :
    AJ_Status × ConnState :=
  if (sys_eventfd env s).1 < 0 then (AJ_ERR_CONNECT, ardpStart env s)
  else if (ardpIteration env service 0
      { udpSock := INVALID_SOCKET, family := 0, addrSize := none } (ardpStart env s)).1 then
    (AJ_OK, (ardpIteration env service 0
      { udpSock := INVALID_SOCKET, family := 0, addrSize := none } (ardpStart env s)).2.2)
  else if (ardpIteration env service 1
      (ardpIteration env service 0
        { udpSock := INVALID_SOCKET, family := 0, addrSize := none } (ardpStart env s)).2.1
      (ardpIteration env service 0
        { udpSock := INVALID_SOCKET, family := 0, addrSize := none } (ardpStart env s)).2.2).1
  then
    (AJ_OK, (ardpIteration env service 1
      (ardpIteration env service 0
        { udpSock := INVALID_SOCKET, family := 0, addrSize := none } (ardpStart env s)).2.1
      (ardpIteration env service 0
        { udpSock := INVALID_SOCKET, family := 0, addrSize := none } (ardpStart env s)).2.2).2.2)
  else
    ardpConnectError
      (ardpIteration env service 1
        (ardpIteration env service 0
          { udpSock := INVALID_SOCKET, family := 0, addrSize := none } (ardpStart env s)).2.1
        (ardpIteration env service 0
          { udpSock := INVALID_SOCKET, family := 0, addrSize := none } (ardpStart env s)).2.2).2.1
      (ardpIteration env service 1
        (ardpIteration env service 0
          { udpSock := INVALID_SOCKET, family := 0, addrSize := none } (ardpStart env s)).2.1
        (ardpIteration env service 0
          { udpSock := INVALID_SOCKET, family := 0, addrSize := none } (ardpStart env s)).2.2).2.2

/-- `AJ_Net_Connect(bus, service)` of aj_net.c (lines 355-377) in a build with `AJ_ARDP`
and `AJ_TCP` both defined. -/
def AJ_Net_Connect (env : ConnEnv) (s : ConnState) (service : AJ_Service) :
    AJ_Status × ConnState :=
  if service.addrTypes &&& (AJ_ADDR_UDP4 ||| AJ_ADDR_UDP6) ≠ 0 then
    if (AJ_Net_ARDP_Connect env s service).1 = AJ_OK then AJ_Net_ARDP_Connect env s service
    else if service.addrTypes &&& (AJ_ADDR_TCP4 ||| AJ_ADDR_TCP6) ≠ 0 then
      AJ_TCP_Connect env (AJ_Net_ARDP_Connect env s service).2 service
    else AJ_Net_ARDP_Connect env s service
  else if service.addrTypes &&& (AJ_ADDR_TCP4 ||| AJ_ADDR_TCP6) ≠ 0 then
    AJ_TCP_Connect env s service
  else (AJ_ERR_CONNECT, s)

/-- `CloseNetSock(netSock)` of aj_net.c (lines 135-151): nothing when `rx.context` is
`NULL`; otherwise the abortive close of `tcpSock` when it is valid, then `tcpSock =
INVALID_SOCKET` and the handle is zeroed. -/
def CloseNetSock (s : ConnState) : ConnState :=
  if s.sock.rxContext then
    if s.tcpSock ≠ INVALID_SOCKET then
      { sys_close { s with calls := s.calls ++
            [ConnCall.setsockopt s.tcpSock, ConnCall.shutdown s.tcpSock] } s.tcpSock with
          tcpSock := INVALID_SOCKET, sock := zeroNetSocket }
    else { s with tcpSock := INVALID_SOCKET, sock := zeroNetSocket }
  else s

/-- The statement `if (interruptFd >= 0) { close(interruptFd); interruptFd =
INVALID_SOCKET; }` of `AJ_Net_Disconnect` (lines 381-384). -/
def releaseInterrupt (s : ConnState) : ConnState :=
  if 0 ≤ s.interruptFd then { sys_close s s.interruptFd with interruptFd := INVALID_SOCKET }
  else s

/-- `AJ_Net_Disconnect(netSock)` of aj_net.c (lines 379-397) in a build with `AJ_ARDP`
and `AJ_TCP` both defined. -/
def AJ_Net_Disconnect (s : ConnState) : ConnState :=
  if (releaseInterrupt s).udpSock ≠ INVALID_SOCKET then
    { AJ_Net_ARDP_Disconnect (releaseInterrupt s) with sock := zeroNetSocket }
  else if (releaseInterrupt s).tcpSock ≠ INVALID_SOCKET then CloseNetSock (releaseInterrupt s)
  else releaseInterrupt s

/-- The number of `close(fd)` calls in a list of calls. -/
def closeCount (fd : Int) (calls : List ConnCall) : Nat :=
  calls.count (ConnCall.close fd)

/-- The descriptors a list of calls opened: the values `eventfd` and `socket` returned,
when not negative. -/
def openedBy : List ConnCall → List Int
  | [] => []
  | ConnCall.eventfd r :: rest => if 0 ≤ r then r :: openedBy rest else openedBy rest
  | ConnCall.socket _ _ r :: rest => if 0 ≤ r then r :: openedBy rest else openedBy rest
  | _ :: rest => openedBy rest

/-- The state at program start: no descriptor of aj_net.c is live, the handle is zeroed,
the standard descriptors 0, 1 and 2 are open, no call was made. -/
def connStart : ConnState :=
  { interruptFd := INVALID_SOCKET, tcpSock := INVALID_SOCKET, udpSock := INVALID_SOCKET,
    sock := zeroNetSocket, openFds := [0, 1, 2], calls := [] }

/-- An environment in which every `eventfd`, `socket` and `connect` succeeds and the ARDP
handshake succeeds exactly when `handshake` is set. -/
def connEnv (handshake : Bool) : ConnEnv :=
  { eventfdOk := fun _ => true, socketOk := fun _ _ _ => true, connectOk := fun _ _ _ => true,
    handshakeOk := fun _ => handshake, rxData := 4096, rxSize := 1024, txData := 8192,
    txSize := 1024 }

/-- An environment like `connEnv false` in which `connect` fails on IPv4 addresses. -/
def noV4Env : ConnEnv :=
  { connEnv false with connectOk := fun _ _ family => family != AF_INET }

/-- A candidate that advertises the address types `addrTypes`. -/
def candidate (addrTypes : Nat) : AJ_Service :=
  { addrTypes := addrTypes, transportMask := 0, ipv4port := 9955, ipv6port := 9955,
    ipv4 := 0x0100007f, priority := 0, pv := 12, ipv6 := [0, 0, 0, 1] }

/-- The call is a `socket` call for a stream socket. -/
def isStreamSocket : ConnCall → Bool
  | ConnCall.socket _ type _ => type == SOCK_STREAM
  | _ => false

/-- From `s` to `s'` calls were added to the log, none of them a `socket` call for a
stream socket; `netContext.tcpSock` is unchanged; and a descriptor table without
negative entries stays so. -/
def DgramStep (s s' : ConnState) : Prop :=
  s'.tcpSock = s.tcpSock ∧
  ((∀ fd ∈ s.openFds, (0 : Int) ≤ fd) → ∀ fd ∈ s'.openFds, (0 : Int) ≤ fd) ∧
  ∃ new : List ConnCall, s'.calls = s.calls ++ new ∧ ∀ c ∈ new, isStreamSocket c = false

/-- An environment like `connEnv true` in which `connect` fails on IPv6 addresses. -/
def v4OnlyEnv : ConnEnv :=
  { connEnv true with connectOk := fun _ _ family => family != AF_INET6 }

/-- A state in which the handle is zeroed while `netContext.udpSock` holds the open
descriptor 4. -/
def zeroHandleUdpState : ConnState :=
  { interruptFd := INVALID_SOCKET, tcpSock := INVALID_SOCKET, udpSock := 4,
    sock := zeroNetSocket, openFds := [0, 1, 2, 4], calls := [] }

/-- The interrupt descriptor is open and is not the local `udpSock`. -/
def ArdpDistinct (l : ArdpLocals) (s : ConnState) : Prop :=
  0 ≤ s.interruptFd ∧ s.interruptFd ∈ s.openFds ∧ l.udpSock ≠ s.interruptFd

/-! ## Candidate registry: lemmas -/

theorem outranks_iff (a b : AJ_Service) :
    outranks a b = true ↔ (b.pv < a.pv ∨ (a.pv = b.pv ∧ a.priority < b.priority)) := by
  simp [outranks]

theorem outranks_false_iff (a b : AJ_Service) :
    outranks a b = false ↔ (a.pv < b.pv ∨ (a.pv = b.pv ∧ b.priority ≤ a.priority)) := by
  rw [← Bool.not_eq_true, outranks_iff]
  omega

theorem outranks_asymm {a b : AJ_Service} (h : outranks a b = true) : outranks b a = false := by
  rw [outranks_iff] at h
  rw [outranks_false_iff]
  omega

theorem not_outranks_trans {a b c : AJ_Service} (h1 : outranks a b = false)
    (h2 : outranks b c = false) : outranks a c = false := by
  rw [outranks_false_iff] at *
  omega

theorem selectBest_eq_none_iff (l : ResponseList) : selectBest l = none ↔ l = [] := by
  cases l with
  | nil => simp [selectBest]
  | cons x xs =>
    simp only [selectBest]
    cases h : selectBest xs with
    | none => simp
    | some p =>
      obtain ⟨y, rest⟩ := p
      by_cases hy : outranks y x = true <;> simp [hy]

theorem selectBest_perm : ∀ (l : ResponseList) (b : AJ_Service) (rest : ResponseList),
    selectBest l = some (b, rest) → l.Perm (b :: rest) := by
  intro l
  induction l with
  | nil => intro b rest h; simp [selectBest] at h
  | cons x xs ih =>
    intro b rest h
    simp only [selectBest] at h
    cases hs : selectBest xs with
    | none =>
      rw [hs] at h
      have hx : xs = [] := (selectBest_eq_none_iff xs).1 hs
      simp at h
      obtain ⟨rfl, rfl⟩ := h
      rw [hx]
    | some p =>
      obtain ⟨y, r⟩ := p
      rw [hs] at h
      have hp := ih y r hs
      by_cases hy : outranks y x = true
      · simp [hy] at h
        obtain ⟨rfl, rfl⟩ := h
        exact (List.Perm.cons x hp).trans (List.Perm.swap _ _ _)
      · simp [hy] at h
        obtain ⟨rfl, rfl⟩ := h
        exact List.Perm.refl _

theorem selectBest_best : ∀ (l : ResponseList) (b : AJ_Service) (rest : ResponseList),
    selectBest l = some (b, rest) → ∀ x ∈ l, outranks x b = false := by
  intro l
  induction l with
  | nil => intro b rest h; simp [selectBest] at h
  | cons x xs ih =>
    intro b rest h z hz
    simp only [selectBest] at h
    cases hs : selectBest xs with
    | none =>
      rw [hs] at h
      have hx : xs = [] := (selectBest_eq_none_iff xs).1 hs
      simp at h
      obtain ⟨rfl, rfl⟩ := h
      subst hx
      simp at hz
      subst hz
      rw [outranks_false_iff]; omega
    | some p =>
      obtain ⟨y, r⟩ := p
      rw [hs] at h
      have hb := ih y r hs
      by_cases hy : outranks y x = true
      · simp [hy] at h
        obtain ⟨rfl, rfl⟩ := h
        rcases List.mem_cons.1 hz with rfl | hz
        · exact outranks_asymm hy
        · exact hb z hz
      · simp [hy] at h
        obtain ⟨rfl, rfl⟩ := h
        rcases List.mem_cons.1 hz with rfl | hz
        · rw [outranks_false_iff]; omega
        · exact not_outranks_trans (hb z hz) (by simpa using hy)

theorem worstEntry_eq_none_iff (l : ResponseList) : worstEntry l = none ↔ l = [] := by
  cases l with
  | nil => simp [worstEntry]
  | cons x xs =>
    simp only [worstEntry]
    cases h : worstEntry xs with
    | none => simp
    | some w => by_cases hy : outranks x w = true <;> simp [hy]

theorem worstEntry_spec : ∀ (l : ResponseList) (w : AJ_Service),
    worstEntry l = some w → w ∈ l ∧ ∀ x ∈ l, outranks w x = false := by
  intro l
  induction l with
  | nil => intro w h; simp [worstEntry] at h
  | cons x xs ih =>
    intro w h
    simp only [worstEntry] at h
    cases hs : worstEntry xs with
    | none =>
      rw [hs] at h
      have hx : xs = [] := (worstEntry_eq_none_iff xs).1 hs
      simp at h
      subst h hx
      refine ⟨by simp, ?_⟩
      intro z hz
      simp at hz
      subst hz
      rw [outranks_false_iff]; omega
    | some v =>
      rw [hs] at h
      obtain ⟨hv, hb⟩ := ih v hs
      by_cases hy : outranks x v = true
      · simp [hy] at h
        subst h
        refine ⟨List.mem_cons_of_mem _ hv, ?_⟩
        intro z hz
        rcases List.mem_cons.1 hz with rfl | hz
        · exact outranks_asymm hy
        · exact hb z hz
      · simp [hy] at h
        subst h
        refine ⟨by simp, ?_⟩
        intro z hz
        rcases List.mem_cons.1 hz with rfl | hz
        · rw [outranks_false_iff]; omega
        · exact not_outranks_trans (by simpa using hy) (hb z hz)

theorem replaceWorst_perm : ∀ (l : ResponseList) (c w : AJ_Service),
    worstEntry l = some w → (replaceWorst c l).Perm (c :: l.erase w) := by
  intro l
  induction l with
  | nil => intro c w h; simp [worstEntry] at h
  | cons x xs ih =>
    intro c w h
    simp only [worstEntry] at h
    simp only [replaceWorst]
    cases hs : worstEntry xs with
    | none =>
      rw [hs] at h
      have hx : xs = [] := (worstEntry_eq_none_iff xs).1 hs
      simp at h
      subst h hx
      simp
    | some v =>
      rw [hs] at h
      by_cases hy : outranks x v = true
      · simp [hy] at h
        subst h
        simp only [hy, if_true]
        have hne : x ≠ v := by
          intro he
          subst he
          rw [outranks_iff] at hy
          omega
        rw [List.erase_cons_tail (by simpa using hne)]
        exact (List.Perm.cons x (ih c v hs)).trans (List.Perm.swap _ _ _)
      · simp [hy] at h
        subst h
        simp [hy]


theorem addAll_cons (cap : Nat) (l : ResponseList) (c : AJ_Service) (cs : List AJ_Service) :
    addAll cap l (c :: cs) = addAll cap (AJ_AddRoutingNodeToResponseList cap l c) cs := rfl

theorem addAll_of_le (cap : Nat) : ∀ (cs : List AJ_Service) (l : ResponseList),
    l.length + cs.length ≤ cap → addAll cap l cs = l ++ cs := by
  intro cs
  induction cs with
  | nil => intro l _; simp [addAll]
  | cons c cs ih =>
    intro l h
    simp only [List.length_cons] at h
    rw [addAll_cons]
    have hlt : l.length < cap := by omega
    have : AJ_AddRoutingNodeToResponseList cap l c = l ++ [c] := by
      simp [AJ_AddRoutingNodeToResponseList, hlt]
    rw [this, ih (l ++ [c]) (by simp; omega)]
    simp

theorem select_nil (out0 : AJ_Service) :
    AJ_SelectRoutingNodeFromResponseList [] out0 = (AJ_ERR_END_OF_DATA, out0, []) := rfl

theorem select_of_selectBest {l rest : ResponseList} {b : AJ_Service} (out0 : AJ_Service)
    (h : selectBest l = some (b, rest)) :
    AJ_SelectRoutingNodeFromResponseList l out0 = (AJ_OK, b, rest) := by
  simp [AJ_SelectRoutingNodeFromResponseList, h]

theorem drain_nil : ∀ (k : Nat) (out0 : AJ_Service),
    drain k [] out0 = List.replicate k (AJ_ERR_END_OF_DATA, none) := by
  intro k
  induction k with
  | zero => intro _; rfl
  | succ k ih =>
    intro out0
    simp only [drain, select_nil, List.replicate_succ]
    rw [ih]

theorem drain_succ_of_selectBest {l rest : ResponseList} {b : AJ_Service} (k : Nat)
    (out0 : AJ_Service) (h : selectBest l = some (b, rest)) :
    drain (k + 1) l out0 = (AJ_OK, some b) :: drain k rest b := by
  simp only [drain, select_of_selectBest out0 h]

/-- Draining a list: the first `l.length` calls succeed and return the held entries in
an order in which no entry is outranked by a later one; all further calls report the
end of data. -/
theorem drain_spec : ∀ (n : Nat) (l : ResponseList), l.length = n →
    ∀ (k : Nat) (out0 : AJ_Service),
    ∃ outs : List AJ_Service, outs.Perm l ∧
      outs.Pairwise (fun x y => outranks y x = false) ∧
      drain (l.length + k) l out0 =
        outs.map (fun o => (AJ_OK, some o)) ++ List.replicate k (AJ_ERR_END_OF_DATA, none) := by
  intro n
  induction n with
  | zero =>
    intro l hl k out0
    have : l = [] := List.length_eq_zero.1 hl
    subst this
    exact ⟨[], List.Perm.refl _, List.Pairwise.nil, by simp [drain_nil]⟩
  | succ n ih =>
    intro l hl k out0
    cases hs : selectBest l with
    | none =>
      have : l = [] := (selectBest_eq_none_iff l).1 hs
      subst this
      simp at hl
    | some p =>
      obtain ⟨b, rest⟩ := p
      have hp := selectBest_perm l b rest hs
      have hb := selectBest_best l b rest hs
      have hlen : rest.length = n := by
        have := hp.length_eq
        simp at this
        omega
      obtain ⟨outs, hperm, hpw, hdr⟩ := ih rest hlen k b
      refine ⟨b :: outs, ?_, ?_, ?_⟩
      · exact (List.Perm.cons b hperm).trans hp.symm
      · refine List.Pairwise.cons ?_ hpw
        intro y hy
        exact hb y (hp.symm.subset (List.mem_cons_of_mem _ (hperm.subset hy)))
      · have e : l.length + k = (rest.length + k) + 1 := by omega
        rw [e, drain_succ_of_selectBest _ out0 hs, hdr]
        simp

/-- Two admissions to a reset list of positive capacity, the better one first. -/
theorem addAll_pair_fst (cap : Nat) (hcap : 0 < cap) (a b : AJ_Service)
    (h : outranks a b = true) :
    addAll cap [] [a, b] = (if 1 < cap then [a, b] else [a]) := by
  have hba := outranks_asymm h
  by_cases h1 : 1 < cap
  · simp [addAll, AJ_AddRoutingNodeToResponseList, hcap, h1]
  · have : cap = 1 := by omega
    subst this
    simp [addAll, AJ_AddRoutingNodeToResponseList, worstEntry, hba]

theorem addAll_pair_snd (cap : Nat) (hcap : 0 < cap) (a b : AJ_Service)
    (h : outranks a b = true) :
    addAll cap [] [b, a] = (if 1 < cap then [b, a] else [a]) := by
  by_cases h1 : 1 < cap
  · simp [addAll, AJ_AddRoutingNodeToResponseList, hcap, h1]
  · have : cap = 1 := by omega
    subst this
    simp [addAll, AJ_AddRoutingNodeToResponseList, worstEntry, replaceWorst, h]

theorem select_pair (cap : Nat) (hcap : 0 < cap) (a b out0 : AJ_Service) (s0 : ResponseList)
    (h : outranks a b = true) :
    (AJ_SelectRoutingNodeFromResponseList
        (addAll cap (AJ_InitRoutingNodeResponselist s0) [a, b]) out0).1 = AJ_OK ∧
    (AJ_SelectRoutingNodeFromResponseList
        (addAll cap (AJ_InitRoutingNodeResponselist s0) [a, b]) out0).2.1 = a ∧
    (AJ_SelectRoutingNodeFromResponseList
        (addAll cap (AJ_InitRoutingNodeResponselist s0) [b, a]) out0).1 = AJ_OK ∧
    (AJ_SelectRoutingNodeFromResponseList
        (addAll cap (AJ_InitRoutingNodeResponselist s0) [b, a]) out0).2.1 = a := by
  have hba := outranks_asymm h
  simp only [AJ_InitRoutingNodeResponselist]
  rw [addAll_pair_fst cap hcap a b h, addAll_pair_snd cap hcap a b h]
  by_cases h1 : 1 < cap
  · simp [h1, AJ_SelectRoutingNodeFromResponseList, selectBest, h, hba]
  · simp [h1, AJ_SelectRoutingNodeFromResponseList, selectBest]


theorem select_replaceWorst (l : ResponseList) (c out0 : AJ_Service) (hne : l ≠ [])
    (hc : ∀ h ∈ l, outranks c h = true) :
    ∃ rest, AJ_SelectRoutingNodeFromResponseList (replaceWorst c l) out0 = (AJ_OK, c, rest) := by
  cases hw : worstEntry l with
  | none => exact absurd ((worstEntry_eq_none_iff l).1 hw) hne
  | some w =>
    have hperm := replaceWorst_perm l c w hw
    cases hs : selectBest (replaceWorst c l) with
    | none =>
      have := (selectBest_eq_none_iff _).1 hs
      rw [this] at hperm
      simp at hperm
    | some p =>
      obtain ⟨b, rest⟩ := p
      refine ⟨rest, ?_⟩
      rw [select_of_selectBest out0 hs]
      have hb := selectBest_best _ b rest hs
      have hbmem : b ∈ replaceWorst c l :=
        (selectBest_perm _ b rest hs).symm.subset (List.mem_cons_self _ _)
      have hcmem : c ∈ replaceWorst c l := hperm.symm.subset (List.mem_cons_self _ _)
      rcases List.mem_cons.1 (hperm.subset hbmem) with hbc | hbl
      · rw [hbc]
      · have h1 := hc b (List.mem_of_mem_erase hbl)
        have h2 := hb c hcmem
        rw [h1] at h2
        exact absurd h2 (by simp)


theorem rankLE_rank_iff (a b : AJ_Service) : rankLE (rank a) (rank b) ↔ outranks b a = false := by
  rw [outranks_false_iff]
  simp only [rankLE, rank]
  omega

theorem kept_nil (cap : Nat) : Kept cap [] [] :=
  ⟨by simp, [], by simp, by simp⟩

theorem kept_step (cap : Nat) (A H : List AJ_Service) (c : AJ_Service) (hk : Kept cap A H) :
    Kept cap (A ++ [c]) (AJ_AddRoutingNodeToResponseList cap H c) := by
  obtain ⟨hlen, D, hperm, hD⟩ := hk
  have hAlen : A.length = H.length + D.length := by
    have := hperm.length_eq
    simpa using this
  unfold AJ_AddRoutingNodeToResponseList
  by_cases hlt : H.length < cap
  · -- room left: nothing has been discarded so far
    have hD0 : D = [] := by
      apply List.length_eq_zero.1
      omega
    subst hD0
    simp only [hlt, if_true]
    refine ⟨by simp; omega, [], ?_, by simp⟩
    have := List.Perm.append_right [c] hperm
    simpa using this
  · simp only [hlt, if_false]
    cases hw : worstEntry H with
    | none =>
      have hH : H = [] := (worstEntry_eq_none_iff H).1 hw
      subst hH
      simp only
      refine ⟨by simp at hlen ⊢; omega, D ++ [c], ?_, by simp⟩
      have := List.Perm.append_right [c] hperm
      simpa using this
    | some w =>
      obtain ⟨hwmem, hwworst⟩ := worstEntry_spec H w hw
      simp only
      by_cases hc : outranks c w = true
      · simp only [hc, if_true]
        have hrp := replaceWorst_perm H c w hw
        refine ⟨?_, w :: D, ?_, ?_⟩
        · have := hrp.length_eq
          simp only [List.length_cons, List.length_erase_of_mem hwmem] at this
          have hpos : 0 < H.length := List.length_pos_of_mem hwmem
          simp only [List.length_append, List.length_singleton]
          omega
        · have h1 : (H ++ D).Perm (w :: (H.erase w ++ D)) := by
            have := (List.perm_cons_erase hwmem)
            exact (List.Perm.append_right D this)
          have h2 : (replaceWorst c H ++ w :: D).Perm (c :: w :: (H.erase w ++ D)) := by
            refine (List.Perm.append_right _ hrp).trans ?_
            simp only [List.cons_append]
            refine List.Perm.cons c ?_
            exact List.perm_middle
          refine List.Perm.trans ?_ h2.symm
          refine (List.perm_append_singleton c A).trans ?_
          exact List.Perm.cons c (hperm.trans h1)
        · intro d hd h hh
          have hh' : h = c ∨ h ∈ H := by
            rcases List.mem_cons.1 (hrp.subset hh) with e | e
            · exact Or.inl e
            · exact Or.inr (List.mem_of_mem_erase e)
          rcases List.mem_cons.1 hd with rfl | hd
          · rcases hh' with rfl | hh'
            · exact outranks_asymm hc
            · exact hwworst h hh'
          · rcases hh' with rfl | hh'
            · have h1 := hD d hd w hwmem
              have h2 := outranks_asymm hc
              exact not_outranks_trans h1 h2
            · exact hD d hd h hh'
      · have hc' : outranks c w = false := by simpa using hc
        simp only [hc', Bool.false_eq_true, if_false]
        refine ⟨by simp at hlen ⊢; omega, D ++ [c], ?_, ?_⟩
        · rw [← List.append_assoc]
          exact List.Perm.append_right [c] hperm
        · intro d hd h hh
          rcases List.mem_append.1 hd with hd | hd
          · exact hD d hd h hh
          · simp at hd
            subst hd
            exact not_outranks_trans hc' (hwworst h hh)

theorem kept_addAll (cap : Nat) : ∀ (cs A H : List AJ_Service), Kept cap A H →
    Kept cap (A ++ cs) (addAll cap H cs) := by
  intro cs
  induction cs with
  | nil => intro A H h; simpa [addAll] using h
  | cons c cs ih =>
    intro A H h
    rw [addAll_cons]
    have := ih (A ++ [c]) _ (kept_step cap A H c h)
    simpa using this

theorem kept_sorted (cap : Nat) (A H : List AJ_Service) (hk : Kept cap A H) :
    (H.map rank).insertionSort rankLE = ((A.map rank).insertionSort rankLE).take cap := by
  obtain ⟨hlen, D, hperm, hD⟩ := hk
  have hAlen : A.length = H.length + D.length := by
    have := hperm.length_eq
    simpa using this
  have hsplit : (A.map rank).insertionSort rankLE =
      (H.map rank).insertionSort rankLE ++ (D.map rank).insertionSort rankLE := by
    apply List.eq_of_perm_of_sorted (r := rankLE)
    · refine (List.perm_insertionSort rankLE _).trans ?_
      refine (hperm.map rank).trans ?_
      rw [List.map_append]
      exact List.Perm.append (List.perm_insertionSort rankLE _).symm
        (List.perm_insertionSort rankLE _).symm
    · exact List.sorted_insertionSort rankLE _
    · unfold List.Sorted
      rw [List.pairwise_append]
      refine ⟨List.sorted_insertionSort rankLE _, List.sorted_insertionSort rankLE _, ?_⟩
      intro x hx y hy
      rw [List.mem_insertionSort] at hx hy
      obtain ⟨h, hh, rfl⟩ := List.mem_map.1 hx
      obtain ⟨d, hd, rfl⟩ := List.mem_map.1 hy
      exact (rankLE_rank_iff h d).2 (hD d hd h hh)
  rw [hsplit]
  by_cases hfull : H.length = cap
  · rw [List.take_append_of_le_length (by simp [List.length_insertionSort]; omega)]
    rw [List.take_of_length_le (by simp [List.length_insertionSort]; omega)]
  · have hD0 : D = [] := by
      apply List.length_eq_zero.1
      omega
    subst hD0
    simp only [List.map_nil, List.insertionSort, List.append_nil]
    rw [List.take_of_length_le (by simp [List.length_insertionSort]; omega)]

theorem drain_out_irrelevant : ∀ (k : Nat) (l : ResponseList) (o1 o2 : AJ_Service),
    drain k l o1 = drain k l o2 := by
  intro k
  cases k with
  | zero => intro l o1 o2; rfl
  | succ k =>
    intro l o1 o2
    cases hs : selectBest l with
    | none =>
      have hl : l = [] := (selectBest_eq_none_iff l).1 hs
      subst hl
      rw [drain_nil, drain_nil]
    | some p =>
      obtain ⟨b, rest⟩ := p
      rw [drain_succ_of_selectBest k o1 hs, drain_succ_of_selectBest k o2 hs]

/-! ## Sender-info rewrite: lemmas -/

theorem splice_length {mem : Mem} {a : Nat} {xs : List Nat} (h : a + xs.length ≤ mem.length) :
    (splice mem a xs).length = mem.length := by
  simp only [splice, List.length_append, List.length_take, List.length_drop]
  omega

theorem splice_splice (mem : Mem) (a : Nat) (xs ys : List Nat)
    (h : a + xs.length ≤ mem.length) :
    splice (splice mem a xs) (a + xs.length) ys = splice mem a (xs ++ ys) := by
  have e1 : (mem.take a ++ xs ++ mem.drop (a + xs.length)).take (a + xs.length) =
      mem.take a ++ xs := by
    rw [List.take_append_of_le_length (by simp; omega)]
    rw [List.take_of_length_le (by simp)]
  have e2 : (mem.take a ++ xs ++ mem.drop (a + xs.length)).drop (a + xs.length + ys.length) =
      mem.drop (a + (xs ++ ys).length) := by
    have : a + xs.length + ys.length = (List.take a mem ++ xs).length + ys.length := by
      simp; omega
    rw [this, List.drop_append]
    simp only [List.drop_drop, List.length_append]
    congr 1
    omega
  unfold splice
  rw [e1, e2]
  simp

theorem splice_read {mem : Mem} {a : Nat} {xs : List Nat} (h : a ≤ mem.length) :
    ((splice mem a xs).drop a).take xs.length = xs := by
  unfold splice
  have : a = (List.take a mem).length := by simp; omega
  rw [List.append_assoc]
  conv_lhs => rw [this]
  rw [List.drop_append_of_le_length (by simp), List.drop_of_length_le (by simp)]
  simp

theorem store_eq_some {mem m : Mem} {a b : Nat} (h : store mem a b = some m) :
    a + 1 ≤ mem.length ∧ m = splice mem a [b] := by
  unfold store at h
  by_cases ha : a < mem.length
  · simp only [ha, if_true, Option.some.injEq] at h
    refine ⟨ha, ?_⟩
    rw [← h, List.set_eq_take_append_cons_drop, if_pos ha]
    simp [splice]
  · simp [ha] at h

/-- A successful `memcpy` overwrites exactly the bytes `dst ..< dst + src.length`. -/
theorem memcpy_eq_some : ∀ (src : List Nat) (mem m : Mem) (dst : Nat),
    memcpy mem dst src = some m → dst ≤ mem.length →
    dst + src.length ≤ mem.length ∧ m = splice mem dst src := by
  intro src
  induction src with
  | nil =>
    intro mem m dst h hd
    simp only [memcpy, Option.some.injEq] at h
    subst h
    simp [splice, hd]
  | cons b bs ih =>
    intro mem m dst h _
    simp only [memcpy] at h
    cases hs : store mem dst b with
    | none => rw [hs] at h; simp at h
    | some m1 =>
      rw [hs] at h
      simp only at h
      obtain ⟨hlt, hm1⟩ := store_eq_some hs
      have hlen : m1.length = mem.length := by rw [hm1]; exact splice_length (by simpa using hlt)
      obtain ⟨hle, hm⟩ := ih m1 m (dst + 1) h (by omega)
      refine ⟨by simp only [List.length_cons]; omega, ?_⟩
      rw [hm, hm1]
      have := splice_splice mem dst [b] bs (by simpa using hlt)
      simpa using this

/-- A successful `putField` writes the length byte, the key and the value characters
one after the other at `pkt` and returns the address after them. -/
theorem putField_eq_some {mem m : Mem} {pkt pkt' : Nat} {key val : List Nat}
    (h : putField mem pkt key val = some (m, pkt')) :
    pkt' = pkt + ([(key.length + (cstr val).length) % 256] ++ key ++ cstr val).length ∧
    pkt' ≤ mem.length ∧
    m = splice mem pkt ([(key.length + (cstr val).length) % 256] ++ key ++ cstr val) := by
  unfold putField at h
  cases h1 : store mem pkt ((key.length + (cstr val).length) % 256) with
  | none => rw [h1] at h; simp at h
  | some m1 =>
    rw [h1] at h
    simp only at h
    obtain ⟨hb1, e1⟩ := store_eq_some h1
    have hl1 : m1.length = mem.length := by rw [e1]; exact splice_length (by simpa using hb1)
    cases h2 : memcpy m1 (pkt + 1) key with
    | none => rw [h2] at h; simp at h
    | some m2 =>
      rw [h2] at h
      simp only at h
      obtain ⟨hb2, e2⟩ := memcpy_eq_some key m1 m2 (pkt + 1) h2 (by omega)
      have hl2 : m2.length = m1.length := by rw [e2]; exact splice_length hb2
      cases h3 : memcpy m2 (pkt + 1 + key.length) (cstr val) with
      | none => rw [h3] at h; simp at h
      | some m3 =>
        rw [h3] at h
        simp only [Option.some.injEq, Prod.mk.injEq] at h
        obtain ⟨rfl, rfl⟩ := h
        obtain ⟨hb3, e3⟩ := memcpy_eq_some (cstr val) m2 m3 (pkt + 1 + key.length) h3 (by omega)
        refine ⟨by simp; omega, by omega, ?_⟩
        rw [e3, e2, e1]
        have s1 := splice_splice mem pkt
          [(key.length + (cstr val).length) % 256] key (by simpa using hb1)
        simp only [List.length_singleton] at s1
        rw [s1]
        have s2 := splice_splice mem pkt
          ([(key.length + (cstr val).length) % 256] ++ key) (cstr val)
          (by simp; omega)
        simp only [List.length_append, List.length_singleton] at s2
        rw [show pkt + 1 + key.length = pkt + (1 + key.length) by omega, s2]


theorem rewriteAt_ok {ndebug : Bool} {mem mem' : Mem} {buf buf' : AJ_IOBuffer}
    {digit q : Nat} {sidStr ipvStr upcvStr : List Nat}
    (hscan : scanMarker mem buf.readPtr buf.writePtr 0 = some (q, 4))
    (h : rewriteAt ndebug mem buf digit sidStr ipvStr upcvStr = some (AJ_OK, mem', buf')) :
    q + 46 + (fieldBytes sid sidStr ++ fieldBytes (ipv digit) ipvStr ++
        fieldBytes (upcv digit) upcvStr).length ≤ mem.length ∧
    mem' = splice (splice mem (q + 21)
        [dataLengthOf digit sidStr ipvStr upcvStr / 256 % 256,
         dataLengthOf digit sidStr ipvStr upcvStr % 256]) (q + 46)
      (fieldBytes sid sidStr ++ fieldBytes (ipv digit) ipvStr ++
        fieldBytes (upcv digit) upcvStr) ∧
    buf' = { buf with writePtr := q + 46 + (fieldBytes sid sidStr ++
      fieldBytes (ipv digit) ipvStr ++ fieldBytes (upcv digit) upcvStr).length } := by
  unfold rewriteAt at h
  rw [hscan] at h
  simp only [ne_eq, not_true_eq_false, if_false] at h
  change (match store mem (q + 21) (dataLengthOf digit sidStr ipvStr upcvStr / 256 % 256) with
    | none => none
    | some m1 =>
      match store m1 (q + 22) (dataLengthOf digit sidStr ipvStr upcvStr % 256) with
      | none => none
      | some m2 =>
        if (!ndebug && load m2 (q + 46 + 1) != some 115) = true then none
        else
          match putField m2 (q + 46) sid sidStr with
          | none => none
          | some (m3, pkt3) =>
            match putField m3 pkt3 (ipv digit) ipvStr with
            | none => none
            | some (m4, pkt4) =>
              match putField m4 pkt4 (upcv digit) upcvStr with
              | none => none
              | some (m5, pkt5) => some (AJ_OK, m5, { buf with writePtr := pkt5 })) =
    some (AJ_OK, mem', buf') at h
  cases h1 : store mem (q + 21) (dataLengthOf digit sidStr ipvStr upcvStr / 256 % 256) with
  | none => rw [h1] at h; simp at h
  | some m1 =>
    rw [h1] at h
    simp only at h
    obtain ⟨hb1, e1⟩ := store_eq_some h1
    have hl1 : m1.length = mem.length := by rw [e1]; exact splice_length (by simpa using hb1)
    cases h2 : store m1 (q + 22) (dataLengthOf digit sidStr ipvStr upcvStr % 256) with
    | none => rw [h2] at h; simp at h
    | some m2 =>
      rw [h2] at h
      simp only at h
      obtain ⟨hb2, e2⟩ := store_eq_some h2
      have hl2 : m2.length = mem.length := by
        rw [e2, splice_length (by simpa using hb2)]; exact hl1
      have em2 : m2 = splice mem (q + 21)
          [dataLengthOf digit sidStr ipvStr upcvStr / 256 % 256,
           dataLengthOf digit sidStr ipvStr upcvStr % 256] := by
        rw [e2, e1]
        have := splice_splice mem (q + 21)
          [dataLengthOf digit sidStr ipvStr upcvStr / 256 % 256]
          [dataLengthOf digit sidStr ipvStr upcvStr % 256] (by simpa using hb1)
        simpa using this
      by_cases hassert : (!ndebug && load m2 (q + 46 + 1) != some 115) = true
      · rw [if_pos hassert] at h; simp at h
      · rw [if_neg hassert] at h
        cases h3 : putField m2 (q + 46) sid sidStr with
        | none => rw [h3] at h; simp at h
        | some r3 =>
          obtain ⟨m3, pkt3⟩ := r3
          rw [h3] at h
          simp only at h
          obtain ⟨p3, b3, e3⟩ := putField_eq_some h3
          have hl3 : m3.length = m2.length := by rw [e3]; exact splice_length (by omega)
          cases h4 : putField m3 pkt3 (ipv digit) ipvStr with
          | none => rw [h4] at h; simp at h
          | some r4 =>
            obtain ⟨m4, pkt4⟩ := r4
            rw [h4] at h
            simp only at h
            obtain ⟨p4, b4, e4⟩ := putField_eq_some h4
            have hl4 : m4.length = m3.length := by rw [e4]; exact splice_length (by omega)
            cases h5 : putField m4 pkt4 (upcv digit) upcvStr with
            | none => rw [h5] at h; simp at h
            | some r5 =>
              obtain ⟨m5, pkt5⟩ := r5
              rw [h5] at h
              simp only [Option.some.injEq, Prod.mk.injEq, true_and] at h
              obtain ⟨rfl, rfl⟩ := h
              obtain ⟨p5, b5, e5⟩ := putField_eq_some h5
              have f3 : fieldBytes sid sidStr =
                [(sid.length + (cstr sidStr).length) % 256] ++ sid ++ cstr sidStr := rfl
              have f4 : fieldBytes (ipv digit) ipvStr =
                [((ipv digit).length + (cstr ipvStr).length) % 256] ++ ipv digit ++ cstr ipvStr :=
                rfl
              have f5 : fieldBytes (upcv digit) upcvStr =
                [((upcv digit).length + (cstr upcvStr).length) % 256] ++ upcv digit ++
                  cstr upcvStr := rfl
              rw [← f3] at p3 e3
              rw [← f4] at p4 e4
              rw [← f5] at p5 e5
              have hp5 : pkt5 = q + 46 + (fieldBytes sid sidStr ++ fieldBytes (ipv digit) ipvStr ++
                  fieldBytes (upcv digit) upcvStr).length := by
                simp only [List.length_append]; omega
              have hm4 : m4 = splice m2 (q + 46)
                  (fieldBytes sid sidStr ++ fieldBytes (ipv digit) ipvStr) := by
                rw [e4, e3, p3]
                exact splice_splice _ _ _ _ (by omega)
              have hpk4 : pkt4 = q + 46 +
                  (fieldBytes sid sidStr ++ fieldBytes (ipv digit) ipvStr).length := by
                simp only [List.length_append]; omega
              have hm5 : m5 = splice m2 (q + 46) (fieldBytes sid sidStr ++
                  fieldBytes (ipv digit) ipvStr ++ fieldBytes (upcv digit) upcvStr) := by
                rw [e5, hm4, hpk4]
                exact splice_splice _ _ _ _ (by omega)
              refine ⟨by rw [← hp5]; omega, ?_, by rw [hp5]⟩
              rw [hm5, em2]


theorem decimalAux_ne_zero : ∀ (fuel n : Nat) (acc : List Nat),
    (∀ b ∈ acc, b ≠ 0) → ∀ b ∈ decimalAux fuel n acc, b ≠ 0 := by
  intro fuel
  induction fuel with
  | zero => intro n acc h; simpa [decimalAux] using h
  | succ fuel ih =>
    intro n acc h b hb
    simp only [decimalAux] at hb
    by_cases hn : n < 10
    · simp only [hn, if_true, List.mem_cons] at hb
      rcases hb with rfl | hb
      · omega
      · exact h b hb
    · simp only [hn, if_false] at hb
      refine ih (n / 10) _ ?_ b hb
      intro c hc
      rcases List.mem_cons.1 hc with rfl | hc
      · omega
      · exact h c hc

theorem decimal_ne_zero (n : Nat) : ∀ b ∈ decimal n, b ≠ 0 :=
  decimalAux_ne_zero (n + 1) n [] (by simp)

theorem cstr_eq_self {s : List Nat} (h : ∀ b ∈ s, b ≠ 0) : cstr s = s := by
  unfold cstr
  rw [List.takeWhile_eq_self_iff]
  intro b hb
  simpa using h b hb

theorem cstr_dottedQuad (a : Nat) : cstr (dottedQuad a) = dottedQuad a := by
  apply cstr_eq_self
  intro b hb
  simp only [dottedQuad, List.mem_append, List.mem_singleton] at hb
  rcases hb with ((((((hb | hb) | hb) | hb) | hb) | hb) | hb)
  all_goals first
    | exact decimal_ne_zero _ b hb
    | omega

theorem sidVal_eq {b0 b1 : Nat} (h0 : b0 < 256) (h1 : b1 < 256) :
    sidVal b0 b1 = 256 * b0 + b1 := by
  unfold sidVal
  omega

theorem AJ_IntToString_eq_some {v n : Nat} {s : List Nat} (h : AJ_IntToString v n = some s) :
    s = decimal v ∧ s.length < n := by
  unfold AJ_IntToString at h
  by_cases hl : (decimal v).length < n
  · simp only [hl, if_true, Option.some.injEq] at h
    subst h
    exact ⟨rfl, hl⟩
  · simp [hl] at h

theorem AJ_InetToString_eq_some {v n : Nat} {s : List Nat} (h : AJ_InetToString v n = some s) :
    s = dottedQuad v ∧ s.length < n := by
  unfold AJ_InetToString at h
  by_cases hl : (dottedQuad v).length < n
  · simp only [hl, if_true, Option.some.injEq] at h
    subst h
    exact ⟨rfl, hl⟩
  · simp [hl] at h

theorem inet_ntop6_eq_some {t s : List Nat} {n : Nat} (h : inet_ntop6 t n = some s) :
    s = t ∧ s.length < n := by
  unfold inet_ntop6 at h
  by_cases hl : t.length < n
  · simp only [hl, if_true, Option.some.injEq] at h
    subst h
    exact ⟨rfl, hl⟩
  · simp [hl] at h

/-- What a successful `RewriteSenderInfo` amounts to: the conversions gave the three
texts, the scan ended on `q` with four matches, and `rewriteAt` did the writing. -/
theorem RewriteSenderInfo_ok {ndebug : Bool} {mem mem' : Mem} {buf buf' : AJ_IOBuffer}
    {saddr : SockAddr}
    (hok : RewriteSenderInfo ndebug mem buf saddr = some (AJ_OK, mem', buf')) :
    ∃ b0 b1 digit ipvStr,
      load mem buf.readPtr = some b0 ∧ load mem (buf.readPtr + 1) = some b1 ∧
      ((saddr.sa_family = AF_INET ∧ digit = 52 ∧
          ipvStr = dottedQuad (saddr.addr4 % 4294967296)) ∨
        (saddr.sa_family = AF_INET6 ∧ digit = 54 ∧ ipvStr = saddr.text6)) ∧
      ipvStr.length < 40 ∧ (decimal (sidVal b0 b1)).length < 6 ∧
      (decimal (saddr.port % 65536)).length < 6 ∧
      rewriteAt ndebug mem buf digit (decimal (sidVal b0 b1)) ipvStr
        (decimal (saddr.port % 65536)) = some (AJ_OK, mem', buf') := by
  unfold RewriteSenderInfo at hok
  cases h0 : load mem buf.readPtr with
  | none => rw [h0] at hok; simp at hok
  | some b0 =>
    cases h1 : load mem (buf.readPtr + 1) with
    | none => rw [h0, h1] at hok; simp at hok
    | some b1 =>
      rw [h0, h1] at hok
      simp only at hok
      cases hs : AJ_IntToString (sidVal b0 b1) 6 with
      | none => rw [hs] at hok; simp at hok
      | some sidStr =>
        rw [hs] at hok
        simp only at hok
        obtain ⟨rfl, hsl⟩ := AJ_IntToString_eq_some hs
        by_cases h4 : saddr.sa_family = AF_INET
        · rw [if_pos h4] at hok
          cases hp : AJ_IntToString (saddr.port % 65536) 6 with
          | none => rw [hp] at hok; simp at hok
          | some upcvStr =>
            rw [hp] at hok
            simp only at hok
            obtain ⟨rfl, hpl⟩ := AJ_IntToString_eq_some hp
            cases hi : AJ_InetToString (saddr.addr4 % 4294967296) 40 with
            | none => rw [hi] at hok; simp at hok
            | some ipvStr =>
              rw [hi] at hok
              simp only at hok
              obtain ⟨rfl, hil⟩ := AJ_InetToString_eq_some hi
              exact ⟨b0, b1, 52, _, rfl, rfl, Or.inl ⟨h4, rfl, rfl⟩, hil, hsl, hpl, hok⟩
        · rw [if_neg h4] at hok
          by_cases h6 : saddr.sa_family = AF_INET6
          · rw [if_pos h6] at hok
            cases hp : AJ_IntToString (saddr.port % 65536) 6 with
            | none => rw [hp] at hok; simp at hok
            | some upcvStr =>
              rw [hp] at hok
              simp only at hok
              obtain ⟨rfl, hpl⟩ := AJ_IntToString_eq_some hp
              cases hi : inet_ntop6 saddr.text6 40 with
              | none => rw [hi] at hok; simp at hok
              | some ipvStr =>
                rw [hi] at hok
                simp only at hok
                obtain ⟨rfl, hil⟩ := inet_ntop6_eq_some hi
                exact ⟨b0, b1, 54, _, rfl, rfl, Or.inr ⟨h6, rfl, rfl⟩, hil, hsl, hpl, hok⟩
          · rw [if_neg h6] at hok
            cases hsc : scanMarker mem buf.readPtr buf.writePtr 0 with
            | none => rw [hsc] at hok; cases hok
            | some r =>
              rw [hsc] at hok
              simp only at hok
              split at hok
              · simp only [Option.some.injEq, Prod.mk.injEq] at hok
                exact absurd hok.1 (by decide)
              · cases hok

theorem rewriteAt_ok_scan {ndebug : Bool} {mem mem' : Mem} {buf buf' : AJ_IOBuffer}
    {digit : Nat} {sidStr ipvStr upcvStr : List Nat}
    (h : rewriteAt ndebug mem buf digit sidStr ipvStr upcvStr = some (AJ_OK, mem', buf')) :
    ∃ q, scanMarker mem buf.readPtr buf.writePtr 0 = some (q, 4) := by
  unfold rewriteAt at h
  cases hs : scanMarker mem buf.readPtr buf.writePtr 0 with
  | none => rw [hs] at h; simp at h
  | some r =>
    obtain ⟨q, m⟩ := r
    rw [hs] at h
    simp only at h
    by_cases hm : m = 4
    · subst hm; exact ⟨q, rfl⟩
    · simp [hm] at h


/-- The scan invariant: the `m` bytes just above `pkt` are the last `m` characters
matched, that is `snd[m-1], ..., snd[0]` upwards. -/
theorem scanMarker_found (mem : Mem) (rp : Nat) : ∀ (pkt m q : Nat), m ≤ 3 →
    (∀ j, j < m → load mem (pkt + 1 + j) = snd[m - 1 - j]?) →
    scanMarker mem rp pkt m = some (q, 4) →
    load mem q = some 115 ∧ load mem (q + 1) = some 101 ∧ load mem (q + 2) = some 110 ∧
      load mem (q + 3) = some 100 := by
  intro pkt
  induction pkt with
  | zero =>
    intro m q hm hinv h
    simp only [scanMarker] at h
    cases hb : load mem 0 with
    | none => rw [hb] at h; simp at h
    | some b =>
      rw [hb] at h
      simp only at h
      by_cases hmatch : some b = snd[m]?
      · simp only [hmatch, if_true] at h
        by_cases hm4 : m + 1 = 4
        · have hm3 : m = 3 := by omega
          subst hm3
          simp only [ne_eq, not_true_eq_false, if_false, Option.some.injEq,
            Prod.mk.injEq, and_true] at h
          subst h
          have i0 := hinv 0 (by omega)
          have i1 := hinv 1 (by omega)
          have i2 := hinv 2 (by omega)
          simp [snd] at hmatch i0 i1 i2
          subst hmatch
          exact ⟨hb, by simpa using i0, by simpa using i1, by simpa using i2⟩
        · simp [hm4] at h
      · simp [hmatch] at h
  | succ p ih =>
    intro m q hm hinv h
    simp only [scanMarker] at h
    cases hb : load mem (p + 1) with
    | none => rw [hb] at h; simp at h
    | some b =>
      rw [hb] at h
      simp only at h
      by_cases hmatch : some b = snd[m]?
      · simp only [hmatch, if_true] at h
        by_cases hm4 : m + 1 = 4
        · have hm3 : m = 3 := by omega
          subst hm3
          simp only [ne_eq, not_true_eq_false, and_false, if_false, Option.some.injEq,
            Prod.mk.injEq, and_true] at h
          subst h
          have i0 := hinv 0 (by omega)
          have i1 := hinv 1 (by omega)
          have i2 := hinv 2 (by omega)
          simp [snd] at hmatch i0 i1 i2
          subst hmatch
          exact ⟨hb, by simpa using i0, by simpa using i1, by simpa using i2⟩
        · by_cases hp : p = rp
          · simp [hp, hm4] at h
          · simp only [ne_eq, hp, not_false_eq_true, hm4, and_self, if_true] at h
            refine ih (m + 1) q (by omega) ?_ h
            intro j hj
            cases j with
            | zero =>
              simp only [Nat.add_zero, Nat.add_sub_cancel, Nat.sub_zero]
              rw [hb, hmatch]
            | succ j =>
              have := hinv j (by omega)
              rw [show p + 1 + (j + 1) = p + 1 + 1 + j by omega, this]
              congr 1
              omega
      · simp only [hmatch, if_false] at h
        by_cases hp : p = rp
        · simp [hp] at h
        · simp only [ne_eq, hp, not_false_eq_true, OfNat.zero_ne_ofNat, and_self, if_true] at h
          exact ih 0 q (by omega) (by intro j hj; omega) h


theorem fieldBytes_eq {key val : List Nat} (hval : ∀ b ∈ val, b ≠ 0)
    (hlen : key.length + val.length < 256) :
    fieldBytes key val = [(key ++ val).length] ++ (key ++ val) := by
  unfold fieldBytes
  rw [cstr_eq_self hval, Nat.mod_eq_of_lt hlen]
  simp

/-! ## Sending a discovery packet: lemmas -/

theorem Sends.refl (st : NetState) (ok : Bool) : Sends st st ok ok :=
  ⟨[], by simp, by simp⟩

theorem Sends.trans {a b c : NetState} {o1 o2 o3 : Bool} (h1 : Sends a b o1 o2)
    (h2 : Sends b c o2 o3) : Sends a c o1 o3 := by
  obtain ⟨n1, e1, i1⟩ := h1
  obtain ⟨n2, e2, i2⟩ := h2
  refine ⟨n1 ++ n2, by rw [e2, e1, List.append_assoc], ?_⟩
  rw [i2, i1]
  constructor
  · rintro ((h | ⟨r, hr, h⟩) | ⟨r, hr, h⟩)
    · exact Or.inl h
    · exact Or.inr ⟨r, List.mem_append_left _ hr, h⟩
    · exact Or.inr ⟨r, List.mem_append_right _ hr, h⟩
  · rintro (h | ⟨r, hr, h⟩)
    · exact Or.inl (Or.inl h)
    · rcases List.mem_append.1 hr with hr | hr
      · exact Or.inl (Or.inr ⟨r, hr, h⟩)
      · exact Or.inr ⟨r, hr, h⟩

/-- Where the scan can end: strictly above `readPtr`, not above its starting point. -/
theorem scanMarker_bounds (mem : Mem) (rp : Nat) : ∀ (pkt m q m' : Nat),
    scanMarker mem rp pkt m = some (q, m') → rp < pkt → rp < q ∧ q ≤ pkt := by
  intro pkt
  induction pkt with
  | zero => intro m q m' _ h; omega
  | succ p ih =>
    intro m q m' h hlt
    simp only [scanMarker] at h
    cases hb : load mem (p + 1) with
    | none => rw [hb] at h; simp at h
    | some b =>
      rw [hb] at h
      simp only at h
      by_cases hc : p ≠ rp ∧ (if some b = snd[m]? then m + 1 else 0) ≠ 4
      · rw [if_pos hc] at h
        have := ih _ q m' h (by omega)
        omega
      · rw [if_neg hc] at h
        simp only [Option.some.injEq, Prod.mk.injEq] at h
        omega

theorem rewriteAt_cases {ndebug : Bool} {mem m1 : Mem} {buf b1 : AJ_IOBuffer} {digit : Nat}
    {sidStr ipvStr upcvStr : List Nat} {status : AJ_Status}
    (h : rewriteAt ndebug mem buf digit sidStr ipvStr upcvStr = some (status, m1, b1)) :
    status = AJ_OK ∨ (status = AJ_ERR_WRITE ∧ m1 = mem ∧ b1 = buf) := by
  unfold rewriteAt at h
  cases hs : scanMarker mem buf.readPtr buf.writePtr 0 with
  | none => rw [hs] at h; simp at h
  | some r =>
    obtain ⟨q, m⟩ := r
    rw [hs] at h
    simp only at h
    by_cases hm : m ≠ 4
    · rw [if_pos hm] at h
      simp only [Option.some.injEq, Prod.mk.injEq] at h
      obtain ⟨rfl, rfl, rfl⟩ := h
      exact Or.inr ⟨rfl, rfl, rfl⟩
    · rw [if_neg hm] at h
      left
      split at h
      · simp at h
      · split at h
        · simp at h
        · split at h
          · simp at h
          · split at h
            · simp at h
            · split at h
              · simp at h
              · split at h
                · simp at h
                · simp only [Option.some.injEq, Prod.mk.injEq] at h
                  exact h.1.symm

theorem RewriteSenderInfo_cases {ndebug : Bool} {mem m1 : Mem} {buf b1 : AJ_IOBuffer}
    {saddr : SockAddr} {status : AJ_Status}
    (h : RewriteSenderInfo ndebug mem buf saddr = some (status, m1, b1)) :
    status = AJ_OK ∨ (status = AJ_ERR_WRITE ∧ m1 = mem ∧ b1 = buf) := by
  unfold RewriteSenderInfo at h
  revert h
  split
  · split
    · intro h
      simp only [Option.some.injEq, Prod.mk.injEq] at h
      obtain ⟨rfl, rfl, rfl⟩ := h
      exact Or.inr ⟨rfl, rfl, rfl⟩
    · split
      · split
        · intro h
          simp only [Option.some.injEq, Prod.mk.injEq] at h
          obtain ⟨rfl, rfl, rfl⟩ := h
          exact Or.inr ⟨rfl, rfl, rfl⟩
        · split
          · intro h
            simp only [Option.some.injEq, Prod.mk.injEq] at h
            obtain ⟨rfl, rfl, rfl⟩ := h
            exact Or.inr ⟨rfl, rfl, rfl⟩
          · exact rewriteAt_cases
      · split
        · split
          · intro h
            simp only [Option.some.injEq, Prod.mk.injEq] at h
            obtain ⟨rfl, rfl, rfl⟩ := h
            exact Or.inr ⟨rfl, rfl, rfl⟩
          · split
            · intro h
              simp only [Option.some.injEq, Prod.mk.injEq] at h
              obtain ⟨rfl, rfl, rfl⟩ := h
              exact Or.inr ⟨rfl, rfl, rfl⟩
            · exact rewriteAt_cases
        · split
          · simp
          · split
            · intro h
              simp only [Option.some.injEq, Prod.mk.injEq] at h
              obtain ⟨rfl, rfl, rfl⟩ := h
              exact Or.inr ⟨rfl, rfl, rfl⟩
            · simp
  · simp

theorem load_splice_lt (mem : Mem) (a i : Nat) (xs : List Nat) (hi : i < a)
    (ha : a ≤ mem.length) : load (splice mem a xs) i = load mem i := by
  unfold load splice
  rw [List.append_assoc, List.getElem?_append_left (by simp; omega)]
  rw [List.getElem?_take_of_lt hi]

theorem load_splice_at (mem : Mem) (a j : Nat) (xs : List Nat) (ha : a ≤ mem.length)
    (hj : j < xs.length) : load (splice mem a xs) (a + j) = xs[j]? := by
  unfold load splice
  rw [List.append_assoc, List.getElem?_append_right (by simp)]
  simp only [List.length_take, Nat.min_eq_left ha, Nat.add_sub_cancel_left]
  rw [List.getElem?_append_left hj]

theorem cstr_length_le (s : List Nat) : (cstr s).length ≤ s.length := by
  unfold cstr
  exact (List.takeWhile_sublist _).length_le

theorem fieldBytes_length (key val : List Nat) :
    (fieldBytes key val).length = 1 + key.length + (cstr val).length := by
  simp [fieldBytes]; omega

theorem fieldBytes_head (key val : List Nat) :
    (fieldBytes key val)[0]? = some ((key.length + (cstr val).length) % 256) := by
  simp [fieldBytes]

/-- A marker the scan finds lies entirely at or below the address the scan started at,
counting the `m` bytes already matched. -/
theorem scanMarker_found_le (mem : Mem) (rp : Nat) : ∀ (pkt m q : Nat), m ≤ 3 →
    scanMarker mem rp pkt m = some (q, 4) → q + 3 ≤ pkt + m := by
  intro pkt
  induction pkt with
  | zero =>
    intro m q hm h
    simp only [scanMarker] at h
    cases hb : load mem 0 with
    | none => rw [hb] at h; simp at h
    | some b =>
      rw [hb] at h
      simp only at h
      by_cases hmatch : some b = snd[m]?
      · simp only [hmatch, if_true] at h
        by_cases hm4 : m + 1 = 4
        · simp only [hm4, ne_eq, not_true_eq_false, if_false, Option.some.injEq,
            Prod.mk.injEq, and_true] at h
          omega
        · simp [hm4] at h
      · simp [hmatch] at h
  | succ p ih =>
    intro m q hm h
    simp only [scanMarker] at h
    cases hb : load mem (p + 1) with
    | none => rw [hb] at h; simp at h
    | some b =>
      rw [hb] at h
      simp only at h
      by_cases hmatch : some b = snd[m]?
      · simp only [hmatch, if_true] at h
        by_cases hm4 : m + 1 = 4
        · simp only [hm4, ne_eq, not_true_eq_false, and_false, if_false, Option.some.injEq,
            Prod.mk.injEq, and_true] at h
          omega
        · by_cases hp : p = rp
          · simp [hp, hm4] at h
          · simp only [ne_eq, hp, not_false_eq_true, hm4, and_self, if_true] at h
            have := ih (m + 1) q (by omega) h
            omega
      · simp only [hmatch, if_false] at h
        by_cases hp : p = rp
        · simp [hp] at h
        · simp only [ne_eq, hp, not_false_eq_true, OfNat.zero_ne_ofNat, and_self, if_true] at h
          have := ih 0 q (by omega) h
          omega

theorem decimalAux_length : ∀ (fuel k n : Nat) (acc : List Nat), 1 ≤ k → n < 10 ^ k →
    k ≤ fuel → (decimalAux fuel n acc).length ≤ acc.length + k := by
  intro fuel
  induction fuel with
  | zero => intro k n acc hk _ hf; omega
  | succ fuel ih =>
    intro k n acc hk hn hf
    simp only [decimalAux]
    by_cases h10 : n < 10
    · simp only [h10, if_true, List.length_cons]; omega
    · simp only [h10, if_false]
      have hk2 : 2 ≤ k := by
        by_contra hlt
        have : k = 1 := by omega
        subst this
        simp at hn
        omega
      have hdiv : n / 10 < 10 ^ (k - 1) := by
        have : 10 ^ k = 10 * 10 ^ (k - 1) := by
          rw [← pow_succ']; congr 1; omega
        rw [this] at hn
        omega
      have := ih (k - 1) (n / 10) ((n % 10 + 48) :: acc) (by omega) hdiv (by omega)
      simp only [List.length_cons] at this
      omega

theorem decimal_length_le (k n : Nat) (hk : 1 ≤ k) (hn : n < 10 ^ k) :
    (decimal n).length ≤ k := by
  unfold decimal
  by_cases hkn : k ≤ n + 1
  · have := decimalAux_length (n + 1) k n [] hk hn hkn
    simpa using this
  · have h1 : n < 10 ^ (n + 1) := by
      have := Nat.lt_pow_self (show 1 < 10 by omega) (n + 1)
      omega
    have := decimalAux_length (n + 1) (n + 1) n [] (by omega) h1 (by omega)
    simp only [List.length_nil] at this
    omega


theorem dottedQuad_length_lt (a : Nat) : (dottedQuad a).length < 40 := by
  have h1 := decimal_length_le 3 (a / 16777216 % 256) (by omega) (by omega)
  have h2 := decimal_length_le 3 (a / 65536 % 256) (by omega) (by omega)
  have h3 := decimal_length_le 3 (a / 256 % 256) (by omega) (by omega)
  have h4 := decimal_length_le 3 (a % 256) (by omega) (by omega)
  simp only [dottedQuad, List.length_append, List.length_singleton]
  omega

theorem AJ_IntToString_u16 (v : Nat) (hv : v < 65536) :
    AJ_IntToString v 6 = some (decimal v) := by
  have := decimal_length_le 5 v (by omega) (by omega)
  unfold AJ_IntToString
  rw [if_pos (by omega)]

theorem sidVal_lt (b0 b1 : Nat) : sidVal b0 b1 < 65536 := by
  unfold sidVal
  omega

theorem assert_passes (ndebug : Bool) (d k : Nat) (h : ndebug = true ∨ d = k) :
    (!ndebug && d != k) = false := by
  rcases h with h | h
  · simp [h]
  · simp [h]

theorem AJ_Net_Recv_blocked (env : SysEnv) (context : NetContext) (st : SockState)
    (buf : AJ_IOBuffer) (len timeout : Nat) (r : AJ_Status × SockState × AJ_IOBuffer)
    (h : AJ_Net_Recv env context st buf len timeout = some r) :
    r.2.1.blocked = false ∧ r.2.1.interruptFd = st.interruptFd := by
  unfold AJ_Net_Recv at h
  split at h
  · exact absurd h (by simp)
  · split at h
    · cases h; exact ⟨rfl, rfl⟩
    · split at h
      · cases h; exact ⟨rfl, rfl⟩
      · split at h
        · split at h
          · cases h; exact ⟨rfl, rfl⟩
          · cases h; exact ⟨rfl, rfl⟩
        · cases h; exact ⟨rfl, rfl⟩

theorem AJ_ARDP_UDP_Recv_blocked (env : SysEnv) (context : NetContext) (st : SockState)
    (timeout : Nat) :
    (AJ_ARDP_UDP_Recv env context st timeout).2.1.blocked = false ∧
      (AJ_ARDP_UDP_Recv env context st timeout).2.1.interruptFd = st.interruptFd := by
  unfold AJ_ARDP_UDP_Recv
  split
  · exact ⟨rfl, rfl⟩
  · split
    · exact ⟨rfl, rfl⟩
    · split
      · exact ⟨rfl, rfl⟩
      · split
        · split
          · exact ⟨rfl, rfl⟩
          · exact ⟨rfl, rfl⟩
        · exact ⟨rfl, rfl⟩

theorem recvFromSocks_spec (env : SysEnv) (fds : List Int) (len : Nat) (buf : AJ_IOBuffer) :
    ∀ (order : List (Int × Nat)) (status : AJ_Status) (st : SockState),
    (∃ (pre : List SysCall) (sock : Int) (flag : Nat),
      (sock, flag) ∈ order ∧ sock ≠ INVALID_SOCKET ∧ sock ∈ fds ∧
      allFailed env st.calls pre = true ∧
      env.recvfrom (st.calls ++ pre) sock (min (AJ_IO_BUF_SPACE buf) len) ≠ -1 ∧
      recvFromSocks env fds len order status st buf =
        (AJ_OK,
          { st with calls := st.calls ++ pre ++
              [SysCall.recvfrom sock (min (AJ_IO_BUF_SPACE buf) len)] },
          advanceWrite { buf with flags := buf.flags ||| flag }
            (env.recvfrom (st.calls ++ pre) sock (min (AJ_IO_BUF_SPACE buf) len)))) ∨
    (∃ pre : List SysCall, allFailed env st.calls pre = true ∧
      recvFromSocks env fds len order status st buf =
        (if pre = [] then status else AJ_ERR_READ,
          { st with calls := st.calls ++ pre }, buf)) := by
  intro order
  induction order with
  | nil =>
    intro status st
    refine Or.inr ⟨[], rfl, ?_⟩
    simp [recvFromSocks]
  | cons p rest ih =>
    intro status st
    obtain ⟨sock, flag⟩ := p
    simp only [recvFromSocks]
    have skip :
        ((∃ (pre : List SysCall) (sock' : Int) (flag' : Nat),
          (sock', flag') ∈ rest ∧ sock' ≠ INVALID_SOCKET ∧ sock' ∈ fds ∧
          allFailed env st.calls pre = true ∧
          env.recvfrom (st.calls ++ pre) sock' (min (AJ_IO_BUF_SPACE buf) len) ≠ -1 ∧
          recvFromSocks env fds len rest status st buf =
            (AJ_OK,
              { st with calls := st.calls ++ pre ++
                  [SysCall.recvfrom sock' (min (AJ_IO_BUF_SPACE buf) len)] },
              advanceWrite { buf with flags := buf.flags ||| flag' }
                (env.recvfrom (st.calls ++ pre) sock' (min (AJ_IO_BUF_SPACE buf) len)))) ∨
        (∃ pre : List SysCall, allFailed env st.calls pre = true ∧
          recvFromSocks env fds len rest status st buf =
            (if pre = [] then status else AJ_ERR_READ,
              { st with calls := st.calls ++ pre }, buf))) →
        ((∃ (pre : List SysCall) (sock' : Int) (flag' : Nat),
          (sock', flag') ∈ (sock, flag) :: rest ∧ sock' ≠ INVALID_SOCKET ∧ sock' ∈ fds ∧
          allFailed env st.calls pre = true ∧
          env.recvfrom (st.calls ++ pre) sock' (min (AJ_IO_BUF_SPACE buf) len) ≠ -1 ∧
          recvFromSocks env fds len rest status st buf =
            (AJ_OK,
              { st with calls := st.calls ++ pre ++
                  [SysCall.recvfrom sock' (min (AJ_IO_BUF_SPACE buf) len)] },
              advanceWrite { buf with flags := buf.flags ||| flag' }
                (env.recvfrom (st.calls ++ pre) sock' (min (AJ_IO_BUF_SPACE buf) len)))) ∨
        (∃ pre : List SysCall, allFailed env st.calls pre = true ∧
          recvFromSocks env fds len rest status st buf =
            (if pre = [] then status else AJ_ERR_READ,
              { st with calls := st.calls ++ pre }, buf))) := by
      intro h
      rcases h with ⟨pre, s, f, hm, h⟩ | h
      · exact Or.inl ⟨pre, s, f, List.mem_cons_of_mem _ hm, h⟩
      · exact Or.inr h
    split
    · rename_i hsock
      split
      · split
        · rename_i hfail
          rcases ih AJ_ERR_READ { st with calls := st.calls ++
              [SysCall.recvfrom sock (min (AJ_IO_BUF_SPACE buf) len)] } with
            ⟨pre, s, f, hm, hs1, hs2, hall, hret, heq⟩ | ⟨pre, hall, heq⟩
          · refine Or.inl ⟨SysCall.recvfrom sock (min (AJ_IO_BUF_SPACE buf) len) :: pre, s, f,
              List.mem_cons_of_mem _ hm, hs1, hs2, ?_, ?_, ?_⟩
            · simp only [allFailed, hfail, beq_self_eq_true, Bool.true_and]
              exact hall
            · simpa [List.append_assoc] using hret
            · rw [heq]
              simp [List.append_assoc]
          · refine Or.inr ⟨SysCall.recvfrom sock (min (AJ_IO_BUF_SPACE buf) len) :: pre, ?_, ?_⟩
            · simp only [allFailed, hfail, beq_self_eq_true, Bool.true_and]
              exact hall
            · rw [heq]
              simp [List.append_assoc]
        · rename_i hok
          refine Or.inl ⟨[], sock, flag, List.mem_cons_self _ _, hsock.1, hsock.2, rfl, ?_, ?_⟩
          · simpa using hok
          · simp
      · exact skip (ih status st)
    · exact skip (ih status st)


theorem recvFromSocks_status (env : SysEnv) (fds : List Int) (len : Nat) (buf : AJ_IOBuffer)
    (order : List (Int × Nat)) (status : AJ_Status) (st : SockState) :
    (recvFromSocks env fds len order status st buf).1 = AJ_OK ∨
      (recvFromSocks env fds len order status st buf).1 = status ∨
      (recvFromSocks env fds len order status st buf).1 = AJ_ERR_READ := by
  rcases recvFromSocks_spec env fds len buf order status st with
    ⟨pre, s, f, _, _, _, _, _, heq⟩ | ⟨pre, _, heq⟩
  · rw [heq]; exact Or.inl rfl
  · rw [heq]
    by_cases hp : pre = []
    · simp [hp]
    · simp [hp]

theorem sendToBroadcastLoop_targets (env : NetEnv) (sock : Int) (port : Nat) :
    ∀ (addrs : List IfAddr) (st st' : NetState) (ok ok' : Bool),
    sendToBroadcastLoop env sock port addrs st ok = some (ok', st') →
    ∃ new : List SendRec, st'.sent = st.sent ++ new ∧
      ∀ r ∈ new, ∃ addr ∈ addrs, ∃ (ifa bc : SockAddr),
        addr.ifa_addr = some ifa ∧ (ifa.sa_family = AF_INET ∨ ifa.sa_family = AF_INET6) ∧
        addr.ifa_flags &&& IFF_UP ≠ 0 ∧ addr.ifa_flags &&& IFF_RUNNING ≠ 0 ∧
        addr.ifu_broadaddr = some bc ∧ r.sock = sock ∧ r.dest = { bc with port := port } := by
  intro addrs
  induction addrs with
  | nil =>
    intro st st' ok ok' h
    simp only [sendToBroadcastLoop, Option.some.injEq, Prod.mk.injEq] at h
    obtain ⟨_, rfl⟩ := h
    exact ⟨[], by simp, by simp⟩
  | cons addr rest ih =>
    intro st st' ok ok' h
    have lift : ∀ (s : NetState) (o : Bool), s.sent = st.sent →
        sendToBroadcastLoop env sock port rest s o = some (ok', st') →
        ∃ new : List SendRec, st'.sent = st.sent ++ new ∧
          ∀ r ∈ new, ∃ a ∈ addr :: rest, ∃ (ifa bc : SockAddr),
            a.ifa_addr = some ifa ∧ (ifa.sa_family = AF_INET ∨ ifa.sa_family = AF_INET6) ∧
            a.ifa_flags &&& IFF_UP ≠ 0 ∧ a.ifa_flags &&& IFF_RUNNING ≠ 0 ∧
            a.ifu_broadaddr = some bc ∧ r.sock = sock ∧ r.dest = { bc with port := port } := by
      intro s o hs hr
      obtain ⟨new, e, hn⟩ := ih s st' o ok' hr
      refine ⟨new, by rw [e, hs], ?_⟩
      intro r hr'
      obtain ⟨a, ha, rest'⟩ := hn r hr'
      exact ⟨a, List.mem_cons_of_mem _ ha, rest'⟩
    simp only [sendToBroadcastLoop] at h
    split at h
    · exact lift _ _ rfl h
    · rename_i ifa hifa
      split at h
      · rename_i hcond
        split at h
        · exact lift _ _ rfl h
        · rename_i bc hbc
          split at h
          · split at h
            · simp at h
            · rename_i status mem1 buf1 hrw
              split at h
              · exact lift { st with mem := mem1, buf := buf1 } _ rfl h
              · obtain ⟨new, e, hn⟩ := ih _ st' _ ok' h
                refine ⟨{ sock := sock, dest := { bc with port := port },
                          tx := AJ_IO_BUF_AVAIL buf1,
                          data := (mem1.drop buf1.readPtr).take (AJ_IO_BUF_AVAIL buf1),
                          ret := env.sendto st.sent.length } :: new, ?_, ?_⟩
                · rw [e]
                  simp [do_sendto]
                · intro r hr
                  rcases List.mem_cons.mp hr with rfl | hr
                  · exact ⟨addr, List.mem_cons_self _ _, ifa, bc, hifa,
                      hcond.1.imp id Eq.symm, hcond.2.1, hcond.2.2, hbc, rfl, rfl⟩
                  · obtain ⟨a, ha, rest'⟩ := hn r hr
                    exact ⟨a, List.mem_cons_of_mem _ ha, rest'⟩
          · exact lift _ _ rfl h
      · exact lift _ _ rfl h

theorem sendToBroadcastLoop_not_mdns (env : NetEnv) (sock : Int) (port : Nat) :
    ∀ (addrs : List IfAddr) (st : NetState) (ok : Bool),
    st.buf.flags &&& AJ_IO_BUF_MDNS = 0 →
    sendToBroadcastLoop env sock port addrs st ok = some (ok, st) := by
  intro addrs
  induction addrs with
  | nil =>
    intro st ok _
    simp [sendToBroadcastLoop]
  | cons addr rest ih =>
    intro st ok hfl
    simp only [sendToBroadcastLoop]
    split
    · exact ih st ok hfl
    · split
      · split
        · exact ih st ok hfl
        · rw [if_neg (by simp [hfl])]
          exact ih st ok hfl
      · exact ih st ok hfl


theorem allFailed_mem (env : SysEnv) :
    ∀ (pre hist : List SysCall), allFailed env hist pre = true →
    ∀ c ∈ pre, ∃ s l, c = SysCall.recvfrom s l := by
  intro pre
  induction pre with
  | nil =>
    intro hist _ c hc
    simp at hc
  | cons d rest ih =>
    intro hist h c hc
    cases d with
    | recvfrom s l =>
      simp only [allFailed, Bool.and_eq_true] at h
      rcases List.mem_cons.mp hc with rfl | hc
      · exact ⟨s, l, rfl⟩
      · exact ih _ h.2 c hc
    | select a b c d => simp [allFailed] at h
    | read a => simp [allFailed] at h
    | write a => simp [allFailed] at h
    | recv a b => simp [allFailed] at h
    | send a b => simp [allFailed] at h

theorem recvFromSocks_calls (env : SysEnv) (fds : List Int) (len : Nat) (buf : AJ_IOBuffer)
    (order : List (Int × Nat)) (status : AJ_Status) (st : SockState) :
    ∃ more : List SysCall,
      (recvFromSocks env fds len order status st buf).2.1.calls = st.calls ++ more ∧
      ∀ c ∈ more, ∃ s l, c = SysCall.recvfrom s l := by
  rcases recvFromSocks_spec env fds len buf order status st with
    ⟨pre, s, f, _, _, _, hall, _, heq⟩ | ⟨pre, hall, heq⟩
  · refine ⟨pre ++ [SysCall.recvfrom s (min (AJ_IO_BUF_SPACE buf) len)], ?_, ?_⟩
    · rw [heq]
      simp [List.append_assoc]
    · intro c hc
      rcases List.mem_append.mp hc with hc | hc
      · exact allFailed_mem env pre _ hall c hc
      · exact ⟨s, _, List.mem_singleton.mp hc⟩
  · refine ⟨pre, ?_, allFailed_mem env pre _ hall⟩
    rw [heq]


theorem eventCounter_append (fd : Int) (calls : List SysCall) (c : SysCall) :
    eventCounter fd (calls ++ [c]) =
      match c with
      | SysCall.write f => if f = fd then eventCounter fd calls + 1 else eventCounter fd calls
      | SysCall.read f => if f = fd then 0 else eventCounter fd calls
      | _ => eventCounter fd calls := by
  unfold eventCounter
  rw [List.foldl_append]
  cases c <;> rfl

theorem eventfdEnv_faithful (fd : Int) (ready : List Int) (ret : Int) :
    EventfdFaithful (eventfdEnv fd ready ret) fd := by
  intro calls nfds fds s us
  constructor
  · simp only [eventfdEnv, List.mem_filter]
    constructor
    · rintro ⟨h1, h2⟩
      refine ⟨h1, ?_⟩
      simpa using h2
    · rintro ⟨h1, h2⟩
      refine ⟨h1, ?_⟩
      simpa using h2
  · intro hne
    simp only [eventfdEnv] at hne ⊢
    intro h0
    apply hne
    have : (List.filter (fun d => (d != fd && ready.contains d) ||
        (d == fd && decide (0 < eventCounter fd calls))) fds).length = 0 := by
      exact_mod_cast h0
    exact List.length_eq_zero.mp this

/-! ## Lemmas on connection setup -/

theorem DgramStep.same (s : ConnState) : DgramStep s s :=
  ⟨rfl, fun h => h, [], by simp, by simp⟩

theorem DgramStep.andThen {a b c : ConnState} (h1 : DgramStep a b) (h2 : DgramStep b c) :
    DgramStep a c := by
  obtain ⟨t1, f1, n1, e1, c1⟩ := h1
  obtain ⟨t2, f2, n2, e2, c2⟩ := h2
  refine ⟨t2.trans t1, fun h => f2 (f1 h), n1 ++ n2, by rw [e2, e1, List.append_assoc], ?_⟩
  intro c hc
  rcases List.mem_append.mp hc with h | h
  · exact c1 c h
  · exact c2 c h

theorem lowestFree_nonneg (openFds : List Int) : 0 ≤ lowestFree openFds := by
  unfold lowestFree
  exact Int.ofNat_nonneg _

theorem lowestFree_ne_invalid (openFds : List Int) : lowestFree openFds ≠ INVALID_SOCKET := by
  have := lowestFree_nonneg openFds
  unfold INVALID_SOCKET
  omega

theorem sys_close_step (s : ConnState) (fd : Int) : DgramStep s (sys_close s fd) := by
  refine ⟨rfl, ?_, [ConnCall.close fd], rfl, by simp [isStreamSocket]⟩
  intro h x hx
  exact h x (List.mem_of_mem_erase hx)

theorem sys_socket_dgram (env : ConnEnv) (s : ConnState) (family : Nat) :
    DgramStep s (sys_socket env s family SOCK_DGRAM).2 ∧
    ((sys_socket env s family SOCK_DGRAM).1 = INVALID_SOCKET ∨
      0 ≤ (sys_socket env s family SOCK_DGRAM).1) ∧
    (sys_socket env s family SOCK_DGRAM).2.udpSock = s.udpSock ∧
    (sys_socket env s family SOCK_DGRAM).2.interruptFd = s.interruptFd ∧
    (sys_socket env s family SOCK_DGRAM).2.sock = s.sock := by
  unfold sys_socket
  split
  · refine ⟨⟨rfl, ?_, [_], rfl, ?_⟩, Or.inr (lowestFree_nonneg _), rfl, rfl, rfl⟩
    · intro h x hx
      rcases List.mem_append.mp hx with hx | hx
      · exact h x hx
      · rw [List.mem_singleton.mp hx]; exact lowestFree_nonneg _
    · intro c hc
      rw [List.mem_singleton.mp hc]
      rfl
  · refine ⟨⟨rfl, fun h => h, [_], rfl, ?_⟩, Or.inl rfl, rfl, rfl, rfl⟩
    intro c hc
    rw [List.mem_singleton.mp hc]
    rfl

theorem sys_connect_spec (env : ConnEnv) (s : ConnState) (fd : Int) (family : Nat)
    (addrSize : Option Nat) :
    DgramStep s (sys_connect env s fd family addrSize).2 ∧
    ((sys_connect env s fd family addrSize).1 = 0 ∨
      (sys_connect env s fd family addrSize).1 = -1) ∧
    ((sys_connect env s fd family addrSize).1 = 0 → fd ∈ s.openFds) ∧
    (sys_connect env s fd family addrSize).2.udpSock = s.udpSock ∧
    (sys_connect env s fd family addrSize).2.interruptFd = s.interruptFd ∧
    (sys_connect env s fd family addrSize).2.sock = s.sock ∧
    (sys_connect env s fd family addrSize).2.openFds = s.openFds := by
  unfold sys_connect
  split
  · rename_i h
    exact ⟨⟨rfl, fun h => h, [_], rfl, by simp [isStreamSocket]⟩, Or.inl rfl, fun _ => h.1,
      rfl, rfl, rfl, rfl⟩
  · exact ⟨⟨rfl, fun h => h, [_], rfl, by simp [isStreamSocket]⟩, Or.inr rfl,
      (fun h => by simp at h), rfl, rfl, rfl, rfl⟩

theorem sys_eventfd_spec (env : ConnEnv) (s : ConnState) :
    DgramStep s (sys_eventfd env s).2 ∧
    ((sys_eventfd env s).1 = -1 ∨ 0 ≤ (sys_eventfd env s).1) ∧
    (sys_eventfd env s).2.udpSock = s.udpSock ∧
    (sys_eventfd env s).2.interruptFd = s.interruptFd ∧
    (sys_eventfd env s).2.sock = s.sock := by
  unfold sys_eventfd
  split
  · refine ⟨⟨rfl, ?_, [_], rfl, by simp [isStreamSocket]⟩, Or.inr (lowestFree_nonneg _), rfl,
      rfl, rfl⟩
    intro h x hx
    rcases List.mem_append.mp hx with hx | hx
    · exact h x hx
    · rw [List.mem_singleton.mp hx]; exact lowestFree_nonneg _
  · exact ⟨⟨rfl, fun h => h, [_], rfl, by simp [isStreamSocket]⟩, Or.inl rfl, rfl, rfl, rfl⟩

theorem closeInterrupt_spec (s : ConnState) :
    DgramStep s (closeInterrupt s) ∧ (closeInterrupt s).interruptFd = INVALID_SOCKET ∧
    (closeInterrupt s).udpSock = s.udpSock ∧ (closeInterrupt s).sock = s.sock := by
  unfold closeInterrupt
  split
  · exact ⟨sys_close_step s _, rfl, rfl, rfl⟩
  · rename_i h
    exact ⟨DgramStep.same s, not_not.mp h, rfl, rfl⟩


theorem AJ_Net_ARDP_Disconnect_spec (s : ConnState) :
    DgramStep s (AJ_Net_ARDP_Disconnect s) ∧
    (AJ_Net_ARDP_Disconnect s).udpSock = INVALID_SOCKET ∧
    (AJ_Net_ARDP_Disconnect s).interruptFd = s.interruptFd ∧
    (AJ_Net_ARDP_Disconnect s).sock = zeroNetSocket := by
  refine ⟨⟨rfl, ?_, [ConnCall.ardpDisconnect, ConnCall.close s.udpSock], ?_, ?_⟩, rfl, rfl, rfl⟩
  · intro h x hx
    exact h x (List.mem_of_mem_erase hx)
  · simp [AJ_Net_ARDP_Disconnect, sys_close]
  · intro c hc
    simp only [List.mem_cons, List.mem_singleton, List.not_mem_nil, or_false] at hc
    rcases hc with rfl | rfl <;> rfl

theorem ardpOpen_spec (env : ConnEnv) (service : AJ_Service) (i : Nat) (l : ArdpLocals)
    (s : ConnState) :
    DgramStep s (ardpOpen env service i l s).2.2 ∧
    (ardpOpen env service i l s).2.2.udpSock = s.udpSock ∧
    (ardpOpen env service i l s).2.2.interruptFd = s.interruptFd := by
  have h4 := sys_socket_dgram env s AF_INET
  have h6 := sys_socket_dgram env s AF_INET6
  unfold ardpOpen
  split
  · split
    · exact ⟨h4.1, h4.2.2.1, h4.2.2.2.1⟩
    · exact ⟨h4.1, h4.2.2.1, h4.2.2.2.1⟩
  · split
    · split
      · exact ⟨h6.1, h6.2.2.1, h6.2.2.2.1⟩
      · exact ⟨h6.1, h6.2.2.1, h6.2.2.2.1⟩
    · exact ⟨DgramStep.same s, rfl, rfl⟩

theorem ardpHandshake_spec (env : ConnEnv) (l : ArdpLocals) (s : ConnState) :
    DgramStep s (ardpHandshake env l s).2 ∧
    (ardpHandshake env l s).2.interruptFd = s.interruptFd ∧
    ((ardpHandshake env l s).1 = true →
      (ardpHandshake env l s).2.udpSock = l.udpSock ∧ l.udpSock ∈ s.openFds) ∧
    ((ardpHandshake env l s).1 = false →
      (ardpHandshake env l s).2.udpSock = INVALID_SOCKET ∨
        (ardpHandshake env l s).2.udpSock = s.udpSock) := by
  obtain ⟨hstep, _, hin, hudp, hint, _, hopen⟩ :=
    sys_connect_spec env s l.udpSock l.family l.addrSize
  unfold ardpHandshake
  split
  · rename_i hc
    split
    · have hmid : DgramStep (sys_connect env s l.udpSock l.family l.addrSize).2
          { (sys_connect env s l.udpSock l.family l.addrSize).2 with
              udpSock := l.udpSock, sock := ardpNetSocket env,
              calls := (sys_connect env s l.udpSock l.family l.addrSize).2.calls ++
                [ConnCall.ardpConnect true] } := by
        refine ⟨rfl, fun h => h, [ConnCall.ardpConnect true], rfl, ?_⟩
        intro c hc
        rw [List.mem_singleton.mp hc]; rfl
      exact ⟨hstep.andThen hmid, hint, fun _ => ⟨rfl, hin hc⟩, fun h => by simp at h⟩
    · have hd := AJ_Net_ARDP_Disconnect_spec
        { (sys_connect env s l.udpSock l.family l.addrSize).2 with
            udpSock := l.udpSock, sock := ardpNetSocket env,
            calls := (sys_connect env s l.udpSock l.family l.addrSize).2.calls ++
              [ConnCall.ardpConnect false] }
      have hmid : DgramStep (sys_connect env s l.udpSock l.family l.addrSize).2
          { (sys_connect env s l.udpSock l.family l.addrSize).2 with
              udpSock := l.udpSock, sock := ardpNetSocket env,
              calls := (sys_connect env s l.udpSock l.family l.addrSize).2.calls ++
                [ConnCall.ardpConnect false] } := by
        refine ⟨rfl, fun h => h, [ConnCall.ardpConnect false], rfl, ?_⟩
        intro c hc
        rw [List.mem_singleton.mp hc]; rfl
      refine ⟨(hstep.andThen hmid).andThen hd.1, ?_, (fun h => by simp at h),
        fun _ => Or.inl hd.2.1⟩
      rw [hd.2.2.1]; exact hint
  · exact ⟨hstep, hint, fun h => by simp at h, fun _ => Or.inr hudp⟩

theorem ardpIteration_spec (env : ConnEnv) (service : AJ_Service) (i : Nat) (l : ArdpLocals)
    (s : ConnState) :
    DgramStep s (ardpIteration env service i l s).2.2 ∧
    (ardpIteration env service i l s).2.2.interruptFd = s.interruptFd ∧
    ((ardpIteration env service i l s).1 = true →
      (∀ fd ∈ s.openFds, (0 : Int) ≤ fd) → 0 ≤ (ardpIteration env service i l s).2.2.udpSock) ∧
    ((ardpIteration env service i l s).1 = false →
      (ardpIteration env service i l s).2.2.udpSock = INVALID_SOCKET ∨
        (ardpIteration env service i l s).2.2.udpSock = s.udpSock) := by
  obtain ⟨ostep, oudp, oint⟩ := ardpOpen_spec env service i l s
  obtain ⟨hstep, hint, hok, hfail⟩ := ardpHandshake_spec env
    (ardpOpen env service i l s).2.1 (ardpOpen env service i l s).2.2
  unfold ardpIteration
  split
  · refine ⟨ostep.andThen hstep, hint.trans oint, ?_, ?_⟩
    · intro h hfds
      obtain ⟨e, hmem⟩ := hok h
      simp only
      rw [e]
      exact ostep.2.1 hfds _ hmem
    · intro h
      rcases hfail h with h1 | h1
      · exact Or.inl h1
      · exact Or.inr (h1.trans oudp)
  · exact ⟨ostep, oint, fun h => by simp at h, fun _ => Or.inr oudp⟩

theorem ardpConnectError_spec (l : ArdpLocals) (s : ConnState) :
    (ardpConnectError l s).1 = AJ_ERR_CONNECT ∧ DgramStep s (ardpConnectError l s).2 ∧
    (ardpConnectError l s).2.interruptFd = INVALID_SOCKET ∧
    (ardpConnectError l s).2.udpSock = s.udpSock := by
  obtain ⟨cstep, cint, cudp, _⟩ := closeInterrupt_spec s
  unfold ardpConnectError
  refine ⟨rfl, ?_⟩
  simp only
  split
  · exact ⟨cstep.andThen (sys_close_step _ _), cint, cudp⟩
  · exact ⟨cstep, cint, cudp⟩

theorem AJ_Net_ARDP_Connect_spec (env : ConnEnv) (s : ConnState) (service : AJ_Service) :
    DgramStep s (AJ_Net_ARDP_Connect env s service).2 ∧
    ((AJ_Net_ARDP_Connect env s service).1 = AJ_OK ∨
      (AJ_Net_ARDP_Connect env s service).1 = AJ_ERR_CONNECT) ∧
    ((AJ_Net_ARDP_Connect env s service).1 = AJ_OK →
      (∀ fd ∈ s.openFds, (0 : Int) ≤ fd) →
      0 ≤ (AJ_Net_ARDP_Connect env s service).2.udpSock) ∧
    ((AJ_Net_ARDP_Connect env s service).1 = AJ_ERR_CONNECT →
      ((AJ_Net_ARDP_Connect env s service).2.udpSock = INVALID_SOCKET ∨
        (AJ_Net_ARDP_Connect env s service).2.udpSock = s.udpSock) ∧
      (AJ_Net_ARDP_Connect env s service).2.interruptFd = INVALID_SOCKET) := by
  obtain ⟨estep, eret, eudp, _, _⟩ := sys_eventfd_spec env s
  have sstep : DgramStep s (ardpStart env s) := estep
  have sudp : (ardpStart env s).udpSock = s.udpSock := eudp
  obtain ⟨i0step, _, i0ok, i0fail⟩ := ardpIteration_spec env service 0
    { udpSock := INVALID_SOCKET, family := 0, addrSize := none } (ardpStart env s)
  obtain ⟨i1step, _, i1ok, i1fail⟩ := ardpIteration_spec env service 1
    (ardpIteration env service 0
      { udpSock := INVALID_SOCKET, family := 0, addrSize := none } (ardpStart env s)).2.1
    (ardpIteration env service 0
      { udpSock := INVALID_SOCKET, family := 0, addrSize := none } (ardpStart env s)).2.2
  obtain ⟨xst, xstep, xint, xudp⟩ := ardpConnectError_spec
    (ardpIteration env service 1
      (ardpIteration env service 0
        { udpSock := INVALID_SOCKET, family := 0, addrSize := none } (ardpStart env s)).2.1
      (ardpIteration env service 0
        { udpSock := INVALID_SOCKET, family := 0, addrSize := none } (ardpStart env s)).2.2).2.1
    (ardpIteration env service 1
      (ardpIteration env service 0
        { udpSock := INVALID_SOCKET, family := 0, addrSize := none } (ardpStart env s)).2.1
      (ardpIteration env service 0
        { udpSock := INVALID_SOCKET, family := 0, addrSize := none } (ardpStart env s)).2.2).2.2
  unfold AJ_Net_ARDP_Connect
  split
  · rename_i hneg
    refine ⟨sstep, Or.inr rfl, fun h => by simp at h, fun _ => ⟨Or.inr sudp, ?_⟩⟩
    show (sys_eventfd env s).1 = INVALID_SOCKET
    rcases eret with h | h
    · exact h
    · omega
  · split
    · rename_i h0
      refine ⟨sstep.andThen i0step, Or.inl rfl, fun _ hfds => ?_, fun h => by simp at h⟩
      exact i0ok h0 (sstep.2.1 hfds)
    · rename_i h0
      have h0' := Bool.eq_false_iff.mpr h0
      split
      · rename_i h1
        refine ⟨(sstep.andThen i0step).andThen i1step, Or.inl rfl, fun _ hfds => ?_,
          fun h => by simp at h⟩
        exact i1ok h1 (i0step.2.1 (sstep.2.1 hfds))
      · rename_i h1
        have h1' := Bool.eq_false_iff.mpr h1
        refine ⟨((sstep.andThen i0step).andThen i1step).andThen xstep, Or.inr xst,
          (fun h => by rw [xst] at h; cases h), fun _ => ⟨?_, xint⟩⟩
        rw [xudp]
        rcases i1fail h1' with h | h
        · exact Or.inl h
        · rw [h]
          rcases i0fail h0' with h | h
          · exact Or.inl h
          · exact Or.inr (h.trans sudp)


theorem tcpConnectError_spec (s : ConnState) (tcpSock : Int) :
    (tcpConnectError s tcpSock).1 = AJ_ERR_CONNECT ∧
    (tcpConnectError s tcpSock).2.udpSock = s.udpSock ∧
    (tcpConnectError s tcpSock).2.tcpSock = s.tcpSock ∧
    (tcpConnectError s tcpSock).2.interruptFd = INVALID_SOCKET ∧
    ∃ new : List ConnCall, (tcpConnectError s tcpSock).2.calls = s.calls ++ new := by
  obtain ⟨cstep, cint, cudp, _⟩ := closeInterrupt_spec s
  obtain ⟨ctcp, _, n, hn, _⟩ := cstep
  unfold tcpConnectError
  refine ⟨rfl, ?_⟩
  simp only
  split
  · exact ⟨cudp, ctcp, cint, n ++ [ConnCall.close tcpSock], by simp [sys_close, hn]⟩
  · exact ⟨cudp, ctcp, cint, n, hn⟩

theorem tcpConnectTo_spec (env : ConnEnv) (s : ConnState) (service : AJ_Service)
    (tcpSock : Int) (hsock : 0 ≤ tcpSock) :
    (tcpConnectTo env s service tcpSock).2.udpSock = s.udpSock ∧
    ((tcpConnectTo env s service tcpSock).1 = AJ_OK ∨
      (tcpConnectTo env s service tcpSock).1 = AJ_ERR_CONNECT) ∧
    ((tcpConnectTo env s service tcpSock).1 = AJ_OK →
      0 ≤ (tcpConnectTo env s service tcpSock).2.tcpSock) ∧
    ((tcpConnectTo env s service tcpSock).1 = AJ_ERR_CONNECT →
      (tcpConnectTo env s service tcpSock).2.tcpSock = s.tcpSock ∧
      (tcpConnectTo env s service tcpSock).2.interruptFd = INVALID_SOCKET) ∧
    ∃ new : List ConnCall, (tcpConnectTo env s service tcpSock).2.calls = s.calls ++ new := by
  have key : ∀ (family : Nat) (size : Option Nat),
      ∃ n1 : List ConnCall, (sys_connect env s tcpSock family size).2.calls = s.calls ++ n1 ∧
        (sys_connect env s tcpSock family size).2.udpSock = s.udpSock ∧
        (sys_connect env s tcpSock family size).2.tcpSock = s.tcpSock := by
    intro family size
    obtain ⟨⟨t, _, n, hn, _⟩, _, _, u, _⟩ := sys_connect_spec env s tcpSock family size
    exact ⟨n, hn, u, t⟩
  have err : ∀ s1 : ConnState, (∃ n1 : List ConnCall, s1.calls = s.calls ++ n1 ∧
        s1.udpSock = s.udpSock ∧ s1.tcpSock = s.tcpSock) →
      (tcpConnectError s1 tcpSock).2.udpSock = s.udpSock ∧
      ((tcpConnectError s1 tcpSock).1 = AJ_OK ∨
        (tcpConnectError s1 tcpSock).1 = AJ_ERR_CONNECT) ∧
      ((tcpConnectError s1 tcpSock).1 = AJ_OK → 0 ≤ (tcpConnectError s1 tcpSock).2.tcpSock) ∧
      ((tcpConnectError s1 tcpSock).1 = AJ_ERR_CONNECT →
        (tcpConnectError s1 tcpSock).2.tcpSock = s.tcpSock ∧
        (tcpConnectError s1 tcpSock).2.interruptFd = INVALID_SOCKET) ∧
      ∃ new : List ConnCall, (tcpConnectError s1 tcpSock).2.calls = s.calls ++ new := by
    intro s1 ⟨n1, h1, u1, t1⟩
    obtain ⟨est, eudp, etcp, eint, n2, h2⟩ := tcpConnectError_spec s1 tcpSock
    refine ⟨eudp.trans u1, Or.inr est, (fun h => by rw [est] at h; cases h),
      fun _ => ⟨etcp.trans t1, eint⟩, n1 ++ n2, ?_⟩
    rw [h2, h1, List.append_assoc]
  unfold tcpConnectTo
  split
  · split
    · exact err _ (key AF_INET (some 16))
    · obtain ⟨n1, h1, u1, _⟩ := key AF_INET (some 16)
      exact ⟨u1, Or.inl rfl, fun _ => hsock, (fun h => by cases h), n1, h1⟩
  · split
    · split
      · exact err _ (key AF_INET6 (some 28))
      · obtain ⟨n1, h1, u1, _⟩ := key AF_INET6 (some 28)
        exact ⟨u1, Or.inl rfl, fun _ => hsock, (fun h => by cases h), n1, h1⟩
    · exact err s ⟨[], by simp, rfl, rfl⟩

theorem AJ_TCP_Connect_spec (env : ConnEnv) (s : ConnState) (service : AJ_Service) :
    (AJ_TCP_Connect env s service).2.udpSock = s.udpSock ∧
    ((AJ_TCP_Connect env s service).1 = AJ_OK ∨
      (AJ_TCP_Connect env s service).1 = AJ_ERR_CONNECT) ∧
    ((AJ_TCP_Connect env s service).1 = AJ_OK → 0 ≤ (AJ_TCP_Connect env s service).2.tcpSock) ∧
    ((AJ_TCP_Connect env s service).1 = AJ_ERR_CONNECT →
      (AJ_TCP_Connect env s service).2.tcpSock = s.tcpSock ∧
      (AJ_TCP_Connect env s service).2.interruptFd = INVALID_SOCKET) ∧
    ∃ new : List ConnCall, (AJ_TCP_Connect env s service).2.calls = s.calls ++ new := by
  obtain ⟨⟨et, _, ne, he, _⟩, _, eu, _, _⟩ := sys_eventfd_spec env s
  have sk : ∀ s0 : ConnState,
      ((sys_socket env s0 AF_INET SOCK_STREAM).1 = INVALID_SOCKET ∨
        0 ≤ (sys_socket env s0 AF_INET SOCK_STREAM).1) ∧
      (sys_socket env s0 AF_INET SOCK_STREAM).2.udpSock = s0.udpSock ∧
      (sys_socket env s0 AF_INET SOCK_STREAM).2.tcpSock = s0.tcpSock ∧
      ∃ n : List ConnCall, (sys_socket env s0 AF_INET SOCK_STREAM).2.calls = s0.calls ++ n := by
    intro s0
    unfold sys_socket
    split
    · exact ⟨Or.inr (lowestFree_nonneg _), rfl, rfl, [_], rfl⟩
    · exact ⟨Or.inl rfl, rfl, rfl, [_], rfl⟩
  obtain ⟨kret, ku, kt, nk, hk⟩ := sk { (sys_eventfd env s).2 with
    interruptFd := (sys_eventfd env s).1 }
  unfold AJ_TCP_Connect
  split
  · obtain ⟨est, eudp, etcp, eint, n2, h2⟩ := tcpConnectError_spec
      { (sys_eventfd env s).2 with interruptFd := (sys_eventfd env s).1 } INVALID_SOCKET
    refine ⟨eudp.trans eu, Or.inr est, (fun h => by rw [est] at h; cases h),
      fun _ => ⟨etcp.trans et, eint⟩, ne ++ n2, ?_⟩
    rw [h2]
    show (sys_eventfd env s).2.calls ++ n2 = _
    rw [he, List.append_assoc]
  · split
    · obtain ⟨est, eudp, etcp, eint, n2, h2⟩ := tcpConnectError_spec
        (sys_socket env { (sys_eventfd env s).2 with interruptFd := (sys_eventfd env s).1 }
          AF_INET SOCK_STREAM).2 INVALID_SOCKET
      refine ⟨(eudp.trans ku).trans eu, Or.inr est, (fun h => by rw [est] at h; cases h),
        fun _ => ⟨(etcp.trans kt).trans et, eint⟩, ne ++ (nk ++ n2), ?_⟩
      rw [h2, hk]
      show ((sys_eventfd env s).2.calls ++ nk) ++ n2 = _
      rw [he]
      simp [List.append_assoc]
    · rename_i hvalid
      have hnn : 0 ≤ (sys_socket env
          { (sys_eventfd env s).2 with interruptFd := (sys_eventfd env s).1 }
          AF_INET SOCK_STREAM).1 := by
        rcases kret with h | h
        · exact absurd h hvalid
        · exact h
      obtain ⟨cu, cst, cok, cerr, n3, h3⟩ := tcpConnectTo_spec env
        (sys_socket env { (sys_eventfd env s).2 with interruptFd := (sys_eventfd env s).1 }
          AF_INET SOCK_STREAM).2 service _ hnn
      refine ⟨(cu.trans ku).trans eu, cst, cok, fun h => ⟨?_, (cerr h).2⟩, ne ++ (nk ++ n3), ?_⟩
      · rw [(cerr h).1, kt]
        exact et
      · rw [h3, hk]
        show ((sys_eventfd env s).2.calls ++ nk) ++ n3 = _
        rw [he]
        simp [List.append_assoc]

theorem releaseInterrupt_neg (s : ConnState) : (releaseInterrupt s).interruptFd < 0 := by
  unfold releaseInterrupt
  split
  · show INVALID_SOCKET < 0
    decide
  · rename_i h
    omega

theorem releaseInterrupt_of_neg (s : ConnState) (h : s.interruptFd < 0) :
    releaseInterrupt s = s := by
  unfold releaseInterrupt
  rw [if_neg (by omega)]

theorem releaseInterrupt_fields (s : ConnState) :
    (releaseInterrupt s).udpSock = s.udpSock ∧ (releaseInterrupt s).tcpSock = s.tcpSock ∧
      (releaseInterrupt s).sock = s.sock := by
  unfold releaseInterrupt
  split
  · exact ⟨rfl, rfl, rfl⟩
  · exact ⟨rfl, rfl, rfl⟩

theorem CloseNetSock_zero (s : ConnState) (h : s.sock = zeroNetSocket) : CloseNetSock s = s := by
  unfold CloseNetSock
  rw [h]
  rfl

theorem AJ_Net_Disconnect_of_released (s : ConnState) (hneg : s.interruptFd < 0)
    (hudp : s.udpSock = INVALID_SOCKET)
    (h : s.tcpSock = INVALID_SOCKET ∨ s.sock.rxContext = false) :
    AJ_Net_Disconnect s = s := by
  unfold AJ_Net_Disconnect
  rw [releaseInterrupt_of_neg s hneg, if_neg (by simp [hudp])]
  rcases h with h | h
  · rw [if_neg (by simp [h])]
  · split
    · unfold CloseNetSock
      rw [h]
      rfl
    · rfl

theorem AJ_Net_Disconnect_twice (s : ConnState) :
    AJ_Net_Disconnect (AJ_Net_Disconnect s) = AJ_Net_Disconnect s := by
  obtain ⟨ru, rt, rs⟩ := releaseInterrupt_fields s
  have rn := releaseInterrupt_neg s
  by_cases hu : (releaseInterrupt s).udpSock ≠ INVALID_SOCKET
  · have e : AJ_Net_Disconnect s =
        { AJ_Net_ARDP_Disconnect (releaseInterrupt s) with sock := zeroNetSocket } := by
      unfold AJ_Net_Disconnect
      rw [if_pos hu]
    rw [e]
    exact AJ_Net_Disconnect_of_released _ rn rfl (Or.inr rfl)
  · by_cases ht : (releaseInterrupt s).tcpSock ≠ INVALID_SOCKET
    · have e : AJ_Net_Disconnect s = CloseNetSock (releaseInterrupt s) := by
        unfold AJ_Net_Disconnect
        rw [if_neg hu, if_pos ht]
      rw [e]
      by_cases hc : (releaseInterrupt s).sock.rxContext = true
      · have e2 : CloseNetSock (releaseInterrupt s) =
            { sys_close { releaseInterrupt s with calls := (releaseInterrupt s).calls ++
                  [ConnCall.setsockopt (releaseInterrupt s).tcpSock,
                    ConnCall.shutdown (releaseInterrupt s).tcpSock] }
                (releaseInterrupt s).tcpSock with
              tcpSock := INVALID_SOCKET, sock := zeroNetSocket } := by
          unfold CloseNetSock
          rw [if_pos hc, if_pos ht]
        rw [e2]
        exact AJ_Net_Disconnect_of_released _ rn (not_not.mp hu) (Or.inl rfl)
      · have e2 : CloseNetSock (releaseInterrupt s) = releaseInterrupt s := by
          unfold CloseNetSock
          rw [if_neg hc]
        rw [e2]
        exact AJ_Net_Disconnect_of_released _ rn (not_not.mp hu)
          (Or.inr (Bool.eq_false_iff.mpr hc))
    · have e : AJ_Net_Disconnect s = releaseInterrupt s := by
        unfold AJ_Net_Disconnect
        rw [if_neg hu, if_neg ht]
      rw [e]
      exact AJ_Net_Disconnect_of_released _ rn (not_not.mp hu) (Or.inl (not_not.mp ht))


theorem sys_socket_fields (env : ConnEnv) (s : ConnState) (family type : Nat) :
    (sys_socket env s family type).2.interruptFd = s.interruptFd ∧
    (sys_socket env s family type).2.udpSock = s.udpSock ∧
    (sys_socket env s family type).2.tcpSock = s.tcpSock ∧
    (sys_socket env s family type).2.sock = s.sock := by
  unfold sys_socket
  split
  · exact ⟨rfl, rfl, rfl, rfl⟩
  · exact ⟨rfl, rfl, rfl, rfl⟩

theorem tcpConnectTo_ok (env : ConnEnv) (s : ConnState) (service : AJ_Service) (tcpSock : Int)
    (h : (tcpConnectTo env s service tcpSock).1 = AJ_OK) :
    (tcpConnectTo env s service tcpSock).2.interruptFd = s.interruptFd ∧
    (tcpConnectTo env s service tcpSock).2.sock = tcpNetSocket env ∧
    (tcpConnectTo env s service tcpSock).2.tcpSock = tcpSock := by
  have key : ∀ (family : Nat) (size : Option Nat),
      (sys_connect env s tcpSock family size).2.interruptFd = s.interruptFd := by
    intro family size
    exact (sys_connect_spec env s tcpSock family size).2.2.2.2.1
  have err : ∀ s1 : ConnState, (tcpConnectError s1 tcpSock).1 ≠ AJ_OK := by
    intro s1 h1
    rw [(tcpConnectError_spec s1 tcpSock).1] at h1
    cases h1
  unfold tcpConnectTo at h ⊢
  split at h
  · rw [if_pos (by assumption)]
    split at h
    · exact absurd h (err _)
    · rw [if_neg (by assumption)]
      exact ⟨key _ _, rfl, rfl⟩
  · rw [if_neg (by assumption)]
    split at h
    · rw [if_pos (by assumption)]
      split at h
      · exact absurd h (err _)
      · rw [if_neg (by assumption)]
        exact ⟨key _ _, rfl, rfl⟩
    · exact absurd h (err _)

theorem AJ_TCP_Connect_ok (env : ConnEnv) (s : ConnState) (service : AJ_Service)
    (h : (AJ_TCP_Connect env s service).1 = AJ_OK) :
    0 ≤ (AJ_TCP_Connect env s service).2.interruptFd ∧
    (AJ_TCP_Connect env s service).2.sock = tcpNetSocket env := by
  have err : ∀ (s1 : ConnState) (t : Int), (tcpConnectError s1 t).1 ≠ AJ_OK := by
    intro s1 t h1
    rw [(tcpConnectError_spec s1 t).1] at h1
    cases h1
  unfold AJ_TCP_Connect at h ⊢
  split at h
  · exact absurd h (err _ _)
  · rename_i hneg
    rw [if_neg hneg]
    split at h
    · exact absurd h (err _ _)
    · rename_i hsock
      rw [if_neg hsock]
      obtain ⟨hi, hs, _⟩ := tcpConnectTo_ok env _ service _ h
      refine ⟨?_, hs⟩
      rw [hi, (sys_socket_fields env _ AF_INET SOCK_STREAM).1]
      show 0 ≤ (sys_eventfd env s).1
      omega

theorem AJ_Net_ARDP_Connect_ok (env : ConnEnv) (s : ConnState) (service : AJ_Service)
    (h : (AJ_Net_ARDP_Connect env s service).1 = AJ_OK) :
    0 ≤ (AJ_Net_ARDP_Connect env s service).2.interruptFd := by
  have i0 := (ardpIteration_spec env service 0
    { udpSock := INVALID_SOCKET, family := 0, addrSize := none } (ardpStart env s)).2.1
  have i1 := (ardpIteration_spec env service 1
    (ardpIteration env service 0
      { udpSock := INVALID_SOCKET, family := 0, addrSize := none } (ardpStart env s)).2.1
    (ardpIteration env service 0
      { udpSock := INVALID_SOCKET, family := 0, addrSize := none } (ardpStart env s)).2.2).2.1
  unfold AJ_Net_ARDP_Connect at h ⊢
  split at h
  · cases h
  · rename_i hneg
    rw [if_neg hneg]
    have hs : 0 ≤ (ardpStart env s).interruptFd := by
      show 0 ≤ (sys_eventfd env s).1
      omega
    split at h
    · rw [if_pos (by assumption)]
      show 0 ≤ (ardpIteration env service 0 _ (ardpStart env s)).2.2.interruptFd
      rw [i0]; exact hs
    · rw [if_neg (by assumption)]
      split at h
      · rw [if_pos (by assumption)]
        show 0 ≤ (ardpIteration env service 1 _ _).2.2.interruptFd
        rw [i1, i0]; exact hs
      · rw [(ardpConnectError_spec _ _).1] at h
        cases h

theorem lowestFree_not_mem (openFds : List Int) : lowestFree openFds ∉ openFds := by
  unfold lowestFree
  cases hfind : (List.range (openFds.length + 1)).find?
      (fun n => !openFds.contains (Int.ofNat n)) with
  | some n =>
    have := List.find?_some hfind
    simpa using this
  | none =>
    exfalso
    rw [List.find?_eq_none] at hfind
    have hsub : (List.range (openFds.length + 1)).map Int.ofNat ⊆ openFds := by
      intro x hx
      obtain ⟨n, hn, rfl⟩ := List.mem_map.mp hx
      have := hfind n hn
      simpa using this
    have hnodup : ((List.range (openFds.length + 1)).map Int.ofNat).Nodup :=
      (List.nodup_range _).map (fun a b h => Int.ofNat.inj h)
    have := (List.subperm_of_subset hnodup hsub).length_le
    simp at this

theorem sys_eventfd_open (env : ConnEnv) (s : ConnState) (h : 0 ≤ (sys_eventfd env s).1) :
    (sys_eventfd env s).1 ∈ (sys_eventfd env s).2.openFds := by
  unfold sys_eventfd at h ⊢
  split
  · simp
  · rename_i hf
    rw [if_neg hf] at h
    simp at h

theorem sys_socket_fresh (env : ConnEnv) (s : ConnState) (family type : Nat)
    (h : (sys_socket env s family type).1 ≠ INVALID_SOCKET) :
    (sys_socket env s family type).1 ∉ s.openFds ∧
    ∀ fd ∈ s.openFds, fd ∈ (sys_socket env s family type).2.openFds := by
  unfold sys_socket at h ⊢
  split
  · exact ⟨lowestFree_not_mem _, fun fd hfd => List.mem_append_left _ hfd⟩
  · rename_i hf
    rw [if_neg hf] at h
    exact absurd rfl h

theorem sys_socket_keeps (env : ConnEnv) (s : ConnState) (family type : Nat) :
    ∀ fd ∈ s.openFds, fd ∈ (sys_socket env s family type).2.openFds := by
  unfold sys_socket
  split
  · exact fun fd hfd => List.mem_append_left _ hfd
  · exact fun fd hfd => hfd

theorem ardpOpen_distinct (env : ConnEnv) (service : AJ_Service) (i : Nat) (l : ArdpLocals)
    (s : ConnState) (h : ArdpDistinct l s) :
    ArdpDistinct (ardpOpen env service i l s).2.1 (ardpOpen env service i l s).2.2 := by
  obtain ⟨h0, hmem, hne⟩ := h
  have hinv : INVALID_SOCKET ≠ s.interruptFd := by
    unfold INVALID_SOCKET
    omega
  have sock : ∀ family : Nat,
      (sys_socket env s family SOCK_DGRAM).1 ≠ INVALID_SOCKET →
      ArdpDistinct
        { udpSock := (sys_socket env s family SOCK_DGRAM).1, family := family,
          addrSize := if family = AF_INET then some 16 else some 28 }
        (sys_socket env s family SOCK_DGRAM).2 := by
    intro family hv
    obtain ⟨hfresh, hkeep⟩ := sys_socket_fresh env s family SOCK_DGRAM hv
    have hi := (sys_socket_fields env s family SOCK_DGRAM).1
    refine ⟨by rw [hi]; exact h0, by rw [hi]; exact hkeep _ hmem, ?_⟩
    rw [hi]
    intro e
    exact hfresh (by rw [show (sys_socket env s family SOCK_DGRAM).1 = s.interruptFd from e]
                     exact hmem)
  have fail : ∀ family : Nat,
      ArdpDistinct { l with udpSock := INVALID_SOCKET }
        (sys_socket env s family SOCK_DGRAM).2 := by
    intro family
    have hi := (sys_socket_fields env s family SOCK_DGRAM).1
    exact ⟨by rw [hi]; exact h0, by rw [hi]; exact sys_socket_keeps env s family _ _ hmem,
      by rw [hi]; exact hinv⟩
  unfold ardpOpen
  split
  · split
    · exact fail AF_INET
    · rename_i hv
      exact sock AF_INET hv
  · split
    · split
      · exact fail AF_INET6
      · rename_i hv
        exact sock AF_INET6 hv
    · exact ⟨h0, hmem, hne⟩

theorem ardpHandshake_distinct (env : ConnEnv) (l : ArdpLocals) (s : ConnState)
    (h : ArdpDistinct l s) :
    ArdpDistinct l (ardpHandshake env l s).2 ∧
    ((ardpHandshake env l s).1 = true →
      (ardpHandshake env l s).2.udpSock ≠ (ardpHandshake env l s).2.interruptFd) := by
  obtain ⟨h0, hmem, hne⟩ := h
  obtain ⟨_, _, _, _, hint, _, hopen⟩ := sys_connect_spec env s l.udpSock l.family l.addrSize
  unfold ardpHandshake
  split
  · split
    · refine ⟨⟨?_, ?_, ?_⟩, fun _ => ?_⟩
      · show 0 ≤ (sys_connect env s l.udpSock l.family l.addrSize).2.interruptFd
        rw [hint]; exact h0
      · show (sys_connect env s l.udpSock l.family l.addrSize).2.interruptFd ∈
          (sys_connect env s l.udpSock l.family l.addrSize).2.openFds
        rw [hint, hopen]; exact hmem
      · show l.udpSock ≠ (sys_connect env s l.udpSock l.family l.addrSize).2.interruptFd
        rw [hint]; exact hne
      · show l.udpSock ≠ (sys_connect env s l.udpSock l.family l.addrSize).2.interruptFd
        rw [hint]; exact hne
    · refine ⟨⟨?_, ?_, ?_⟩, fun h => by simp at h⟩
      · show 0 ≤ (sys_connect env s l.udpSock l.family l.addrSize).2.interruptFd
        rw [hint]; exact h0
      · show (sys_connect env s l.udpSock l.family l.addrSize).2.interruptFd ∈
          ((sys_connect env s l.udpSock l.family l.addrSize).2.openFds).erase l.udpSock
        rw [hint, hopen]
        exact (List.mem_erase_of_ne (Ne.symm hne)).mpr hmem
      · show l.udpSock ≠ (sys_connect env s l.udpSock l.family l.addrSize).2.interruptFd
        rw [hint]; exact hne
  · refine ⟨⟨?_, ?_, ?_⟩, fun h => by simp at h⟩
    · rw [hint]; exact h0
    · rw [hint, hopen]; exact hmem
    · rw [hint]; exact hne

theorem ardpIteration_distinct (env : ConnEnv) (service : AJ_Service) (i : Nat)
    (l : ArdpLocals) (s : ConnState) (h : ArdpDistinct l s) :
    ArdpDistinct (ardpIteration env service i l s).2.1 (ardpIteration env service i l s).2.2 ∧
    ((ardpIteration env service i l s).1 = true →
      (ardpIteration env service i l s).2.2.udpSock ≠
        (ardpIteration env service i l s).2.2.interruptFd) := by
  have ho := ardpOpen_distinct env service i l s h
  have hh := ardpHandshake_distinct env _ _ ho
  unfold ardpIteration
  split
  · exact hh
  · exact ⟨ho, fun h => by simp at h⟩

theorem AJ_Net_ARDP_Connect_distinct (env : ConnEnv) (s : ConnState) (service : AJ_Service)
    (h : (AJ_Net_ARDP_Connect env s service).1 = AJ_OK) :
    (AJ_Net_ARDP_Connect env s service).2.udpSock ≠
      (AJ_Net_ARDP_Connect env s service).2.interruptFd := by
  unfold AJ_Net_ARDP_Connect at h ⊢
  split at h
  · cases h
  · rename_i hneg
    rw [if_neg hneg]
    have hstart : ArdpDistinct { udpSock := INVALID_SOCKET, family := 0, addrSize := none }
        (ardpStart env s) := by
      have h0 : 0 ≤ (sys_eventfd env s).1 := by omega
      refine ⟨h0, sys_eventfd_open env s h0, ?_⟩
      show INVALID_SOCKET ≠ (sys_eventfd env s).1
      unfold INVALID_SOCKET
      omega
    obtain ⟨d0, ok0⟩ := ardpIteration_distinct env service 0 _ _ hstart
    obtain ⟨_, ok1⟩ := ardpIteration_distinct env service 1 _ _ d0
    split at h
    · rename_i h0
      rw [if_pos h0]
      exact ok0 h0
    · rename_i h0
      rw [if_neg h0]
      split at h
      · rename_i h1
        rw [if_pos h1]
        exact ok1 h1
      · rw [(ardpConnectError_spec _ _).1] at h
        cases h

theorem AJ_TCP_Connect_distinct (env : ConnEnv) (s : ConnState) (service : AJ_Service)
    (h : (AJ_TCP_Connect env s service).1 = AJ_OK) :
    (AJ_TCP_Connect env s service).2.tcpSock ≠ (AJ_TCP_Connect env s service).2.interruptFd := by
  have err : ∀ (s1 : ConnState) (t : Int), (tcpConnectError s1 t).1 ≠ AJ_OK := by
    intro s1 t h1
    rw [(tcpConnectError_spec s1 t).1] at h1
    cases h1
  unfold AJ_TCP_Connect at h ⊢
  split at h
  · exact absurd h (err _ _)
  · rename_i hneg
    rw [if_neg hneg]
    split at h
    · exact absurd h (err _ _)
    · rename_i hsock
      rw [if_neg hsock]
      obtain ⟨hi, _, ht⟩ := tcpConnectTo_ok env _ service _ h
      rw [hi, ht, (sys_socket_fields env _ AF_INET SOCK_STREAM).1]
      obtain ⟨hfresh, _⟩ := sys_socket_fresh env
        { (sys_eventfd env s).2 with interruptFd := (sys_eventfd env s).1 } AF_INET SOCK_STREAM
        hsock
      intro e
      apply hfresh
      rw [e]
      exact sys_eventfd_open env s (by omega)

theorem AJ_Net_Connect_ok (env : ConnEnv) (s : ConnState) (service : AJ_Service)
    (hudp : s.udpSock = INVALID_SOCKET) (htcp : s.tcpSock = INVALID_SOCKET)
    (hfds : ∀ fd ∈ s.openFds, (0 : Int) ≤ fd)
    (hok : (AJ_Net_Connect env s service).1 = AJ_OK) :
    (0 ≤ (AJ_Net_Connect env s service).2.udpSock ∧
        (AJ_Net_Connect env s service).2.tcpSock = INVALID_SOCKET ∧
        0 ≤ (AJ_Net_Connect env s service).2.interruptFd ∧
        (AJ_Net_Connect env s service).2.udpSock ≠
          (AJ_Net_Connect env s service).2.interruptFd) ∨
      ((AJ_Net_Connect env s service).2.udpSock = INVALID_SOCKET ∧
        0 ≤ (AJ_Net_Connect env s service).2.tcpSock ∧
        0 ≤ (AJ_Net_Connect env s service).2.interruptFd ∧
        (AJ_Net_Connect env s service).2.sock = tcpNetSocket env ∧
        (AJ_Net_Connect env s service).2.tcpSock ≠
          (AJ_Net_Connect env s service).2.interruptFd) := by
  obtain ⟨astep, ast, aok, aerr⟩ := AJ_Net_ARDP_Connect_spec env s service
  have tcase : ∀ s1 : ConnState, s1.udpSock = INVALID_SOCKET →
      (AJ_TCP_Connect env s1 service).1 = AJ_OK →
      (AJ_TCP_Connect env s1 service).2.udpSock = INVALID_SOCKET ∧
        0 ≤ (AJ_TCP_Connect env s1 service).2.tcpSock ∧
        0 ≤ (AJ_TCP_Connect env s1 service).2.interruptFd ∧
        (AJ_TCP_Connect env s1 service).2.sock = tcpNetSocket env ∧
        (AJ_TCP_Connect env s1 service).2.tcpSock ≠
          (AJ_TCP_Connect env s1 service).2.interruptFd := by
    intro s1 h1 hk
    obtain ⟨tu, _, tok, _, _⟩ := AJ_TCP_Connect_spec env s1 service
    obtain ⟨ti, ts⟩ := AJ_TCP_Connect_ok env s1 service hk
    exact ⟨tu.trans h1, tok hk, ti, ts, AJ_TCP_Connect_distinct env s1 service hk⟩
  unfold AJ_Net_Connect at hok ⊢
  split at hok
  · rw [if_pos (by assumption)]
    split at hok
    · rename_i hA
      rw [if_pos hA]
      exact Or.inl ⟨aok hA hfds, astep.1.trans htcp, AJ_Net_ARDP_Connect_ok env s service hA,
        AJ_Net_ARDP_Connect_distinct env s service hA⟩
    · rename_i hA
      rw [if_neg hA]
      have hE : (AJ_Net_ARDP_Connect env s service).1 = AJ_ERR_CONNECT :=
        ast.elim (fun h => absurd h hA) id
      split at hok
      · rw [if_pos (by assumption)]
        refine Or.inr (tcase _ ?_ hok)
        exact (aerr hE).1.elim id (fun h => h.trans hudp)
      · exact absurd hok hA
  · rw [if_neg (by assumption)]
    split at hok
    · rw [if_pos (by assumption)]
      exact Or.inr (tcase s hudp hok)
    · cases hok

/-! ## Sender-info rewrite: extent, totality and the repeated scan -/

theorem load_splice_ge (mem : Mem) (a i : Nat) (xs : List Nat) (hi : a + xs.length ≤ i)
    (ha : a ≤ mem.length) : load (splice mem a xs) i = load mem i := by
  unfold load splice
  rw [List.append_assoc, List.getElem?_append_right (by simp; omega)]
  rw [List.getElem?_append_right (by simp; omega)]
  simp only [List.length_take, Nat.min_eq_left ha, List.getElem?_drop]
  congr 1
  omega

/-- The memory after a successful rewrite, in closed form. -/
theorem RewriteSenderInfo_shape {ndebug : Bool} {mem mem' : Mem} {buf buf' : AJ_IOBuffer}
    {saddr : SockAddr}
    (hok : RewriteSenderInfo ndebug mem buf saddr = some (AJ_OK, mem', buf')) :
    ∃ (q dl : Nat) (fields : List Nat),
      scanMarker mem buf.readPtr buf.writePtr 0 = some (q, 4) ∧
      dl = 23 + fields.length ∧ 18 ≤ fields.length ∧ fields.length ≤ 67 ∧
      (saddr.sa_family = AF_INET → fields.length ≤ 43) ∧
      q + 46 + fields.length ≤ mem.length ∧
      mem' = splice (splice mem (q + 21) [dl / 256 % 256, dl % 256]) (q + 46) fields ∧
      buf' = { buf with writePtr := q + 46 + fields.length } := by
  obtain ⟨b0, b1, digit, ipvStr, _, _, hfam, hil, hsl, hpl, hrw⟩ := RewriteSenderInfo_ok hok
  obtain ⟨q, hscan⟩ := rewriteAt_ok_scan hrw
  obtain ⟨hbound, hmem', hbuf'⟩ := rewriteAt_ok hscan hrw
  generalize hs1 : decimal (sidVal b0 b1) = s1 at *
  generalize hs3 : decimal (saddr.port % 65536) = s3 at *
  have h1 := cstr_length_le s1
  have h2 := cstr_length_le ipvStr
  have h3 := cstr_length_le s3
  have hk1 : sid.length = 4 := rfl
  have hk2 : (ipv digit).length = 5 := rfl
  have hk3 : (upcv digit).length = 6 := rfl
  have l1 := fieldBytes_length sid s1
  have l2 := fieldBytes_length (ipv digit) ipvStr
  have l3 := fieldBytes_length (upcv digit) s3
  have hdl : dataLengthOf digit s1 ipvStr s3 =
      23 + ((1 + 4 + (cstr s1).length) + (1 + 5 + (cstr ipvStr).length) +
        (1 + 6 + (cstr s3).length)) := by
    unfold dataLengthOf
    rw [hk1, hk2, hk3]
    omega
  refine ⟨q, dataLengthOf digit s1 ipvStr s3,
    fieldBytes sid s1 ++ fieldBytes (ipv digit) ipvStr ++ fieldBytes (upcv digit) s3,
    hscan, ?_, ?_, ?_, ?_, hbound, hmem', hbuf'⟩
  · rw [hdl]
    simp only [List.length_append]
    omega
  · simp only [List.length_append]
    omega
  · simp only [List.length_append]
    omega
  · intro hf
    have hq : ipvStr = dottedQuad (saddr.addr4 % 4294967296) := by
      rcases hfam with ⟨_, _, h⟩ | ⟨h6, _, _⟩
      · exact h
      · rw [hf] at h6
        cases h6
    have : ipvStr.length ≤ 15 := by
      rw [hq]
      unfold dottedQuad
      have d1 := decimal_length_le 3 (saddr.addr4 % 4294967296 / 16777216 % 256) (by omega)
        (by omega)
      have d2 := decimal_length_le 3 (saddr.addr4 % 4294967296 / 65536 % 256) (by omega)
        (by omega)
      have d3 := decimal_length_le 3 (saddr.addr4 % 4294967296 / 256 % 256) (by omega)
        (by omega)
      have d4 := decimal_length_le 3 (saddr.addr4 % 4294967296 % 256) (by omega) (by omega)
      simp only [List.length_append, List.length_cons, List.length_nil]
      omega
    simp only [List.length_append]
    omega


theorem splice_frame (mem : Mem) (q i dl : Nat) (fields : List Nat)
    (hb : q + 46 + fields.length ≤ mem.length)
    (hout : ¬ ((q + 21 ≤ i ∧ i < q + 23) ∨ (q + 46 ≤ i ∧ i < q + 46 + fields.length))) :
    load (splice (splice mem (q + 21) [dl / 256 % 256, dl % 256]) (q + 46) fields) i =
      load mem i := by
  have hinner : (splice mem (q + 21) [dl / 256 % 256, dl % 256]).length = mem.length :=
    splice_length (by simp only [List.length_cons, List.length_nil]; omega)
  have inner : load (splice mem (q + 21) [dl / 256 % 256, dl % 256]) i = load mem i := by
    by_cases h1 : i < q + 21
    · exact load_splice_lt _ _ _ _ h1 (by omega)
    · exact load_splice_ge _ _ _ _ (by simp only [List.length_cons, List.length_nil]; omega)
        (by omega)
  by_cases h2 : i < q + 46
  · rw [load_splice_lt _ _ _ _ h2 (by rw [hinner]; omega)]
    exact inner
  · rw [load_splice_ge _ _ _ _ (by omega) (by rw [hinner]; omega)]
    exact inner

theorem scanMarker_step (M : Mem) (rp p m b : Nat) (hb : load M (p + 1) = some b)
    (hp : p ≠ rp) (hm : (if some b = snd[m]? then m + 1 else 0) ≠ 4) :
    scanMarker M rp (p + 1) m =
      scanMarker M rp p (if some b = snd[m]? then m + 1 else 0) := by
  rw [scanMarker]
  simp only [hb]
  rw [if_pos ⟨hp, hm⟩]

theorem neutralByte_step (b : Nat) (h : neutralByte b = true) (m : Nat) :
    (if some b = snd[m]? then m + 1 else 0) = 0 := by
  simp only [neutralByte, Bool.and_eq_true, bne_iff_ne, ne_eq] at h
  obtain ⟨⟨⟨h0, h1⟩, h2⟩, h3⟩ := h
  rw [if_neg]
  intro hs
  match m, hs with
  | 0, hs => exact h0 (Option.some.inj hs)
  | 1, hs => exact h1 (Option.some.inj hs)
  | 2, hs => exact h2 (Option.some.inj hs)
  | 3, hs => exact h3 (Option.some.inj hs)
  | m + 4, hs => simp [snd] at hs

theorem neutralAt_load {mem : Mem} {a : Nat} (h : neutralAt mem a = true) :
    ∃ b, load mem a = some b ∧ neutralByte b = true := by
  unfold neutralAt at h
  split at h
  · rename_i b hb
    exact ⟨b, hb, h⟩
  · cases h

/-- A scan that ends on a marker at `q` passes the address `q + 46`; when the byte there
is no letter of the marker, the scan goes on from `q + 45` with no match. -/
theorem scanMarker_through (mem : Mem) (rp q : Nat) (hn : neutralAt mem (q + 46) = true) :
    ∀ (k m : Nat), scanMarker mem rp (q + 46 + k) m = some (q, 4) →
      scanMarker mem rp (q + 45) 0 = some (q, 4) := by
  obtain ⟨b46, hb46, hnb⟩ := neutralAt_load hn
  intro k
  induction k with
  | zero =>
    intro m h
    rw [show q + 46 + 0 = q + 45 + 1 by omega, scanMarker] at h
    rw [show q + 45 + 1 = q + 46 by omega, hb46] at h
    simp only [neutralByte_step b46 hnb m] at h
    split at h
    · exact h
    · simp only [Option.some.injEq, Prod.mk.injEq] at h
      omega
  | succ k ih =>
    intro m h
    rw [show q + 46 + (k + 1) = q + 46 + k + 1 by omega, scanMarker] at h
    cases hb : load mem (q + 46 + k + 1) with
    | none =>
      rw [hb] at h
      cases h
    | some b =>
      rw [hb] at h
      simp only at h
      generalize (if some b = snd[m]? then m + 1 else 0) = m' at h
      split at h
      · exact ih _ h
      · simp only [Option.some.injEq, Prod.mk.injEq] at h
        omega

/-- Two memories that agree below `top` except at two addresses, where both hold bytes
that are no letters of the marker, are scanned alike from any address below `top`. -/
theorem scanMarker_congr (M1 M2 : Mem) (rp top a1 a2 : Nat)
    (hagree : ∀ a, a < top → a ≠ a1 → a ≠ a2 → load M1 a = load M2 a)
    (h11 : neutralAt M1 a1 = true) (h12 : neutralAt M1 a2 = true)
    (h21 : neutralAt M2 a1 = true) (h22 : neutralAt M2 a2 = true) :
    ∀ (p m : Nat), p < top → scanMarker M1 rp p m = scanMarker M2 rp p m := by
  have key : ∀ a, a < top → ∀ m,
      (load M1 a = load M2 a) ∨
      (∃ b1 b2, load M1 a = some b1 ∧ load M2 a = some b2 ∧
        (if some b1 = snd[m]? then m + 1 else 0) = 0 ∧
        (if some b2 = snd[m]? then m + 1 else 0) = 0) := by
    intro a ha m
    by_cases e1 : a = a1
    · subst e1
      obtain ⟨b1, hb1, n1⟩ := neutralAt_load h11
      obtain ⟨b2, hb2, n2⟩ := neutralAt_load h21
      exact Or.inr ⟨b1, b2, hb1, hb2, neutralByte_step b1 n1 m, neutralByte_step b2 n2 m⟩
    · by_cases e2 : a = a2
      · subst e2
        obtain ⟨b1, hb1, n1⟩ := neutralAt_load h12
        obtain ⟨b2, hb2, n2⟩ := neutralAt_load h22
        exact Or.inr ⟨b1, b2, hb1, hb2, neutralByte_step b1 n1 m, neutralByte_step b2 n2 m⟩
      · exact Or.inl (hagree a ha e1 e2)
  intro p
  induction p with
  | zero =>
    intro m h0
    rw [scanMarker, scanMarker]
    rcases key 0 h0 m with e | ⟨b1, b2, e1, e2, n1, n2⟩
    · rw [e]
    · rw [e1, e2]
      simp only [n1, n2]
  | succ p ih =>
    intro m hp
    rw [scanMarker, scanMarker]
    rcases key (p + 1) hp m with e | ⟨b1, b2, e1, e2, n1, n2⟩
    · rw [e]
      cases load M2 (p + 1) with
      | none => rfl
      | some b =>
        simp only
        rw [ih _ (by omega)]
    · rw [e1, e2]
      simp only [n1, n2]
      rw [ih _ (by omega)]

/-- The scan started at `w` runs over the rewritten pairs without a match: it goes on
from `q + 45` with no match. -/
theorem scanMarker_skip (M : Mem) (rp q w : Nat) (hrp : rp < q)
    (h46 : ∃ b, load M (q + 46) = some b ∧ b ≠ 100 ∧ b ≠ 110)
    (hfld : ∀ a, q + 46 < a → a < w → ∃ b, load M a = some b ∧ b ≠ 110)
    (hw : ∃ b, load M w = some b) (hqw : q + 46 < w) :
    scanMarker M rp w 0 = scanMarker M rp (q + 45) 0 := by
  have s0 : snd[0]? = some 100 := rfl
  have s1 : snd[1]? = some 110 := rfl
  have p1 : ∀ k m, m ≤ 1 → q + 46 + k < w →
      scanMarker M rp (q + 46 + k) m = scanMarker M rp (q + 45) 0 := by
    intro k
    induction k with
    | zero =>
      intro m hm1 _
      obtain ⟨b, hb, hd, hn⟩ := h46
      have hm' : (if some b = snd[m]? then m + 1 else 0) = 0 := by
        rcases Nat.le_one_iff_eq_zero_or_eq_one.mp hm1 with rfl | rfl
        · rw [s0, if_neg (by simpa using hd)]
        · rw [s1, if_neg (by simpa using hn)]
      rw [show q + 46 + 0 = q + 45 + 1 by omega,
        scanMarker_step M rp (q + 45) m b (by rw [← hb]) (by omega) (by rw [hm']; simp), hm']
    | succ k ih =>
      intro m hm1 hlt
      obtain ⟨b, hb, hn⟩ := hfld (q + 46 + (k + 1)) (by omega) hlt
      have hm' : (if some b = snd[m]? then m + 1 else 0) ≤ 1 := by
        rcases Nat.le_one_iff_eq_zero_or_eq_one.mp hm1 with rfl | rfl
        · split <;> omega
        · rw [s1, if_neg (by simpa using hn)]
          omega
      rw [show q + 46 + (k + 1) = q + 46 + k + 1 by omega,
        scanMarker_step M rp (q + 46 + k) m b (by rw [← hb]; rfl) (by omega) (by omega)]
      exact ih _ hm' (by omega)
  obtain ⟨b, hb⟩ := hw
  obtain ⟨k, rfl⟩ : ∃ k, w = q + 46 + k + 1 := ⟨w - (q + 46) - 1, by omega⟩
  have hm' : (if some b = snd[0]? then 0 + 1 else 0) ≤ 1 := by
    split <;> omega
  rw [scanMarker_step M rp (q + 46 + k) 0 b hb (by omega) (by omega)]
  exact p1 k _ hm' (by omega)

theorem store_total (mem : Mem) (a b : Nat) (h : a < mem.length) :
    ∃ m, store mem a b = some m ∧ m.length = mem.length ∧
      ∀ i, i ≠ a → load m i = load mem i := by
  refine ⟨mem.set a b, ?_, by simp, ?_⟩
  · unfold store
    rw [if_pos h]
  · intro i hi
    unfold load
    rw [List.getElem?_set_ne (Ne.symm hi)]

theorem memcpy_total : ∀ (src : List Nat) (mem : Mem) (dst : Nat),
    dst + src.length ≤ mem.length →
    ∃ m, memcpy mem dst src = some m ∧ m.length = mem.length := by
  intro src
  induction src with
  | nil =>
    intro mem dst _
    exact ⟨mem, rfl, rfl⟩
  | cons b bs ih =>
    intro mem dst h
    simp only [List.length_cons] at h
    obtain ⟨m1, h1, l1, _⟩ := store_total mem dst b (by omega)
    obtain ⟨m2, h2, l2⟩ := ih m1 (dst + 1) (by omega)
    refine ⟨m2, ?_, by omega⟩
    simp only [memcpy, h1]
    exact h2

theorem putField_total (mem : Mem) (pkt : Nat) (key val : List Nat)
    (h : pkt + 1 + key.length + (cstr val).length ≤ mem.length) :
    ∃ m, putField mem pkt key val = some (m, pkt + 1 + key.length + (cstr val).length) ∧
      m.length = mem.length := by
  obtain ⟨m1, h1, l1, _⟩ := store_total mem pkt ((key.length + (cstr val).length) % 256)
    (by omega)
  obtain ⟨m2, h2, l2⟩ := memcpy_total key m1 (pkt + 1) (by omega)
  obtain ⟨m3, h3, l3⟩ := memcpy_total (cstr val) m2 (pkt + 1 + key.length) (by omega)
  refine ⟨m3, ?_, by omega⟩
  simp only [putField, h1, h2, h3]

/-- The rewrite goes through when the marker is found, the assert holds and the three
pairs fit in the memory. -/
theorem rewriteAt_total (ndebug : Bool) (mem : Mem) (buf : AJ_IOBuffer) (digit q : Nat)
    (sidStr ipvStr upcvStr : List Nat)
    (hscan : scanMarker mem buf.readPtr buf.writePtr 0 = some (q, 4))
    (hassert : load mem (q + 47) = some 115)
    (hbound : q + 46 + (fieldBytes sid sidStr ++ fieldBytes (ipv digit) ipvStr ++
        fieldBytes (upcv digit) upcvStr).length ≤ mem.length) :
    ∃ mem' buf', rewriteAt ndebug mem buf digit sidStr ipvStr upcvStr =
      some (AJ_OK, mem', buf') := by
  have l1 := fieldBytes_length sid sidStr
  have l2 := fieldBytes_length (ipv digit) ipvStr
  have l3 := fieldBytes_length (upcv digit) upcvStr
  simp only [List.length_append] at hbound
  obtain ⟨m1, h1, e1, f1⟩ := store_total mem (q + 21)
    (dataLengthOf digit sidStr ipvStr upcvStr / 256 % 256) (by omega)
  obtain ⟨m2, h2, e2, f2⟩ := store_total m1 (q + 22)
    (dataLengthOf digit sidStr ipvStr upcvStr % 256) (by omega)
  have ha : load m2 (q + 46 + 1) = some 115 := by
    rw [f2 _ (by omega), f1 _ (by omega)]
    exact hassert
  obtain ⟨m3, h3, e3⟩ := putField_total m2 (q + 46) sid sidStr (by omega)
  obtain ⟨m4, h4, e4⟩ := putField_total m3 (q + 46 + 1 + sid.length + (cstr sidStr).length)
    (ipv digit) ipvStr (by omega)
  obtain ⟨m5, h5, e5⟩ := putField_total m4
    (q + 46 + 1 + sid.length + (cstr sidStr).length + 1 + (ipv digit).length +
      (cstr ipvStr).length) (upcv digit) upcvStr (by omega)
  refine ⟨m5, { buf with writePtr := q + 46 + 1 + sid.length + (cstr sidStr).length + 1 +
    (ipv digit).length + (cstr ipvStr).length + 1 + (upcv digit).length +
    (cstr upcvStr).length }, ?_⟩
  unfold rewriteAt
  rw [hscan]
  simp only [ne_eq, not_true_eq_false, if_false]
  change (match store mem (q + 21) (dataLengthOf digit sidStr ipvStr upcvStr / 256 % 256) with
    | none => none
    | some m1 =>
      match store m1 (q + 22) (dataLengthOf digit sidStr ipvStr upcvStr % 256) with
      | none => none
      | some m2 =>
        if (!ndebug && load m2 (q + 46 + 1) != some 115) = true then none
        else
          match putField m2 (q + 46) sid sidStr with
          | none => none
          | some (m3, pkt3) =>
            match putField m3 pkt3 (ipv digit) ipvStr with
            | none => none
            | some (m4, pkt4) =>
              match putField m4 pkt4 (upcv digit) upcvStr with
              | none => none
              | some (m5, pkt5) => some (AJ_OK, m5, { buf with writePtr := pkt5 })) = _
  rw [h1]
  simp only
  rw [h2]
  simp only
  rw [if_neg (by simp [ha])]
  rw [h3]
  simp only
  rw [h4]
  simp only
  rw [h5]

theorem decimalAux_digit : ∀ (fuel n : Nat) (acc : List Nat),
    (∀ b ∈ acc, 48 ≤ b ∧ b ≤ 57) → ∀ b ∈ decimalAux fuel n acc, 48 ≤ b ∧ b ≤ 57 := by
  intro fuel
  induction fuel with
  | zero =>
    intro n acc h b hb
    simp only [decimalAux] at hb
    exact h b hb
  | succ fuel ih =>
    intro n acc h b hb
    simp only [decimalAux] at hb
    by_cases hn : n < 10
    · simp only [hn, if_true, List.mem_cons] at hb
      rcases hb with rfl | hb
      · omega
      · exact h b hb
    · simp only [hn, if_false] at hb
      refine ih (n / 10) _ ?_ b hb
      intro c hc
      rcases List.mem_cons.1 hc with rfl | hc
      · omega
      · exact h c hc

theorem decimal_digit (n : Nat) : ∀ b ∈ decimal n, 48 ≤ b ∧ b ≤ 57 :=
  decimalAux_digit (n + 1) n [] (by simp)

theorem dottedQuad_char (a : Nat) : ∀ b ∈ dottedQuad a, b ≠ 110 := by
  intro b hb
  simp only [dottedQuad, List.mem_append, List.mem_singleton] at hb
  rcases hb with (((((h | h) | h) | h) | h) | h) | h
  · have := decimal_digit _ b h; omega
  · omega
  · have := decimal_digit _ b h; omega
  · omega
  · have := decimal_digit _ b h; omega
  · omega
  · have := decimal_digit _ b h; omega

theorem cstr_mem {s : List Nat} {b : Nat} (h : b ∈ cstr s) : b ∈ s :=
  (List.takeWhile_sublist _).subset h

theorem isAddrChar_ne (c : Nat) (h : isAddrChar c = true) : c ≠ 110 := by
  intro hc
  subst hc
  revert h
  decide

/-- No byte of the three rewritten pairs is an 'n'. -/
theorem fields_ne (digit : Nat) (s1 ipvStr s3 : List Nat)
    (hd : digit = 52 ∨ digit = 54)
    (h1 : ∀ b ∈ s1, b ≠ 110) (h2 : ∀ b ∈ ipvStr, b ≠ 110) (h3 : ∀ b ∈ s3, b ≠ 110)
    (l1 : s1.length < 6) (l2 : ipvStr.length < 40) (l3 : s3.length < 6) :
    ∀ b ∈ fieldBytes sid s1 ++ fieldBytes (ipv digit) ipvStr ++ fieldBytes (upcv digit) s3,
      b ≠ 110 := by
  have c1 := cstr_length_le s1
  have c2 := cstr_length_le ipvStr
  have c3 := cstr_length_le s3
  have hk1 : sid.length = 4 := rfl
  have hk2 : (ipv digit).length = 5 := rfl
  have hk3 : (upcv digit).length = 6 := rfl
  intro b hb
  simp only [fieldBytes, List.mem_append, List.mem_singleton] at hb
  rcases hb with ((((h | h) | h) | ((h | h) | h)) | ((h | h) | h))
  · rw [h, hk1]; omega
  · simp only [sid, List.mem_cons, List.mem_singleton, List.not_mem_nil, or_false] at h
    omega
  · exact h1 b (cstr_mem h)
  · rw [h, hk2]; omega
  · simp only [ipv, List.mem_cons, List.mem_singleton, List.not_mem_nil, or_false] at h
    omega
  · exact h2 b (cstr_mem h)
  · rw [h, hk3]; omega
  · simp only [upcv, List.mem_cons, List.mem_singleton, List.not_mem_nil, or_false] at h
    omega
  · exact h3 b (cstr_mem h)

/-- The bytes of the memory after a rewrite at `q`. -/
theorem load_rewritten (mem : Mem) (q x y i : Nat) (fields : List Nat)
    (hb : q + 46 + fields.length ≤ mem.length) :
    load (splice (splice mem (q + 21) [x, y]) (q + 46) fields) i =
      if i = q + 21 then some x
      else if i = q + 22 then some y
      else if q + 46 ≤ i ∧ i < q + 46 + fields.length then fields[i - (q + 46)]?
      else load mem i := by
  have hinner : (splice mem (q + 21) [x, y]).length = mem.length :=
    splice_length (by simp only [List.length_cons, List.length_nil]; omega)
  by_cases h1 : i = q + 21
  · rw [if_pos h1, h1, load_splice_lt _ _ _ _ (by omega) (by rw [hinner]; omega)]
    have := load_splice_at mem (q + 21) 0 [x, y] (by omega) (by simp)
    simpa using this
  · rw [if_neg h1]
    by_cases h2 : i = q + 22
    · rw [if_pos h2, h2, load_splice_lt _ _ _ _ (by omega) (by rw [hinner]; omega)]
      have := load_splice_at mem (q + 21) 1 [x, y] (by omega) (by simp)
      simpa using this
    · rw [if_neg h2]
      by_cases h3 : q + 46 ≤ i ∧ i < q + 46 + fields.length
      · rw [if_pos h3]
        have := load_splice_at (splice mem (q + 21) [x, y]) (q + 46) (i - (q + 46)) fields
          (by rw [hinner]; omega) (by omega)
        rw [show q + 46 + (i - (q + 46)) = i by omega] at this
        exact this
      · rw [if_neg h3]
        have hd : ∀ d : Nat, [d / 256 % 256, d % 256].length = 2 := fun _ => rfl
        by_cases h4 : i < q + 46
        · rw [load_splice_lt _ _ _ _ h4 (by rw [hinner]; omega)]
          by_cases h5 : i < q + 21
          · exact load_splice_lt _ _ _ _ h5 (by omega)
          · exact load_splice_ge _ _ _ _
              (by simp only [List.length_cons, List.length_nil]; omega) (by omega)
        · rw [load_splice_ge _ _ _ _ (by omega) (by rw [hinner]; omega)]
          exact load_splice_ge _ _ _ _
            (by simp only [List.length_cons, List.length_nil]; omega) (by omega)

theorem RewriteSenderInfo_eq (ndebug : Bool) (mem : Mem) (buf : AJ_IOBuffer)
    (saddr : SockAddr) (b0 b1 digit : Nat) (ipvStr : List Nat)
    (hfam : (saddr.sa_family = AF_INET ∧ digit = 52 ∧
        ipvStr = dottedQuad (saddr.addr4 % 4294967296)) ∨
      (saddr.sa_family = AF_INET6 ∧ digit = 54 ∧ ipvStr = saddr.text6))
    (hil : ipvStr.length < 40)
    (h0 : load mem buf.readPtr = some b0) (h1 : load mem (buf.readPtr + 1) = some b1) :
    RewriteSenderInfo ndebug mem buf saddr =
      rewriteAt ndebug mem buf digit (decimal (sidVal b0 b1)) ipvStr
        (decimal (saddr.port % 65536)) := by
  unfold RewriteSenderInfo
  rw [h0, h1]
  simp only
  rw [AJ_IntToString_u16 _ (sidVal_lt b0 b1)]
  simp only
  rcases hfam with ⟨h4, rfl, rfl⟩ | ⟨h6, rfl, rfl⟩
  · rw [if_pos h4, AJ_IntToString_u16 _ (Nat.mod_lt _ (by omega))]
    simp only
    have : AJ_InetToString (saddr.addr4 % 4294967296) 40 =
        some (dottedQuad (saddr.addr4 % 4294967296)) := by
      unfold AJ_InetToString
      rw [if_pos (dottedQuad_length_lt _)]
    rw [this]
  · have hn4 : ¬ saddr.sa_family = AF_INET := by rw [h6]; decide
    rw [if_neg hn4, if_pos h6, AJ_IntToString_u16 _ (Nat.mod_lt _ (by omega))]
    simp only
    have : inet_ntop6 saddr.text6 40 = some saddr.text6 := by
      unfold inet_ntop6
      rw [if_pos hil]
    rw [this]

/-- The first byte the scan reads is the byte at the address it is entered with, the
`writePtr` of the buffer. -/
theorem scanReads_head (mem : Mem) (readPtr pkt m : Nat) :
    (scanReads mem readPtr pkt m).head? = some pkt := by
  cases pkt with
  | zero => rfl
  | succ p =>
    unfold scanReads
    cases load mem (p + 1) with
    | none => rfl
    | some b =>
      simp only
      generalize (if some b = snd[m]? then m + 1 else 0) = m1
      by_cases hc : p ≠ readPtr ∧ m1 ≠ 4
      · rw [if_pos hc]; rfl
      · rw [if_neg hc]; rfl

/-- When the scan returns, the address it returns is the last one it read. -/
theorem scanReads_last (mem : Mem) (readPtr : Nat) :
    ∀ (pkt m q m' : Nat), scanMarker mem readPtr pkt m = some (q, m') →
      (scanReads mem readPtr pkt m).getLast? = some q := by
  intro pkt
  induction pkt with
  | zero =>
    intro m q m' h
    unfold scanMarker at h
    cases hb : load mem 0 with
    | none => rw [hb] at h; cases h
    | some b =>
      rw [hb] at h
      simp only at h
      generalize (if some b = snd[m]? then m + 1 else 0) = m1 at h
      by_cases hc : m1 ≠ 4
      · rw [if_pos hc] at h
        cases h
      · rw [if_neg hc] at h
        cases h
        rfl
  | succ p ih =>
    intro m q m' h
    unfold scanMarker at h
    unfold scanReads
    cases hb : load mem (p + 1) with
    | none => rw [hb] at h; cases h
    | some b =>
      rw [hb] at h
      simp only at h ⊢
      generalize (if some b = snd[m]? then m + 1 else 0) = m1 at h ⊢
      by_cases hc : p ≠ readPtr ∧ m1 ≠ 4
      · rw [if_pos hc] at h ⊢
        have := ih m1 q m' h
        rw [List.getLast?_cons, this]
        rfl
      · rw [if_neg hc] at h ⊢
        cases h
        rfl

/-- C1 (protocol-version dominance). From a reset list of positive capacity, when
`a.pv > b.pv`, whatever the priorities and addresses, admitting `a` and `b` in either
order makes the first select return `AJ_OK` and write out exactly `a` (so its ipv4,
priority and pv are unchanged). -/
theorem pv_dominance (cap : Nat) (hcap : 0 < cap) (a b out0 : AJ_Service) (s0 : ResponseList)
    (h : b.pv < a.pv) :
    (AJ_SelectRoutingNodeFromResponseList
        (addAll cap (AJ_InitRoutingNodeResponselist s0) [a, b]) out0).1 = AJ_OK ∧
    (AJ_SelectRoutingNodeFromResponseList
        (addAll cap (AJ_InitRoutingNodeResponselist s0) [a, b]) out0).2.1 = a ∧
    (AJ_SelectRoutingNodeFromResponseList
        (addAll cap (AJ_InitRoutingNodeResponselist s0) [b, a]) out0).1 = AJ_OK ∧
    (AJ_SelectRoutingNodeFromResponseList
        (addAll cap (AJ_InitRoutingNodeResponselist s0) [b, a]) out0).2.1 = a :=
  select_pair cap hcap a b out0 s0 ((outranks_iff a b).2 (Or.inl h))

/-- Instance of `pv_dominance` on the candidates of the test UpdateProtocolVersion (same
ipv4 address, protocol versions 12 and 11), capacity 3. -/
theorem pv_dominance_witness :
    (0 < 3 ∧ serviceOldProtocol.pv < serviceNewProtocol.pv) ∧
    ((AJ_SelectRoutingNodeFromResponseList (addAll 3 (AJ_InitRoutingNodeResponselist [])
        [serviceNewProtocol, serviceOldProtocol]) m_service).1 = AJ_OK ∧
    (AJ_SelectRoutingNodeFromResponseList (addAll 3 (AJ_InitRoutingNodeResponselist [])
        [serviceNewProtocol, serviceOldProtocol]) m_service).2.1 = serviceNewProtocol ∧
    (AJ_SelectRoutingNodeFromResponseList (addAll 3 (AJ_InitRoutingNodeResponselist [])
        [serviceOldProtocol, serviceNewProtocol]) m_service).1 = AJ_OK ∧
    (AJ_SelectRoutingNodeFromResponseList (addAll 3 (AJ_InitRoutingNodeResponselist [])
        [serviceOldProtocol, serviceNewProtocol]) m_service).2.1 = serviceNewProtocol) :=
  ⟨⟨by decide, by decide⟩,
    pv_dominance 3 (by decide) serviceNewProtocol serviceOldProtocol m_service []
      (by decide)⟩

/-- C2 (priority order within one protocol version). From a reset list of positive
capacity, when `a.pv = b.pv` and `a.priority < b.priority`, admitting `a` and `b` in
either order makes the first select return `AJ_OK` and write out exactly `a` (so its
priority and ipv4 are unchanged). The addresses need not even differ. -/
theorem priority_order (cap : Nat) (hcap : 0 < cap) (a b out0 : AJ_Service)
    (s0 : ResponseList) (hpv : a.pv = b.pv) (hprio : a.priority < b.priority) :
    (AJ_SelectRoutingNodeFromResponseList
        (addAll cap (AJ_InitRoutingNodeResponselist s0) [a, b]) out0).1 = AJ_OK ∧
    (AJ_SelectRoutingNodeFromResponseList
        (addAll cap (AJ_InitRoutingNodeResponselist s0) [a, b]) out0).2.1 = a ∧
    (AJ_SelectRoutingNodeFromResponseList
        (addAll cap (AJ_InitRoutingNodeResponselist s0) [b, a]) out0).1 = AJ_OK ∧
    (AJ_SelectRoutingNodeFromResponseList
        (addAll cap (AJ_InitRoutingNodeResponselist s0) [b, a]) out0).2.1 = a :=
  select_pair cap hcap a b out0 s0 ((outranks_iff a b).2 (Or.inr ⟨hpv, hprio⟩))

/-- Instance of `priority_order` on the candidates of the tests SelectPriority and
UpdatePriority, capacity 3. -/
theorem priority_order_witness :
    (0 < 3 ∧ serviceHighScore.pv = serviceLowScore.pv ∧
      serviceHighScore.priority < serviceLowScore.priority) ∧
    ((AJ_SelectRoutingNodeFromResponseList (addAll 3 (AJ_InitRoutingNodeResponselist [])
        [serviceHighScore, serviceLowScore]) m_service).1 = AJ_OK ∧
    (AJ_SelectRoutingNodeFromResponseList (addAll 3 (AJ_InitRoutingNodeResponselist [])
        [serviceHighScore, serviceLowScore]) m_service).2.1 = serviceHighScore ∧
    (AJ_SelectRoutingNodeFromResponseList (addAll 3 (AJ_InitRoutingNodeResponselist [])
        [serviceLowScore, serviceHighScore]) m_service).1 = AJ_OK ∧
    (AJ_SelectRoutingNodeFromResponseList (addAll 3 (AJ_InitRoutingNodeResponselist [])
        [serviceLowScore, serviceHighScore]) m_service).2.1 = serviceHighScore) :=
  ⟨⟨by decide, by decide, by decide⟩,
    priority_order 3 (by decide) serviceHighScore serviceLowScore m_service []
      (by decide) (by decide)⟩

/-- C3 (destructive selection and exhaustion). From a reset list, after admitting
`n ≤ cap` distinct candidates, the first `n` selects return `AJ_OK` and their outputs
are a duplicate-free rearrangement of the admitted candidates; each of the `k` calls
that follow returns `AJ_ERR_END_OF_DATA`. A select on a freshly reset list, and on the
list as `AJ_Initialize` leaves it on its first call, returns `AJ_ERR_END_OF_DATA`. -/
theorem select_exhaustion (cap : Nat) (cands : List AJ_Service) (s0 : ResponseList)
    (out0 : AJ_Service) (hd : cands.Nodup) (hn : cands.length ≤ cap) (k : Nat) :
    (∃ outs : List AJ_Service, outs.Perm cands ∧ outs.Nodup ∧
      drain (cands.length + k) (addAll cap (AJ_InitRoutingNodeResponselist s0) cands) out0 =
        outs.map (fun o => (AJ_OK, some o)) ++
          List.replicate k (AJ_ERR_END_OF_DATA, none)) ∧
    (AJ_SelectRoutingNodeFromResponseList (AJ_InitRoutingNodeResponselist s0) out0).1 =
      AJ_ERR_END_OF_DATA ∧
    (AJ_SelectRoutingNodeFromResponseList
      (AJ_Initialize { initialized := false, responseList := s0 }).responseList out0).1 =
      AJ_ERR_END_OF_DATA := by
  refine ⟨?_, rfl, rfl⟩
  have hl : addAll cap (AJ_InitRoutingNodeResponselist s0) cands = cands := by
    simp only [AJ_InitRoutingNodeResponselist]
    rw [addAll_of_le cap cands [] (by simpa using hn)]
    simp
  rw [hl]
  obtain ⟨outs, hperm, _, hdr⟩ := drain_spec cands.length cands rfl k out0
  exact ⟨outs, hperm, hperm.nodup_iff.2 hd, hdr⟩

/-- Instance of `select_exhaustion` on the test ExhaustSelection: two distinct
candidates, capacity 3, one call after the two successful ones. -/
theorem select_exhaustion_witness :
    ([serviceHighScore, serviceLowScore].Nodup ∧
      [serviceHighScore, serviceLowScore].length ≤ 3) ∧
    ((∃ outs : List AJ_Service, outs.Perm [serviceHighScore, serviceLowScore] ∧ outs.Nodup ∧
      drain ([serviceHighScore, serviceLowScore].length + 1)
          (addAll 3 (AJ_InitRoutingNodeResponselist [])
            [serviceHighScore, serviceLowScore]) m_service =
        outs.map (fun o => (AJ_OK, some o)) ++
          List.replicate 1 (AJ_ERR_END_OF_DATA, none)) ∧
    (AJ_SelectRoutingNodeFromResponseList (AJ_InitRoutingNodeResponselist []) m_service).1 =
      AJ_ERR_END_OF_DATA ∧
    (AJ_SelectRoutingNodeFromResponseList
      (AJ_Initialize { initialized := false, responseList := [] }).responseList m_service).1 =
      AJ_ERR_END_OF_DATA) :=
  ⟨⟨by decide, by decide⟩,
    select_exhaustion 3 [serviceHighScore, serviceLowScore] [] m_service
      (by decide) (by decide) 1⟩

/-- C4 (a late best candidate wins on a full list). When an admission sequence has
filled a list of positive capacity and a further candidate `c` strictly outranks every
held entry, admitting `c` overwrites a worst-ranked held entry `w` (the other entries
stay) and the next select returns `AJ_OK` with `c` itself, hence with its ipv4. -/
theorem late_best_wins (cap : Nat) (hcap : 0 < cap) (cands : List AJ_Service)
    (s0 : ResponseList) (c out0 : AJ_Service)
    (hfull : (addAll cap (AJ_InitRoutingNodeResponselist s0) cands).length = cap)
    (hc : ∀ h ∈ addAll cap (AJ_InitRoutingNodeResponselist s0) cands, outranks c h = true) :
    ∃ w rest, w ∈ addAll cap (AJ_InitRoutingNodeResponselist s0) cands ∧
      (∀ h ∈ addAll cap (AJ_InitRoutingNodeResponselist s0) cands, outranks w h = false) ∧
      (AJ_AddRoutingNodeToResponseList cap
          (addAll cap (AJ_InitRoutingNodeResponselist s0) cands) c).Perm
        (c :: (addAll cap (AJ_InitRoutingNodeResponselist s0) cands).erase w) ∧
      AJ_SelectRoutingNodeFromResponseList (AJ_AddRoutingNodeToResponseList cap
          (addAll cap (AJ_InitRoutingNodeResponselist s0) cands) c) out0 =
        (AJ_OK, c, rest) := by
  generalize addAll cap (AJ_InitRoutingNodeResponselist s0) cands = H at hfull hc
  have hne : H ≠ [] := by
    intro e
    subst e
    simp at hfull
    omega
  cases hw : worstEntry H with
  | none => exact absurd ((worstEntry_eq_none_iff H).1 hw) hne
  | some w =>
    obtain ⟨hwmem, hworst⟩ := worstEntry_spec H w hw
    have hadd : AJ_AddRoutingNodeToResponseList cap H c = replaceWorst c H := by
      simp [AJ_AddRoutingNodeToResponseList, hfull, hw, hc w hwmem]
    obtain ⟨rest, hsel⟩ := select_replaceWorst H c out0 hne hc
    refine ⟨w, rest, hwmem, hworst, ?_, ?_⟩
    · rw [hadd]
      exact replaceWorst_perm H c w hw
    · rw [hadd]
      exact hsel

/-- Instance of `late_best_wins` on the test SelectPriorityListFullEqual: three weaker
candidates fill a list of capacity 3, then `serviceHighScore` arrives. -/
theorem late_best_wins_witness :
    (0 < 3 ∧
      (addAll 3 (AJ_InitRoutingNodeResponselist [])
        [serviceLowerScore2, serviceLowerScore3, serviceLowScore]).length = 3 ∧
      ∀ h ∈ addAll 3 (AJ_InitRoutingNodeResponselist [])
        [serviceLowerScore2, serviceLowerScore3, serviceLowScore],
        outranks serviceHighScore h = true) ∧
    ∃ w rest, w ∈ addAll 3 (AJ_InitRoutingNodeResponselist [])
        [serviceLowerScore2, serviceLowerScore3, serviceLowScore] ∧
      (∀ h ∈ addAll 3 (AJ_InitRoutingNodeResponselist [])
        [serviceLowerScore2, serviceLowerScore3, serviceLowScore], outranks w h = false) ∧
      (AJ_AddRoutingNodeToResponseList 3
          (addAll 3 (AJ_InitRoutingNodeResponselist [])
            [serviceLowerScore2, serviceLowerScore3, serviceLowScore]) serviceHighScore).Perm
        (serviceHighScore :: (addAll 3 (AJ_InitRoutingNodeResponselist [])
            [serviceLowerScore2, serviceLowerScore3, serviceLowScore]).erase w) ∧
      AJ_SelectRoutingNodeFromResponseList (AJ_AddRoutingNodeToResponseList 3
          (addAll 3 (AJ_InitRoutingNodeResponselist [])
            [serviceLowerScore2, serviceLowerScore3, serviceLowScore]) serviceHighScore)
          m_service = (AJ_OK, serviceHighScore, rest) :=
  ⟨⟨by decide, by decide, by decide⟩,
    late_best_wins 3 (by decide) [serviceLowerScore2, serviceLowerScore3, serviceLowScore] []
      serviceHighScore m_service (by decide) (by decide)⟩

/-- C5 (no eviction by an equal or weaker candidate). On a full list, a candidate that
does not strictly outrank a worst-ranked held entry `w` (equal rank included) leaves the
list exactly as it was; hence every following sequence of selects, and the first select
in particular, returns what it would have returned without the admission. -/
theorem no_eviction (cap : Nat) (H : ResponseList) (c w : AJ_Service)
    (hfull : cap ≤ H.length) (_hw : w ∈ H) (hworst : ∀ h ∈ H, outranks w h = false)
    (hc : outranks c w = false) :
    AJ_AddRoutingNodeToResponseList cap H c = H ∧
    (∀ (k : Nat) (out0 : AJ_Service),
      drain k (AJ_AddRoutingNodeToResponseList cap H c) out0 = drain k H out0) ∧
    (∀ out0 : AJ_Service,
      AJ_SelectRoutingNodeFromResponseList (AJ_AddRoutingNodeToResponseList cap H c) out0 =
        AJ_SelectRoutingNodeFromResponseList H out0) := by
  have hadd : AJ_AddRoutingNodeToResponseList cap H c = H := by
    unfold AJ_AddRoutingNodeToResponseList
    have hlt : ¬ H.length < cap := by omega
    simp only [hlt, if_false]
    cases hv : worstEntry H with
    | none => rfl
    | some v =>
      obtain ⟨hvmem, _⟩ := worstEntry_spec H v hv
      have hcv : outranks c v = false := not_outranks_trans hc (hworst v hvmem)
      simp [hcv]
  refine ⟨hadd, ?_, ?_⟩
  · intro k out0
    rw [hadd]
  · intro out0
    rw [hadd]

/-- Instance of `no_eviction` on the test SelectPriorityListFullDoNotEvict: the list of
capacity 3 holds `serviceLowerScore2`, `serviceLowScore`, `serviceHighScore`, and the
weaker `serviceLowerScore3` arrives. -/
theorem no_eviction_witness :
    (3 ≤ [serviceLowerScore2, serviceLowScore, serviceHighScore].length ∧
      serviceLowerScore2 ∈ [serviceLowerScore2, serviceLowScore, serviceHighScore] ∧
      (∀ h ∈ [serviceLowerScore2, serviceLowScore, serviceHighScore],
        outranks serviceLowerScore2 h = false) ∧
      outranks serviceLowerScore3 serviceLowerScore2 = false) ∧
    (AJ_AddRoutingNodeToResponseList 3
        [serviceLowerScore2, serviceLowScore, serviceHighScore] serviceLowerScore3 =
      [serviceLowerScore2, serviceLowScore, serviceHighScore] ∧
    (∀ (k : Nat) (out0 : AJ_Service),
      drain k (AJ_AddRoutingNodeToResponseList 3
          [serviceLowerScore2, serviceLowScore, serviceHighScore] serviceLowerScore3) out0 =
        drain k [serviceLowerScore2, serviceLowScore, serviceHighScore] out0) ∧
    (∀ out0 : AJ_Service,
      AJ_SelectRoutingNodeFromResponseList (AJ_AddRoutingNodeToResponseList 3
          [serviceLowerScore2, serviceLowScore, serviceHighScore] serviceLowerScore3) out0 =
        AJ_SelectRoutingNodeFromResponseList
          [serviceLowerScore2, serviceLowScore, serviceHighScore] out0)) :=
  ⟨⟨by decide, by decide, by decide, by decide⟩,
    no_eviction 3 [serviceLowerScore2, serviceLowScore, serviceHighScore] serviceLowerScore3
      serviceLowerScore2 (by decide) (by decide) (by decide) (by decide)⟩

/-- C6 (bounded best-CAP retention). After any sequence of admissions to a reset list,
in any arrival order, the list holds at most `cap` entries, and the ranks (pv, priority)
it holds are, as a multiset, the first `cap` ranks of the admitted candidates sorted
best first (all of them when fewer than `cap` were admitted). -/
theorem best_cap_retention (cap : Nat) (cands : List AJ_Service) (s0 : ResponseList) :
    (addAll cap (AJ_InitRoutingNodeResponselist s0) cands).length ≤ cap ∧
    ((addAll cap (AJ_InitRoutingNodeResponselist s0) cands).map rank).Perm
      (((cands.map rank).insertionSort rankLE).take cap) := by
  have hk : Kept cap cands (addAll cap (AJ_InitRoutingNodeResponselist s0) cands) := by
    have := kept_addAll cap cands [] [] (kept_nil cap)
    simpa [AJ_InitRoutingNodeResponselist] using this
  refine ⟨?_, ?_⟩
  · rw [hk.1]
    exact Nat.min_le_left _ _
  · rw [← kept_sorted cap _ _ hk]
    exact (List.perm_insertionSort rankLE _).symm

/-- C7 (monotonic draining). For every content `l` of the list and every number `k` of
extra calls, the first `l.length` selects return `AJ_OK` with candidates `outs` among
which none is ranked better than an earlier one (pv does not increase, and among equal
pv the priority value does not decrease), and the `k` calls after the last held entry
return `AJ_ERR_END_OF_DATA`. -/
theorem monotonic_draining (l : ResponseList) (out0 : AJ_Service) (k : Nat) :
    ∃ outs : List AJ_Service, outs.length = l.length ∧
      outs.Pairwise (fun x y => y.pv ≤ x.pv ∧ (y.pv = x.pv → x.priority ≤ y.priority)) ∧
      drain (l.length + k) l out0 =
        outs.map (fun o => (AJ_OK, some o)) ++
          List.replicate k (AJ_ERR_END_OF_DATA, none) := by
  obtain ⟨outs, hperm, hpw, hdr⟩ := drain_spec l.length l rfl k out0
  refine ⟨outs, hperm.length_eq, ?_, hdr⟩
  refine hpw.imp ?_
  intro x y hxy
  rw [outranks_false_iff] at hxy
  omega

/-! ## Discovery transport: properties -/

/-- C10 (sender-info field format). Whenever `RewriteSenderInfo` returns `AJ_OK` (the
address is then IPv4 or IPv6 and the scan has ended on the 's' of a marker "send" at
address `q`), the bytes that start at `q + 46`, which is 47 bytes after the byte that
precedes the marker, are exactly three length-prefixed ASCII fields: "sid=" and the
decimal text of the 16-bit big-endian value `256 * b0 + b1` of the two bytes at
`readPtr`; "ipv4=" and the dotted quad (AF_INET) or "ipv6=" and the literal (AF_INET6);
"upcv4=" or "upcv6=" and the decimal port. Each length byte is the length of key plus
value, `writePtr` is the address just after the third field and `readPtr` is unchanged.
Memory holds bytes, port and IPv4 address have their C widths, and the IPv6 literal is
text (no NUL). -/
theorem sender_info_format (ndebug : Bool) (mem mem' : Mem) (buf buf' : AJ_IOBuffer)
    (saddr : SockAddr)
    (hmem : ∀ b ∈ mem, b < 256)
    (hport : saddr.port < 65536) (haddr : saddr.addr4 < 4294967296)
    (htext : ∀ b ∈ saddr.text6, b ≠ 0)
    (hok : RewriteSenderInfo ndebug mem buf saddr = some (AJ_OK, mem', buf')) :
    (saddr.sa_family = AF_INET ∨ saddr.sa_family = AF_INET6) ∧
    ∃ q b0 b1 f1 f2 f3,
      (load mem q = some 115 ∧ load mem (q + 1) = some 101 ∧ load mem (q + 2) = some 110 ∧
        load mem (q + 3) = some 100) ∧
      load mem buf.readPtr = some b0 ∧ load mem (buf.readPtr + 1) = some b1 ∧
      f1 = [115, 105, 100, 61] ++ decimal (256 * b0 + b1) ∧
      f2 = (if saddr.sa_family = AF_INET then [105, 112, 118, 52, 61] ++ dottedQuad saddr.addr4
        else [105, 112, 118, 54, 61] ++ saddr.text6) ∧
      f3 = (if saddr.sa_family = AF_INET then [117, 112, 99, 118, 52, 61]
        else [117, 112, 99, 118, 54, 61]) ++ decimal saddr.port ∧
      (mem'.drop (q + 46)).take (3 + f1.length + f2.length + f3.length) =
        [f1.length] ++ f1 ++ [f2.length] ++ f2 ++ [f3.length] ++ f3 ∧
      buf'.writePtr = q + 46 + (3 + f1.length + f2.length + f3.length) ∧
      buf'.readPtr = buf.readPtr := by
  obtain ⟨b0, b1, digit, ipvStr, h0, h1, hcase, hil, hsl, hpl, hrw⟩ := RewriteSenderInfo_ok hok
  obtain ⟨q, hscan⟩ := rewriteAt_ok_scan hrw
  have hfound := scanMarker_found mem buf.readPtr buf.writePtr 0 q (by omega)
    (by intro j hj; omega) hscan
  obtain ⟨hbound, hmem', hbuf'⟩ := rewriteAt_ok hscan hrw
  have hb0 : b0 < 256 := hmem b0 (List.getElem?_mem h0)
  have hb1 : b1 < 256 := hmem b1 (List.getElem?_mem h1)
  rw [sidVal_eq hb0 hb1] at hmem' hbuf' hbound hsl
  rw [Nat.mod_eq_of_lt hport] at hmem' hbuf' hbound hpl
  rw [Nat.mod_eq_of_lt haddr] at hcase
  have hipv : ∀ b ∈ ipvStr, b ≠ 0 := by
    rcases hcase with ⟨_, _, rfl⟩ | ⟨_, _, rfl⟩
    · intro b hb
      have := cstr_dottedQuad saddr.addr4
      unfold cstr at this
      rw [List.takeWhile_eq_self_iff] at this
      simpa using this b hb
    · exact htext
  have e1 : fieldBytes sid (decimal (256 * b0 + b1)) =
      [(sid ++ decimal (256 * b0 + b1)).length] ++ (sid ++ decimal (256 * b0 + b1)) :=
    fieldBytes_eq (decimal_ne_zero _) (by simp [sid]; omega)
  have e2 : fieldBytes (ipv digit) ipvStr = [(ipv digit ++ ipvStr).length] ++ (ipv digit ++ ipvStr) :=
    fieldBytes_eq hipv (by simp [ipv]; omega)
  have e3 : fieldBytes (upcv digit) (decimal saddr.port) =
      [(upcv digit ++ decimal saddr.port).length] ++ (upcv digit ++ decimal saddr.port) :=
    fieldBytes_eq (decimal_ne_zero _) (by simp [upcv]; omega)
  rw [e1, e2, e3] at hmem' hbuf' hbound
  have hfam : saddr.sa_family = AF_INET ∨ saddr.sa_family = AF_INET6 := by
    rcases hcase with ⟨h, _, _⟩ | ⟨h, _, _⟩
    · exact Or.inl h
    · exact Or.inr h
  refine ⟨hfam, q, b0, b1, sid ++ decimal (256 * b0 + b1), ipv digit ++ ipvStr,
    upcv digit ++ decimal saddr.port, hfound, h0, h1, rfl, ?_, ?_, ?_, ?_, ?_⟩
  · rcases hcase with ⟨h, rfl, rfl⟩ | ⟨h, rfl, rfl⟩
    · rw [if_pos h]; rfl
    · rw [if_neg (by rw [h]; decide)]; rfl
  · rcases hcase with ⟨h, rfl, rfl⟩ | ⟨h, rfl, rfl⟩
    · rw [if_pos h]; rfl
    · rw [if_neg (by rw [h]; decide)]; rfl
  · rw [hmem']
    have hlen : 3 + (sid ++ decimal (256 * b0 + b1)).length + (ipv digit ++ ipvStr).length +
        (upcv digit ++ decimal saddr.port).length =
        ([(sid ++ decimal (256 * b0 + b1)).length] ++ (sid ++ decimal (256 * b0 + b1)) ++
          ([(ipv digit ++ ipvStr).length] ++ (ipv digit ++ ipvStr)) ++
          ([(upcv digit ++ decimal saddr.port).length] ++
            (upcv digit ++ decimal saddr.port))).length := by
      simp only [List.length_append, List.length_singleton]; omega
    rw [hlen, splice_read]
    · simp
    · rw [splice_length (by simp only [List.length_cons, List.length_nil]; omega)]
      omega
  · rw [hbuf']
    simp only [List.length_append, List.length_singleton]
    omega
  · rw [hbuf']

/-- Instance of `sender_info_format`: the rewrite of `samplePacket` for 192.168.0.1,
port 9956, compiled with asserts. -/
theorem sender_info_format_witness :
    ((∀ b ∈ samplePacket, b < 256) ∧ sampleAddr.port < 65536 ∧
      sampleAddr.addr4 < 4294967296 ∧ (∀ b ∈ sampleAddr.text6, b ≠ 0) ∧
      RewriteSenderInfo false samplePacket sampleBuf sampleAddr =
        some (AJ_OK, samplePacketRewritten, sampleBufRewritten)) ∧
    ((sampleAddr.sa_family = AF_INET ∨ sampleAddr.sa_family = AF_INET6) ∧
    ∃ q b0 b1 f1 f2 f3,
      (load samplePacket q = some 115 ∧ load samplePacket (q + 1) = some 101 ∧
        load samplePacket (q + 2) = some 110 ∧ load samplePacket (q + 3) = some 100) ∧
      load samplePacket sampleBuf.readPtr = some b0 ∧
      load samplePacket (sampleBuf.readPtr + 1) = some b1 ∧
      f1 = [115, 105, 100, 61] ++ decimal (256 * b0 + b1) ∧
      f2 = (if sampleAddr.sa_family = AF_INET then
          [105, 112, 118, 52, 61] ++ dottedQuad sampleAddr.addr4
        else [105, 112, 118, 54, 61] ++ sampleAddr.text6) ∧
      f3 = (if sampleAddr.sa_family = AF_INET then [117, 112, 99, 118, 52, 61]
        else [117, 112, 99, 118, 54, 61]) ++ decimal sampleAddr.port ∧
      (samplePacketRewritten.drop (q + 46)).take (3 + f1.length + f2.length + f3.length) =
        [f1.length] ++ f1 ++ [f2.length] ++ f2 ++ [f3.length] ++ f3 ∧
      sampleBufRewritten.writePtr = q + 46 + (3 + f1.length + f2.length + f3.length) ∧
      sampleBufRewritten.readPtr = sampleBuf.readPtr) :=
  ⟨⟨by decide, by decide, by decide, by decide, by decide⟩,
    sender_info_format false samplePacket samplePacketRewritten sampleBuf sampleBufRewritten
      sampleAddr (by decide) (by decide) (by decide) (by decide) (by decide)⟩

/-! ## Sender-info rewrite: further properties -/

/-- C11 (declared data length after a rewrite). Whenever `RewriteSenderInfo` returns
`AJ_OK` (the scan then ended on a marker "send" at address `q`), the two bytes `hi`, `lo`
at `q + 21` and `q + 22`, that is 22 and 23 bytes after the byte preceding the marker,
hold big-endian the number of bytes from the end of that field to the new `writePtr`:
23 static bytes plus the sizes `1 + 4 + n1`, `1 + 5 + n2`, `1 + 6 + n3` (length byte, key,
value) of the three rewritten pairs, whose length bytes `4 + n1`, `5 + n2`, `6 + n3`
stand where each pair starts. So the record ends exactly at `writePtr`. -/
theorem data_length_consistent (ndebug : Bool) (mem mem' : Mem) (buf buf' : AJ_IOBuffer)
    (saddr : SockAddr)
    (hok : RewriteSenderInfo ndebug mem buf saddr = some (AJ_OK, mem', buf')) :
    ∃ q hi lo n1 n2 n3,
      (load mem q = some 115 ∧ load mem (q + 1) = some 101 ∧ load mem (q + 2) = some 110 ∧
        load mem (q + 3) = some 100) ∧
      load mem' (q + 21) = some hi ∧ load mem' (q + 22) = some lo ∧
      load mem' (q + 46) = some (4 + n1) ∧
      load mem' (q + 46 + (1 + 4 + n1)) = some (5 + n2) ∧
      load mem' (q + 46 + (1 + 4 + n1) + (1 + 5 + n2)) = some (6 + n3) ∧
      buf'.writePtr = q + 46 + (1 + 4 + n1) + (1 + 5 + n2) + (1 + 6 + n3) ∧
      256 * hi + lo = 23 + ((1 + 4 + n1) + (1 + 5 + n2) + (1 + 6 + n3)) ∧
      256 * hi + lo = buf'.writePtr - (q + 23) := by
  obtain ⟨b0, b1, digit, ipvStr, _, _, _, hil, hsl, hpl, hrw⟩ := RewriteSenderInfo_ok hok
  obtain ⟨q, hscan⟩ := rewriteAt_ok_scan hrw
  have hfound := scanMarker_found mem buf.readPtr buf.writePtr 0 q (by omega)
    (by intro j hj; omega) hscan
  obtain ⟨hbound, hmem', hbuf'⟩ := rewriteAt_ok hscan hrw
  generalize hs1 : decimal (sidVal b0 b1) = s1 at *
  generalize hs3 : decimal (saddr.port % 65536) = s3 at *
  have h1 := cstr_length_le s1
  have h2 := cstr_length_le ipvStr
  have h3 := cstr_length_le s3
  have hk1 : sid.length = 4 := rfl
  have hk2 : (ipv digit).length = 5 := rfl
  have hk3 : (upcv digit).length = 6 := rfl
  have l1 := fieldBytes_length sid s1
  have l2 := fieldBytes_length (ipv digit) ipvStr
  have l3 := fieldBytes_length (upcv digit) s3
  have hdl : dataLengthOf digit s1 ipvStr s3 =
      23 + ((1 + 4 + (cstr s1).length) + (1 + 5 + (cstr ipvStr).length) +
        (1 + 6 + (cstr s3).length)) := by
    unfold dataLengthOf
    rw [hk1, hk2, hk3]
    omega
  simp only [List.length_append] at hbound
  have hinner : (splice mem (q + 21)
      [dataLengthOf digit s1 ipvStr s3 / 256 % 256, dataLengthOf digit s1 ipvStr s3 % 256]).length
      = mem.length := splice_length (by simp only [List.length_cons, List.length_nil]; omega)
  refine ⟨q, dataLengthOf digit s1 ipvStr s3 / 256 % 256, dataLengthOf digit s1 ipvStr s3 % 256,
    (cstr s1).length, (cstr ipvStr).length, (cstr s3).length, hfound, ?_, ?_, ?_, ?_, ?_, ?_, ?_, ?_⟩
  · rw [hmem', load_splice_lt _ _ _ _ (by omega) (by rw [hinner]; omega)]
    have := load_splice_at mem (q + 21) 0
      [dataLengthOf digit s1 ipvStr s3 / 256 % 256, dataLengthOf digit s1 ipvStr s3 % 256]
      (by omega) (by simp)
    simpa using this
  · rw [hmem', load_splice_lt _ _ _ _ (by omega) (by rw [hinner]; omega)]
    have := load_splice_at mem (q + 21) 1
      [dataLengthOf digit s1 ipvStr s3 / 256 % 256, dataLengthOf digit s1 ipvStr s3 % 256]
      (by omega) (by simp)
    simpa using this
  · rw [hmem']
    have := load_splice_at _ (q + 46) 0
      (fieldBytes sid s1 ++ fieldBytes (ipv digit) ipvStr ++ fieldBytes (upcv digit) s3)
      (by rw [hinner]; omega) (by simp only [List.length_append]; omega)
    rw [Nat.add_zero] at this
    rw [this, List.append_assoc, List.getElem?_append_left (by omega), fieldBytes_head, hk1]
    rw [Nat.mod_eq_of_lt (by omega)]
  · rw [hmem']
    have := load_splice_at _ (q + 46) (1 + 4 + (cstr s1).length)
      (fieldBytes sid s1 ++ fieldBytes (ipv digit) ipvStr ++ fieldBytes (upcv digit) s3)
      (by rw [hinner]; omega) (by simp only [List.length_append]; omega)
    rw [this, List.append_assoc, List.getElem?_append_right (by omega)]
    rw [show 1 + 4 + (cstr s1).length - (fieldBytes sid s1).length = 0 by omega]
    rw [List.getElem?_append_left (by omega), fieldBytes_head, hk2]
    rw [Nat.mod_eq_of_lt (by omega)]
  · rw [hmem']
    have := load_splice_at _ (q + 46)
      ((1 + 4 + (cstr s1).length) + (1 + 5 + (cstr ipvStr).length))
      (fieldBytes sid s1 ++ fieldBytes (ipv digit) ipvStr ++ fieldBytes (upcv digit) s3)
      (by rw [hinner]; omega) (by simp only [List.length_append]; omega)
    rw [← Nat.add_assoc] at this
    rw [this, List.getElem?_append_right (by simp only [List.length_append]; omega)]
    rw [show 1 + 4 + (cstr s1).length + (1 + 5 + (cstr ipvStr).length) -
      (fieldBytes sid s1 ++ fieldBytes (ipv digit) ipvStr).length = 0 by
        simp only [List.length_append]; omega]
    rw [fieldBytes_head, hk3, Nat.mod_eq_of_lt (by omega)]
  · rw [hbuf']
    simp only [List.length_append]
    omega
  · rw [hdl]
    omega
  · rw [hbuf', hdl]
    simp only [List.length_append]
    omega

/-- Instance of `data_length_consistent`: the rewrite of `samplePacket` for 192.168.0.1,
port 9956 (data length 60). -/
theorem data_length_consistent_witness :
    RewriteSenderInfo false samplePacket sampleBuf sampleAddr =
        some (AJ_OK, samplePacketRewritten, sampleBufRewritten) ∧
    ∃ q hi lo n1 n2 n3,
      (load samplePacket q = some 115 ∧ load samplePacket (q + 1) = some 101 ∧
        load samplePacket (q + 2) = some 110 ∧ load samplePacket (q + 3) = some 100) ∧
      load samplePacketRewritten (q + 21) = some hi ∧
      load samplePacketRewritten (q + 22) = some lo ∧
      load samplePacketRewritten (q + 46) = some (4 + n1) ∧
      load samplePacketRewritten (q + 46 + (1 + 4 + n1)) = some (5 + n2) ∧
      load samplePacketRewritten (q + 46 + (1 + 4 + n1) + (1 + 5 + n2)) = some (6 + n3) ∧
      sampleBufRewritten.writePtr = q + 46 + (1 + 4 + n1) + (1 + 5 + n2) + (1 + 6 + n3) ∧
      256 * hi + lo = 23 + ((1 + 4 + n1) + (1 + 5 + n2) + (1 + 6 + n3)) ∧
      256 * hi + lo = sampleBufRewritten.writePtr - (q + 23) :=
  ⟨by decide,
    data_length_consistent false samplePacket samplePacketRewritten sampleBuf
      sampleBufRewritten sampleAddr (by decide)⟩

/-- C13: when the `select` of `AJ_Net_Recv` reports the open interrupt descriptor ready
(whatever it reports about the data socket), the call reads the interrupt descriptor
and returns `AJ_ERR_INTERRUPTED`; the only calls it makes are the `select` and that
`read` (no `recv`), the buffer is returned as it was, and `blocked` is clear. -/
theorem recv_interrupted (env : SysEnv) (context : NetContext) (st : SockState)
    (buf : AJ_IOBuffer) (len timeout : Nat)
    (hdir : env.ndebug = true ∨ buf.direction = AJ_IO_BUF_RX)
    (hopen : 0 ≤ st.interruptFd)
    (hrc : (env.select st.calls ((recvFds context st).1 + 1) (recvFds context st).2
      (timeout / 1000) (1000 * (timeout % 1000))).rc ≠ 0)
    (hint : st.interruptFd ∈ (env.select st.calls ((recvFds context st).1 + 1)
      (recvFds context st).2 (timeout / 1000) (1000 * (timeout % 1000))).fds) :
    AJ_Net_Recv env context st buf len timeout =
      some (AJ_ERR_INTERRUPTED,
        { interruptFd := st.interruptFd, blocked := false,
          calls := st.calls ++ [recvSelect context st timeout, SysCall.read st.interruptFd] },
        buf) := by
  have hassert := assert_passes env.ndebug buf.direction AJ_IO_BUF_RX hdir
  unfold AJ_Net_Recv
  rw [hassert]
  simp only [Bool.false_eq_true, if_false]
  rw [if_neg hrc, if_pos ⟨hopen, hint⟩]

/-- Instance of `recv_interrupted`: the data socket 5 and the interrupt descriptor 9 are
both ready. -/
theorem recv_interrupted_witness :
    (((readyEnv [5, 9] 10).ndebug = true ∨ rxBuf.direction = AJ_IO_BUF_RX) ∧
      0 ≤ idleState.interruptFd ∧
      ((readyEnv [5, 9] 10).select idleState.calls ((recvFds tcpContext idleState).1 + 1)
        (recvFds tcpContext idleState).2 (5000 / 1000) (1000 * (5000 % 1000))).rc ≠ 0 ∧
      idleState.interruptFd ∈
        ((readyEnv [5, 9] 10).select idleState.calls ((recvFds tcpContext idleState).1 + 1)
          (recvFds tcpContext idleState).2 (5000 / 1000) (1000 * (5000 % 1000))).fds) ∧
    AJ_Net_Recv (readyEnv [5, 9] 10) tcpContext idleState rxBuf 32 5000 =
      some (AJ_ERR_INTERRUPTED,
        { interruptFd := idleState.interruptFd, blocked := false,
          calls := idleState.calls ++ [recvSelect tcpContext idleState 5000,
            SysCall.read idleState.interruptFd] },
        rxBuf) :=
  ⟨⟨by decide, by decide, by decide, by decide⟩,
    recv_interrupted (readyEnv [5, 9] 10) tcpContext idleState rxBuf 32 5000 (by decide)
      (by decide) (by decide) (by decide)⟩

/-- C14: `blocked` is clear in the state every `AJ_Net_Recv` and every
`AJ_ARDP_UDP_Recv` returns; `AJ_Net_Interrupt` on a state with `blocked` clear returns
that state unchanged (no `write` is made), so after either receive function it is a
no-op, and a wait started after such a signal runs exactly as it would have run without
it. -/
theorem interrupt_without_wait (env : SysEnv) (context : NetContext) (st t : SockState)
    (buf : AJ_IOBuffer) (len timeout : Nat) (r : AJ_Status × SockState × AJ_IOBuffer)
    (hr : AJ_Net_Recv env context st buf len timeout = some r)
    (ht : t.blocked = false) :
    r.2.1.blocked = false ∧
      (AJ_ARDP_UDP_Recv env context st timeout).2.1.blocked = false ∧
      AJ_Net_Interrupt r.2.1 = r.2.1 ∧
      AJ_Net_Interrupt (AJ_ARDP_UDP_Recv env context st timeout).2.1 =
        (AJ_ARDP_UDP_Recv env context st timeout).2.1 ∧
      AJ_Net_Interrupt t = t ∧
      AJ_Net_Recv env context (AJ_Net_Interrupt t) buf len timeout =
        AJ_Net_Recv env context t buf len timeout ∧
      AJ_ARDP_UDP_Recv env context (AJ_Net_Interrupt t) timeout =
        AJ_ARDP_UDP_Recv env context t timeout := by
  have hi : ∀ s : SockState, s.blocked = false → AJ_Net_Interrupt s = s := by
    intro s hs
    unfold AJ_Net_Interrupt
    rw [hs]
    rfl
  have h1 := (AJ_Net_Recv_blocked env context st buf len timeout r hr).1
  have h2 := (AJ_ARDP_UDP_Recv_blocked env context st timeout).1
  refine ⟨h1, h2, hi _ h1, hi _ h2, hi _ ht, ?_, ?_⟩
  · rw [hi _ ht]
  · rw [hi _ ht]

/-- Instance of `interrupt_without_wait`: a receive that timed out, then a signal with no
wait outstanding. -/
theorem interrupt_without_wait_witness :
    (AJ_Net_Recv (readyEnv [] 0) tcpContext idleState rxBuf 32 5000 =
        some (AJ_ERR_TIMEOUT,
          { interruptFd := 9, blocked := false,
            calls := [recvSelect tcpContext idleState 5000] }, rxBuf) ∧
      idleState.blocked = false) ∧
    ((AJ_ERR_TIMEOUT,
        ({ interruptFd := 9, blocked := false,
           calls := [recvSelect tcpContext idleState 5000] } : SockState),
        rxBuf).2.1.blocked = false ∧
      (AJ_ARDP_UDP_Recv (readyEnv [] 0) tcpContext idleState 5000).2.1.blocked = false ∧
      AJ_Net_Interrupt (AJ_ERR_TIMEOUT,
        ({ interruptFd := 9, blocked := false,
           calls := [recvSelect tcpContext idleState 5000] } : SockState), rxBuf).2.1 =
        (AJ_ERR_TIMEOUT,
          ({ interruptFd := 9, blocked := false,
             calls := [recvSelect tcpContext idleState 5000] } : SockState), rxBuf).2.1 ∧
      AJ_Net_Interrupt (AJ_ARDP_UDP_Recv (readyEnv [] 0) tcpContext idleState 5000).2.1 =
        (AJ_ARDP_UDP_Recv (readyEnv [] 0) tcpContext idleState 5000).2.1 ∧
      AJ_Net_Interrupt idleState = idleState ∧
      AJ_Net_Recv (readyEnv [] 0) tcpContext (AJ_Net_Interrupt idleState) rxBuf 32 5000 =
        AJ_Net_Recv (readyEnv [] 0) tcpContext idleState rxBuf 32 5000 ∧
      AJ_ARDP_UDP_Recv (readyEnv [] 0) tcpContext (AJ_Net_Interrupt idleState) 5000 =
        AJ_ARDP_UDP_Recv (readyEnv [] 0) tcpContext idleState 5000) :=
  ⟨⟨by decide, by decide⟩,
    interrupt_without_wait (readyEnv [] 0) tcpContext idleState idleState rxBuf 32 5000
      (AJ_ERR_TIMEOUT,
        { interruptFd := 9, blocked := false,
          calls := [recvSelect tcpContext idleState 5000] }, rxBuf)
      (by decide) (by decide)⟩

/-- C15, amended: `AJ_Net_Recv` watches the interrupt descriptor when it is open
(`interruptFd >= 0`): it is in the set given to `select`, below `nfds`, and when `select`
reports it ready the call returns `AJ_ERR_INTERRUPTED`. `AJ_ARDP_UDP_Recv` does the same
when `interruptFd > 0` and `select` did not fail. `AJ_Net_RecvFrom` does not watch it: the
set it gives to `select` holds sockets of the multicast context only, the status it
returns is never `AJ_ERR_INTERRUPTED`, and the calls it makes are that `select` and
`recvfrom` calls. -/
theorem interrupt_watch (env : SysEnv) (context ctx : NetContext) (mctx : MCastContext)
    (st : SockState) (buf : AJ_IOBuffer) (len timeout : Nat)
    (hdir : env.ndebug = true ∨ buf.direction = AJ_IO_BUF_RX) :
    (0 ≤ st.interruptFd →
      st.interruptFd ∈ (recvFds context st).2 ∧
      st.interruptFd < (recvFds context st).1 + 1 ∧
      ((env.select st.calls ((recvFds context st).1 + 1) (recvFds context st).2
          (timeout / 1000) (1000 * (timeout % 1000))).rc ≠ 0 →
        st.interruptFd ∈ (env.select st.calls ((recvFds context st).1 + 1)
          (recvFds context st).2 (timeout / 1000) (1000 * (timeout % 1000))).fds →
        ∃ st', AJ_Net_Recv env context st buf len timeout =
          some (AJ_ERR_INTERRUPTED, st', buf))) ∧
    (0 < st.interruptFd →
      st.interruptFd ∈ ardpFds ctx st ∧
      st.interruptFd < max ctx.udpSock st.interruptFd + 1 ∧
      ((env.select st.calls (max ctx.udpSock st.interruptFd + 1) (ardpFds ctx st)
          (timeout / 1000) (1000 * (timeout % 1000))).rc ≠ 0 →
        (env.select st.calls (max ctx.udpSock st.interruptFd + 1) (ardpFds ctx st)
          (timeout / 1000) (1000 * (timeout % 1000))).rc ≠ -1 →
        st.interruptFd ∈ (env.select st.calls (max ctx.udpSock st.interruptFd + 1)
          (ardpFds ctx st) (timeout / 1000) (1000 * (timeout % 1000))).fds →
        (AJ_ARDP_UDP_Recv env ctx st timeout).1 = AJ_ERR_INTERRUPTED)) ∧
    (∀ fd ∈ recvFromFds mctx,
      fd = mctx.mDnsRecvSock ∨ fd = mctx.mDns6RecvSock ∨ fd = mctx.udpSock ∨
        fd = mctx.udp6Sock ∨ fd = mctx.mDnsSock ∨ fd = mctx.mDns6Sock) ∧
    (∀ r, AJ_Net_RecvFrom env mctx st buf len timeout = some r →
      r.1 ≠ AJ_ERR_INTERRUPTED ∧
      ∃ more : List SysCall,
        r.2.1.calls = st.calls ++ [recvFromSelect mctx timeout] ++ more ∧
        ∀ c ∈ more, ∃ s l, c = SysCall.recvfrom s l) := by
  refine ⟨?_, ?_, ?_, ?_⟩
  · intro hopen
    refine ⟨?_, ?_, ?_⟩
    · simp [recvFds, hopen]
    · simp only [recvFds, hopen, if_true]
      have := le_max_right context.tcpSock st.interruptFd
      omega
    · intro hrc hint
      have hassert := assert_passes env.ndebug buf.direction AJ_IO_BUF_RX hdir
      refine ⟨{ interruptFd := st.interruptFd, blocked := false,
                calls := st.calls ++ [recvSelect context st timeout,
                  SysCall.read st.interruptFd] }, ?_⟩
      unfold AJ_Net_Recv
      rw [hassert]
      simp only [Bool.false_eq_true, if_false]
      rw [if_neg hrc, if_pos ⟨hopen, hint⟩]
  · intro hopen
    refine ⟨?_, ?_, ?_⟩
    · simp [ardpFds, hopen]
    · have := le_max_right ctx.udpSock st.interruptFd
      omega
    · intro hrc hrc1 hint
      unfold AJ_ARDP_UDP_Recv
      rw [if_neg hrc, if_neg hrc1, if_pos ⟨hopen, hint⟩]
  · intro fd hfd
    simp only [recvFromFds, List.mem_append, List.mem_singleton] at hfd
    rcases hfd with ((((h | h) | h) | h) | h) | h
    · exact Or.inl h
    · split at h
      · exact Or.inr (Or.inl (List.mem_singleton.mp h))
      · simp at h
    · split at h
      · exact Or.inr (Or.inr (Or.inl (List.mem_singleton.mp h)))
      · simp at h
    · split at h
      · exact Or.inr (Or.inr (Or.inr (Or.inl (List.mem_singleton.mp h))))
      · simp at h
    · split at h
      · exact Or.inr (Or.inr (Or.inr (Or.inr (Or.inl (List.mem_singleton.mp h)))))
      · simp at h
    · split at h
      · exact Or.inr (Or.inr (Or.inr (Or.inr (Or.inr (List.mem_singleton.mp h)))))
      · simp at h
  · intro r hr
    unfold AJ_Net_RecvFrom at hr
    split at hr
    · exact absurd hr (by simp)
    · split at hr
      · simp only [Option.some.injEq] at hr
        subst hr
        exact ⟨(fun h => by cases h), [], by simp, by simp⟩
      · simp only [Option.some.injEq] at hr
        subst hr
        refine ⟨?_, ?_⟩
        · rcases recvFromSocks_status env
            (env.select st.calls (recvFromMaxFd mctx + 1) (recvFromFds mctx)
              (timeout / 1000) (1000 * (timeout % 1000))).fds len buf (recvFromOrder mctx)
            AJ_OK { st with calls := st.calls ++ [recvFromSelect mctx timeout] } with
            h | h | h <;> rw [h] <;> decide
        · exact recvFromSocks_calls env _ len buf (recvFromOrder mctx) AJ_OK
            { st with calls := st.calls ++ [recvFromSelect mctx timeout] }

/-- Instance of `interrupt_watch` with the interrupt descriptor 9 ready. -/
theorem interrupt_watch_witness :
    ((readyEnv [9] 0).ndebug = true ∨ rxBuf.direction = AJ_IO_BUF_RX) ∧
    AJ_Net_Recv (readyEnv [9] 0) tcpContext idleState rxBuf 32 5000 =
      some (AJ_ERR_INTERRUPTED,
        { interruptFd := 9, blocked := false,
          calls := [recvSelect tcpContext idleState 5000, SysCall.read 9] }, rxBuf) ∧
    (AJ_ARDP_UDP_Recv (readyEnv [9] 0) tcpContext idleState 5000).1 = AJ_ERR_INTERRUPTED ∧
    (∀ r, AJ_Net_RecvFrom (readyEnv [9] 0) sampleContext idleState rxBuf 32 5000 = some r →
      r.1 ≠ AJ_ERR_INTERRUPTED) :=
  ⟨by decide, by decide,
    ((interrupt_watch (readyEnv [9] 0) tcpContext tcpContext sampleContext idleState rxBuf 32
      5000 (by decide)).2.1 (by decide)).2.2 (by decide) (by decide) (by decide),
    fun r hr => ((interrupt_watch (readyEnv [9] 0) tcpContext tcpContext sampleContext
      idleState rxBuf 32 5000 (by decide)).2.2.2 r hr).1⟩

/-- C15 fails as stated for `AJ_Net_RecvFrom`: the interrupt descriptor 9 is open and
ready, `AJ_Net_Recv` and `AJ_ARDP_UDP_Recv` return `AJ_ERR_INTERRUPTED`, but the set
`AJ_Net_RecvFrom` gives to `select` is `[7, 8, 3, 4, 5, 6]`, without the descriptor 9,
and the call returns `AJ_ERR_TIMEOUT`. -/
theorem recvFrom_ignores_interrupt :
    0 ≤ idleState.interruptFd ∧
    AJ_Net_Recv (readyEnv [9] 0) tcpContext idleState rxBuf 32 5000 =
      some (AJ_ERR_INTERRUPTED,
        { interruptFd := 9, blocked := false,
          calls := [SysCall.select 10 [5, 9] 5 0, SysCall.read 9] }, rxBuf) ∧
    AJ_ARDP_UDP_Recv (readyEnv [9] 0) tcpContext idleState 5000 =
      (AJ_ERR_INTERRUPTED,
        { interruptFd := 9, blocked := false,
          calls := [SysCall.select 10 [6, 9] 5 0, SysCall.read 9] }, none) ∧
    idleState.interruptFd ∉ recvFromFds sampleContext ∧
    AJ_Net_RecvFrom (readyEnv [9] 0) sampleContext idleState rxBuf 32 5000 =
      some (AJ_ERR_TIMEOUT,
        { interruptFd := 9, blocked := false,
          calls := [SysCall.select 9 [7, 8, 3, 4, 5, 6] 5 0] }, rxBuf) := by
  decide

/-- C16: in `AJ_Net_Recv`, when `select` did not time out, the interrupt descriptor is
not reported and `min(AJ_IO_BUF_SPACE(buf), len) > 0`, exactly one `recv` of that many
bytes on the TCP socket follows the `select`; if it returns 0 or -1 the status is
`AJ_ERR_READ` and the buffer is unchanged; if it returns `n > 0` the status is `AJ_OK`,
`writePtr` has advanced by `n`, and `readPtr` and the flags are unchanged. -/
theorem recv_failure_distinct (env : SysEnv) (context : NetContext) (st : SockState)
    (buf : AJ_IOBuffer) (len timeout : Nat)
    (hdir : env.ndebug = true ∨ buf.direction = AJ_IO_BUF_RX)
    (hrc : (env.select st.calls ((recvFds context st).1 + 1) (recvFds context st).2
      (timeout / 1000) (1000 * (timeout % 1000))).rc ≠ 0)
    (hnoint : ¬ (0 ≤ st.interruptFd ∧
      st.interruptFd ∈ (env.select st.calls ((recvFds context st).1 + 1)
        (recvFds context st).2 (timeout / 1000) (1000 * (timeout % 1000))).fds))
    (hrx : 0 < min (AJ_IO_BUF_SPACE buf) len) :
    ∃ (status : AJ_Status) (buf' : AJ_IOBuffer),
      AJ_Net_Recv env context st buf len timeout =
        some (status,
          { interruptFd := st.interruptFd, blocked := false,
            calls := st.calls ++ [recvSelect context st timeout,
              SysCall.recv context.tcpSock (min (AJ_IO_BUF_SPACE buf) len)] }, buf') ∧
      ((env.recv (st.calls ++ [recvSelect context st timeout]) context.tcpSock
            (min (AJ_IO_BUF_SPACE buf) len) = 0 ∨
          env.recv (st.calls ++ [recvSelect context st timeout]) context.tcpSock
            (min (AJ_IO_BUF_SPACE buf) len) = -1) →
        status = AJ_ERR_READ ∧ buf' = buf) ∧
      (0 < env.recv (st.calls ++ [recvSelect context st timeout]) context.tcpSock
            (min (AJ_IO_BUF_SPACE buf) len) →
        status = AJ_OK ∧
        (buf'.writePtr : Int) = (buf.writePtr : Int) +
          env.recv (st.calls ++ [recvSelect context st timeout]) context.tcpSock
            (min (AJ_IO_BUF_SPACE buf) len) ∧
        buf'.readPtr = buf.readPtr ∧ buf'.flags = buf.flags) := by
  have hassert := assert_passes env.ndebug buf.direction AJ_IO_BUF_RX hdir
  have hrx' : min (AJ_IO_BUF_SPACE buf) len ≠ 0 := by omega
  unfold AJ_Net_Recv
  rw [hassert]
  simp only [Bool.false_eq_true, if_false]
  rw [if_neg hrc, if_neg hnoint, if_pos hrx']
  generalize env.recv (st.calls ++ [recvSelect context st timeout]) context.tcpSock
    (min (AJ_IO_BUF_SPACE buf) len) = ret
  by_cases hret : ret = -1 ∨ ret = 0
  · rw [if_pos hret]
    refine ⟨AJ_ERR_READ, buf, rfl, fun _ => ⟨rfl, rfl⟩, ?_⟩
    intro hpos
    omega
  · rw [if_neg hret]
    refine ⟨AJ_OK, advanceWrite buf ret, rfl, ?_, ?_⟩
    · intro h
      exact absurd (h.symm) hret
    · intro hpos
      refine ⟨rfl, ?_, rfl, rfl⟩
      simp only [advanceWrite]
      omega

/-- Instance of `recv_failure_distinct`: the data socket 5 is ready and `recv` returns 10
bytes. -/
theorem recv_failure_distinct_witness :
    (((readyEnv [5] 10).ndebug = true ∨ rxBuf.direction = AJ_IO_BUF_RX) ∧
      ((readyEnv [5] 10).select idleState.calls ((recvFds tcpContext idleState).1 + 1)
        (recvFds tcpContext idleState).2 (5000 / 1000) (1000 * (5000 % 1000))).rc ≠ 0 ∧
      ¬ (0 ≤ idleState.interruptFd ∧
        idleState.interruptFd ∈
          ((readyEnv [5] 10).select idleState.calls ((recvFds tcpContext idleState).1 + 1)
            (recvFds tcpContext idleState).2 (5000 / 1000) (1000 * (5000 % 1000))).fds) ∧
      0 < min (AJ_IO_BUF_SPACE rxBuf) 32) ∧
    ∃ (status : AJ_Status) (buf' : AJ_IOBuffer),
      AJ_Net_Recv (readyEnv [5] 10) tcpContext idleState rxBuf 32 5000 =
        some (status,
          { interruptFd := idleState.interruptFd, blocked := false,
            calls := idleState.calls ++ [recvSelect tcpContext idleState 5000,
              SysCall.recv tcpContext.tcpSock (min (AJ_IO_BUF_SPACE rxBuf) 32)] }, buf') ∧
      (((readyEnv [5] 10).recv (idleState.calls ++ [recvSelect tcpContext idleState 5000])
            tcpContext.tcpSock (min (AJ_IO_BUF_SPACE rxBuf) 32) = 0 ∨
          (readyEnv [5] 10).recv (idleState.calls ++ [recvSelect tcpContext idleState 5000])
            tcpContext.tcpSock (min (AJ_IO_BUF_SPACE rxBuf) 32) = -1) →
        status = AJ_ERR_READ ∧ buf' = rxBuf) ∧
      (0 < (readyEnv [5] 10).recv (idleState.calls ++ [recvSelect tcpContext idleState 5000])
            tcpContext.tcpSock (min (AJ_IO_BUF_SPACE rxBuf) 32) →
        status = AJ_OK ∧
        (buf'.writePtr : Int) = (rxBuf.writePtr : Int) +
          (readyEnv [5] 10).recv (idleState.calls ++ [recvSelect tcpContext idleState 5000])
            tcpContext.tcpSock (min (AJ_IO_BUF_SPACE rxBuf) 32) ∧
        buf'.readPtr = rxBuf.readPtr ∧ buf'.flags = rxBuf.flags) :=
  ⟨⟨by decide, by decide, by decide, by decide⟩,
    recv_failure_distinct (readyEnv [5] 10) tcpContext idleState rxBuf 32 5000 (by decide)
      (by decide) (by decide) (by decide)⟩

/-- C17, amended: for a transmit buffer with pending bytes, `AJ_Net_Send` makes exactly one
`send` of the pending bytes on the TCP socket. The status is `AJ_ERR_WRITE` exactly when
that `send` returns -1, and then the buffer is unchanged. For every other result (a
result of 0 too) the status is `AJ_OK`: when fewer bytes than pending were sent `readPtr`
has advanced by the result and `writePtr` and the flags are unchanged; when all were sent
the buffer is reset (`readPtr = writePtr = bufStart`, flags 0). -/
theorem send_outcome (env : SysEnv) (context : NetContext) (st : SockState)
    (buf : AJ_IOBuffer)
    (hdir : env.ndebug = true ∨ buf.direction = AJ_IO_BUF_TX)
    (hne : buf.readPtr < buf.writePtr)
    (hsz : buf.writePtr - buf.readPtr < 4294967296)
    (hlo : -1 ≤ env.send st.calls context.tcpSock (buf.writePtr - buf.readPtr))
    (hhi : env.send st.calls context.tcpSock (buf.writePtr - buf.readPtr) ≤
      ((buf.writePtr - buf.readPtr : Nat) : Int)) :
    ∃ (status : AJ_Status) (buf' : AJ_IOBuffer),
      AJ_Net_Send env context st buf =
        some (status,
          { st with calls := st.calls ++
              [SysCall.send context.tcpSock (buf.writePtr - buf.readPtr)] }, buf') ∧
      (status = AJ_ERR_WRITE ↔
        env.send st.calls context.tcpSock (buf.writePtr - buf.readPtr) = -1) ∧
      (status = AJ_ERR_WRITE → buf' = buf) ∧
      (status ≠ AJ_ERR_WRITE → status = AJ_OK) ∧
      (status = AJ_OK →
        env.send st.calls context.tcpSock (buf.writePtr - buf.readPtr) <
          ((buf.writePtr - buf.readPtr : Nat) : Int) →
        (buf'.readPtr : Int) = (buf.readPtr : Int) +
            env.send st.calls context.tcpSock (buf.writePtr - buf.readPtr) ∧
          buf'.writePtr = buf.writePtr ∧ buf'.flags = buf.flags) ∧
      (status = AJ_OK →
        env.send st.calls context.tcpSock (buf.writePtr - buf.readPtr) =
          ((buf.writePtr - buf.readPtr : Nat) : Int) →
        buf'.readPtr = buf.bufStart ∧ buf'.writePtr = buf.bufStart ∧ buf'.flags = 0) := by
  have hassert := assert_passes env.ndebug buf.direction AJ_IO_BUF_TX hdir
  have havail : AJ_IO_BUF_AVAIL buf = buf.writePtr - buf.readPtr := by
    unfold AJ_IO_BUF_AVAIL
    omega
  unfold AJ_Net_Send
  rw [hassert, havail]
  simp only [Bool.false_eq_true, if_false]
  rw [if_pos (by omega)]
  generalize env.send st.calls context.tcpSock (buf.writePtr - buf.readPtr) = ret at hlo hhi
  by_cases hret : ret = -1
  · rw [if_pos hret]
    refine ⟨AJ_ERR_WRITE, buf, rfl, ?_, fun _ => rfl, fun h => absurd rfl h, ?_, ?_⟩
    · simp [hret]
    · intro h; cases h
    · intro h; cases h
  · rw [if_neg hret]
    have hadv : AJ_IO_BUF_AVAIL (advanceRead buf ret) =
        ((buf.writePtr - buf.readPtr : Nat) : Int).toNat - ret.toNat := by
      unfold AJ_IO_BUF_AVAIL advanceRead
      simp only
      omega
    by_cases hall : ret = ((buf.writePtr - buf.readPtr : Nat) : Int)
    · rw [if_pos (by rw [hadv]; omega)]
      refine ⟨AJ_OK, _, rfl, ?_, ?_, fun _ => rfl, ?_, ?_⟩
      · simp [hret]
      · intro h; cases h
      · intro _ hlt; omega
      · intro _ _
        exact ⟨rfl, rfl, rfl⟩
    · rw [if_neg (by rw [hadv]; omega)]
      refine ⟨AJ_OK, _, rfl, ?_, ?_, fun _ => rfl, ?_, ?_⟩
      · simp [hret]
      · intro h; cases h
      · intro _ _
        refine ⟨?_, rfl, rfl⟩
        simp only [advanceRead]
        omega
      · intro _ h; exact absurd h hall

/-- Instance of `send_outcome`: 20 bytes pending, `send` transfers 12. -/
theorem send_outcome_witness :
    (((readyEnv [] 12).ndebug = true ∨ buf20.direction = AJ_IO_BUF_TX) ∧
      buf20.readPtr < buf20.writePtr ∧ buf20.writePtr - buf20.readPtr < 4294967296 ∧
      -1 ≤ (readyEnv [] 12).send idleState.calls tcpContext.tcpSock
        (buf20.writePtr - buf20.readPtr) ∧
      (readyEnv [] 12).send idleState.calls tcpContext.tcpSock
        (buf20.writePtr - buf20.readPtr) ≤ ((buf20.writePtr - buf20.readPtr : Nat) : Int)) ∧
    ∃ (status : AJ_Status) (buf' : AJ_IOBuffer),
      AJ_Net_Send (readyEnv [] 12) tcpContext idleState buf20 =
        some (status,
          { idleState with calls := idleState.calls ++
              [SysCall.send tcpContext.tcpSock (buf20.writePtr - buf20.readPtr)] }, buf') ∧
      (status = AJ_ERR_WRITE ↔
        (readyEnv [] 12).send idleState.calls tcpContext.tcpSock
          (buf20.writePtr - buf20.readPtr) = -1) ∧
      (status = AJ_ERR_WRITE → buf' = buf20) ∧
      (status ≠ AJ_ERR_WRITE → status = AJ_OK) ∧
      (status = AJ_OK →
        (readyEnv [] 12).send idleState.calls tcpContext.tcpSock
            (buf20.writePtr - buf20.readPtr) <
          ((buf20.writePtr - buf20.readPtr : Nat) : Int) →
        (buf'.readPtr : Int) = (buf20.readPtr : Int) +
            (readyEnv [] 12).send idleState.calls tcpContext.tcpSock
              (buf20.writePtr - buf20.readPtr) ∧
          buf'.writePtr = buf20.writePtr ∧ buf'.flags = buf20.flags) ∧
      (status = AJ_OK →
        (readyEnv [] 12).send idleState.calls tcpContext.tcpSock
            (buf20.writePtr - buf20.readPtr) =
          ((buf20.writePtr - buf20.readPtr : Nat) : Int) →
        buf'.readPtr = buf20.bufStart ∧ buf'.writePtr = buf20.bufStart ∧ buf'.flags = 0) :=
  ⟨⟨by decide, by decide, by decide, by decide, by decide⟩,
    send_outcome (readyEnv [] 12) tcpContext idleState buf20 (by decide) (by decide)
      (by decide) (by decide) (by decide)⟩

/-- C17 fails as stated: with 20 bytes pending and a `send` that returns 0, `AJ_Net_Send`
returns `AJ_OK`, not `AJ_ERR_WRITE`. -/
theorem send_zero_is_ok :
    buf20.readPtr < buf20.writePtr ∧
    (readyEnv [] 0).send idleState.calls tcpContext.tcpSock 20 = 0 ∧
    AJ_Net_Send (readyEnv [] 0) tcpContext idleState buf20 =
      some (AJ_OK, { interruptFd := 9, blocked := false, calls := [SysCall.send 5 20] },
        buf20) := by
  decide

/-- C18: whenever `AJ_Net_RecvFrom` returns, its status is `AJ_ERR_TIMEOUT` if and only
if its `select` returned 0; in that case the `select` is the only call it made (no
`recvfrom`), the buffer is unchanged, and the status is not `AJ_ERR_READ`. -/
theorem recvFrom_timeout (env : SysEnv) (context : MCastContext) (st st' : SockState)
    (buf buf' : AJ_IOBuffer) (len timeout : Nat) (status : AJ_Status)
    (hres : AJ_Net_RecvFrom env context st buf len timeout = some (status, st', buf')) :
    (status = AJ_ERR_TIMEOUT ↔
      (env.select st.calls (recvFromMaxFd context + 1) (recvFromFds context)
        (timeout / 1000) (1000 * (timeout % 1000))).rc = 0) ∧
    ((env.select st.calls (recvFromMaxFd context + 1) (recvFromFds context)
        (timeout / 1000) (1000 * (timeout % 1000))).rc = 0 →
      st'.calls = st.calls ++ [recvFromSelect context timeout] ∧ buf' = buf ∧
        status ≠ AJ_ERR_READ) := by
  unfold AJ_Net_RecvFrom at hres
  split at hres
  · exact absurd hres (by simp)
  · split at hres
    · rename_i hrc
      simp only [Option.some.injEq, Prod.mk.injEq] at hres
      obtain ⟨rfl, rfl, rfl⟩ := hres
      exact ⟨⟨fun _ => hrc, fun _ => rfl⟩, fun _ => ⟨rfl, rfl, by decide⟩⟩
    · rename_i hrc
      simp only [Option.some.injEq] at hres
      have hst := recvFromSocks_status env
        (env.select st.calls (recvFromMaxFd context + 1) (recvFromFds context)
          (timeout / 1000) (1000 * (timeout % 1000))).fds len buf (recvFromOrder context) AJ_OK
        { st with calls := st.calls ++ [recvFromSelect context timeout] }
      rw [hres] at hst
      simp only at hst
      refine ⟨⟨?_, fun h => absurd h hrc⟩, fun h => absurd h hrc⟩
      intro h
      subst h
      rcases hst with h | h | h <;> cases h

/-- Instance of `recvFrom_timeout`: no socket becomes ready. -/
theorem recvFrom_timeout_witness :
    AJ_Net_RecvFrom (readyEnv [] 0) sampleContext idleState rxBuf 32 5000 =
      some (AJ_ERR_TIMEOUT,
        { interruptFd := 9, blocked := false, calls := [recvFromSelect sampleContext 5000] },
        rxBuf) ∧
    ((AJ_ERR_TIMEOUT = AJ_ERR_TIMEOUT ↔
      ((readyEnv [] 0).select idleState.calls (recvFromMaxFd sampleContext + 1)
        (recvFromFds sampleContext) (5000 / 1000) (1000 * (5000 % 1000))).rc = 0) ∧
    (((readyEnv [] 0).select idleState.calls (recvFromMaxFd sampleContext + 1)
        (recvFromFds sampleContext) (5000 / 1000) (1000 * (5000 % 1000))).rc = 0 →
      ({ interruptFd := 9, blocked := false,
         calls := [recvFromSelect sampleContext 5000] } : SockState).calls =
        idleState.calls ++ [recvFromSelect sampleContext 5000] ∧ rxBuf = rxBuf ∧
        AJ_ERR_TIMEOUT ≠ AJ_ERR_READ)) :=
  ⟨by decide,
    recvFrom_timeout (readyEnv [] 0) sampleContext idleState
      { interruptFd := 9, blocked := false, calls := [recvFromSelect sampleContext 5000] }
      rxBuf rxBuf 32 5000 AJ_ERR_TIMEOUT (by decide)⟩

/-- C19, amended: when `AJ_Net_RecvFrom` returns `AJ_OK` after a `recvfrom`, the last
call it made is a `recvfrom` on one of its six sockets that did not return -1, and the
`recvfrom` calls before it (after the `select`) all returned -1; `writePtr` has advanced
by the result of that last call, `readPtr` is unchanged, and the flags are the flags on
entry OR-ed with `AJ_IO_BUF_MDNS` when the socket is `mDnsRecvSock`, `mDns6RecvSock`,
`mDnsSock` or `mDns6Sock`, and with `AJ_IO_BUF_AJ` when it is `udpSock` or `udp6Sock`
(with no flag set on entry: exactly that flag). -/
theorem recvFrom_tag (env : SysEnv) (context : MCastContext) (st st' : SockState)
    (buf buf' : AJ_IOBuffer) (len timeout : Nat)
    (hres : AJ_Net_RecvFrom env context st buf len timeout = some (AJ_OK, st', buf'))
    (hread : st'.calls ≠ st.calls ++ [recvFromSelect context timeout]) :
    ∃ (pre : List SysCall) (sock : Int) (flag : Nat),
      ((flag = AJ_IO_BUF_MDNS ∧ (sock = context.mDnsRecvSock ∨ sock = context.mDns6RecvSock ∨
          sock = context.mDnsSock ∨ sock = context.mDns6Sock)) ∨
        (flag = AJ_IO_BUF_AJ ∧ (sock = context.udpSock ∨ sock = context.udp6Sock))) ∧
      allFailed env (st.calls ++ [recvFromSelect context timeout]) pre = true ∧
      st'.calls = st.calls ++ [recvFromSelect context timeout] ++ pre ++
        [SysCall.recvfrom sock (min (AJ_IO_BUF_SPACE buf) len)] ∧
      env.recvfrom (st.calls ++ [recvFromSelect context timeout] ++ pre) sock
        (min (AJ_IO_BUF_SPACE buf) len) ≠ -1 ∧
      buf'.writePtr = ((buf.writePtr : Int) +
        env.recvfrom (st.calls ++ [recvFromSelect context timeout] ++ pre) sock
          (min (AJ_IO_BUF_SPACE buf) len)).toNat ∧
      buf'.readPtr = buf.readPtr ∧
      buf'.flags = buf.flags ||| flag ∧
      (buf.flags = 0 → buf'.flags = flag) := by
  unfold AJ_Net_RecvFrom at hres
  split at hres
  · exact absurd hres (by simp)
  · split at hres
    · simp only [Option.some.injEq, Prod.mk.injEq] at hres
      exact absurd hres.1 (by decide)
    · simp only [Option.some.injEq] at hres
      rcases recvFromSocks_spec env
        (env.select st.calls (recvFromMaxFd context + 1) (recvFromFds context)
          (timeout / 1000) (1000 * (timeout % 1000))).fds len buf (recvFromOrder context) AJ_OK
        { st with calls := st.calls ++ [recvFromSelect context timeout] } with
        ⟨pre, s, f, hm, _, _, hall, hret, heq⟩ | ⟨pre, hall, heq⟩
      · rw [heq] at hres
        simp only [Prod.mk.injEq, true_and] at hres
        obtain ⟨rfl, rfl⟩ := hres
        refine ⟨pre, s, f, ?_, hall, rfl, hret, rfl, rfl, rfl, ?_⟩
        · simp only [recvFromOrder, List.mem_cons, Prod.mk.injEq, List.mem_singleton,
            List.not_mem_nil, or_false] at hm
          rcases hm with ⟨h1, h2⟩ | ⟨h1, h2⟩ | ⟨h1, h2⟩ | ⟨h1, h2⟩ | ⟨h1, h2⟩ | ⟨h1, h2⟩
          · exact Or.inl ⟨h2, Or.inl h1⟩
          · exact Or.inl ⟨h2, Or.inr (Or.inl h1)⟩
          · exact Or.inr ⟨h2, Or.inr h1⟩
          · exact Or.inr ⟨h2, Or.inl h1⟩
          · exact Or.inl ⟨h2, Or.inr (Or.inr (Or.inl h1))⟩
          · exact Or.inl ⟨h2, Or.inr (Or.inr (Or.inr h1))⟩
        · intro h0
          simp [advanceWrite, h0]
      · rw [heq] at hres
        simp only [Prod.mk.injEq] at hres
        obtain ⟨hs, rfl, rfl⟩ := hres
        by_cases hp : pre = []
        · subst hp
          exact absurd (by simp) hread
        · rw [if_neg hp] at hs
          cases hs

/-- Instance of `recvFrom_tag`: a datagram of 10 bytes on `udpSock`. -/
theorem recvFrom_tag_witness :
    (AJ_Net_RecvFrom (readyEnv [3] 10) sampleContext idleState rxBuf 32 5000 =
        some (AJ_OK,
          { interruptFd := 9, blocked := false,
            calls := [recvFromSelect sampleContext 5000, SysCall.recvfrom 3 32] },
          { rxBuf with flags := AJ_IO_BUF_AJ, writePtr := 10 }) ∧
      ({ interruptFd := 9, blocked := false,
         calls := [recvFromSelect sampleContext 5000, SysCall.recvfrom 3 32] } :
          SockState).calls ≠ idleState.calls ++ [recvFromSelect sampleContext 5000]) ∧
    ∃ (pre : List SysCall) (sock : Int) (flag : Nat),
      ((flag = AJ_IO_BUF_MDNS ∧
          (sock = sampleContext.mDnsRecvSock ∨ sock = sampleContext.mDns6RecvSock ∨
            sock = sampleContext.mDnsSock ∨ sock = sampleContext.mDns6Sock)) ∨
        (flag = AJ_IO_BUF_AJ ∧
          (sock = sampleContext.udpSock ∨ sock = sampleContext.udp6Sock))) ∧
      allFailed (readyEnv [3] 10) (idleState.calls ++ [recvFromSelect sampleContext 5000])
        pre = true ∧
      ({ interruptFd := 9, blocked := false,
         calls := [recvFromSelect sampleContext 5000, SysCall.recvfrom 3 32] } :
          SockState).calls =
        idleState.calls ++ [recvFromSelect sampleContext 5000] ++ pre ++
          [SysCall.recvfrom sock (min (AJ_IO_BUF_SPACE rxBuf) 32)] ∧
      (readyEnv [3] 10).recvfrom (idleState.calls ++ [recvFromSelect sampleContext 5000] ++ pre)
        sock (min (AJ_IO_BUF_SPACE rxBuf) 32) ≠ -1 ∧
      ({ rxBuf with flags := AJ_IO_BUF_AJ, writePtr := 10 } : AJ_IOBuffer).writePtr =
        ((rxBuf.writePtr : Int) +
          (readyEnv [3] 10).recvfrom
            (idleState.calls ++ [recvFromSelect sampleContext 5000] ++ pre) sock
            (min (AJ_IO_BUF_SPACE rxBuf) 32)).toNat ∧
      ({ rxBuf with flags := AJ_IO_BUF_AJ, writePtr := 10 } : AJ_IOBuffer).readPtr =
        rxBuf.readPtr ∧
      ({ rxBuf with flags := AJ_IO_BUF_AJ, writePtr := 10 } : AJ_IOBuffer).flags =
        rxBuf.flags ||| flag ∧
      (rxBuf.flags = 0 →
        ({ rxBuf with flags := AJ_IO_BUF_AJ, writePtr := 10 } : AJ_IOBuffer).flags = flag) :=
  ⟨⟨by decide, by decide⟩,
    recvFrom_tag (readyEnv [3] 10) sampleContext idleState
      { interruptFd := 9, blocked := false,
        calls := [recvFromSelect sampleContext 5000, SysCall.recvfrom 3 32] }
      rxBuf { rxBuf with flags := AJ_IO_BUF_AJ, writePtr := 10 } 32 5000 (by decide)
      (by decide)⟩

/-- C19 fails as stated: the buffer `staleRxBuf` carries `AJ_IO_BUF_AJ` on entry, the
datagram comes from `mDnsRecvSock` (socket 7), and on return with `AJ_OK` the flags are
3: `AJ_IO_BUF_MDNS` and `AJ_IO_BUF_AJ` are both set. -/
theorem recvFrom_stale_flag :
    AJ_Net_RecvFrom (readyEnv [7] 10) sampleContext idleState staleRxBuf 32 5000 =
      some (AJ_OK,
        { interruptFd := 9, blocked := false,
          calls := [SysCall.select 9 [7, 8, 3, 4, 5, 6] 5 0,
            SysCall.recvfrom sampleContext.mDnsRecvSock 32] },
        { staleRxBuf with flags := 3, writePtr := 10 }) ∧
    (3 : Nat) &&& AJ_IO_BUF_AJ ≠ 0 := by
  decide

/-- C20, amended: every `sendto` that `sendToBroadcast` makes goes on the socket it was
given to the broadcast address (with the port set) of an entry of the interface list
whose `ifa_addr` is not `NULL` and of family `AF_INET` or `AF_INET6`, whose flags have
`IFF_UP` and `IFF_RUNNING`, and whose `ifu_broadaddr` is not `NULL`. -/
theorem broadcast_targets (env : NetEnv) (sock : Int) (port : Nat) (st st' : NetState)
    (ok' : Bool) (h : sendToBroadcast env sock port st = some (ok', st')) :
    ∃ new : List SendRec, st'.sent = st.sent ++ new ∧
      ∀ r ∈ new, ∃ addr ∈ env.ifaddrs, ∃ (ifa bc : SockAddr),
        addr.ifa_addr = some ifa ∧ (ifa.sa_family = AF_INET ∨ ifa.sa_family = AF_INET6) ∧
        addr.ifa_flags &&& IFF_UP ≠ 0 ∧ addr.ifa_flags &&& IFF_RUNNING ≠ 0 ∧
        addr.ifu_broadaddr = some bc ∧ r.sock = sock ∧ r.dest = { bc with port := port } := by
  unfold sendToBroadcast at h
  exact sendToBroadcastLoop_targets env sock port env.ifaddrs st st' false ok' h

/-- Instance of `broadcast_targets`: the mDNS response `samplePacket` goes to
192.168.0.255, the broadcast address of the interface 192.168.0.1. -/
theorem broadcast_targets_witness :
    sendToBroadcast bcastEnv 5 9956 sampleState = some (true, bcastSentState) ∧
    ∃ new : List SendRec, bcastSentState.sent = sampleState.sent ++ new ∧
      ∀ r ∈ new, ∃ addr ∈ bcastEnv.ifaddrs, ∃ (ifa bc : SockAddr),
        addr.ifa_addr = some ifa ∧ (ifa.sa_family = AF_INET ∨ ifa.sa_family = AF_INET6) ∧
        addr.ifa_flags &&& IFF_UP ≠ 0 ∧ addr.ifa_flags &&& IFF_RUNNING ≠ 0 ∧
        addr.ifu_broadaddr = some bc ∧ r.sock = 5 ∧ r.dest = { bc with port := 9956 } :=
  ⟨by decide, broadcast_targets bcastEnv 5 9956 sampleState bcastSentState true (by decide)⟩

/-- C20 fails as stated: the only entry of the interface list, `v6If`, has an address of
family `AF_INET6` and no IPv4 address, and `sendToBroadcast` sends the packet to its
`ifu_broadaddr`. -/
theorem broadcast_to_ipv6_entry :
    v6Env.ifaddrs = [v6If] ∧
    v6If.ifa_addr.map (fun a => a.sa_family) = some AF_INET6 ∧
    (sendToBroadcast v6Env 5 9956 sampleState).map
        (fun p => (p.1, p.2.sent.map (fun r => (r.sock, r.dest, r.tx, r.ret)))) =
      some (true,
        [(5, { sa_family := AF_INET6, port := 9956, addr4 := 0,
               text6 := [102, 102, 48, 50, 58, 58, 49] }, 92, 92)]) := by
  decide

/-! ## Claims on the broadcast fanout, connection setup and teardown, the wake, the scan and the rewrite -/

/-- C21 fails in the code: `sampleEnv` has one interface that is up and running and has
the broadcast address 192.168.0.255, the bus-discovery buffer of `ajState` has 20 bytes
pending, and `sendToBroadcast` makes no `sendto` and returns FALSE; `AJ_Net_SendTo` on
this buffer sends the packet to the two multicast groups only. With the interface
`bcastIf` the 86 pending bytes of `samplePacket` get one copy when the buffer carries
`AJ_IO_BUF_MDNS` and none when it carries `AJ_IO_BUF_AJ`. -/
theorem broadcast_skips_aj_buffer :
    ajState.buf.flags = AJ_IO_BUF_AJ ∧
    AJ_IO_BUF_AVAIL ajState.buf = 20 ∧
    sampleEnv.ifaddrs.map
        (fun a => (a.ifa_flags, a.ifa_addr.map (fun x => x.sa_family),
          a.ifu_broadaddr.map (fun x => x.addr4))) =
      [(IFF_UP ||| IFF_RUNNING, some AF_INET, some 0xC0A800FF)] ∧
    sendToBroadcast sampleEnv 3 9956 ajState = some (false, ajState) ∧
    AJ_Net_SendTo sampleEnv sampleContext ajState = some (AJ_OK, ajStateSent) ∧
    ajStateSent.sent.map (fun r => r.dest) = [ajGroup4, ajGroup6] ∧
    (sendToBroadcast bcastEnv 5 9956 sampleState).map
        (fun p => (p.1, p.2.sent.map (fun r => (r.sock, r.dest, r.tx, r.ret)))) =
      some (true,
        [(5, { sa_family := AF_INET, port := 9956, addr4 := 0xC0A800FF, text6 := [] },
          96, 96)]) ∧
    (sendToBroadcast bcastEnv 5 9956
        { sampleState with buf := { sampleBuf with flags := AJ_IO_BUF_AJ } }).map
        (fun p => (p.1, p.2.sent)) =
      some (false, []) :=
  ⟨by decide, by decide, by decide, by decide, by decide, by decide, by decide, by decide⟩

/-- C22: with no transport descriptor live on entry, `AJ_Net_Connect` runs the
reliable-datagram path first when the candidate advertises `AJ_ADDR_UDP4` or
`AJ_ADDR_UDP6`, and when that path returns `AJ_OK` the result is the result of that
path; a stream socket is created only if `AJ_ADDR_TCP4` or `AJ_ADDR_TCP6` is advertised
and the datagram path was not advertised or did not return `AJ_OK`; the status is
`AJ_OK` or `AJ_ERR_CONNECT`; with no path advertised it is `AJ_ERR_CONNECT` and nothing
is done; it is `AJ_OK` exactly when an attempted path returned `AJ_OK`; and on `AJ_OK`
exactly one of `netContext.udpSock` and `netContext.tcpSock` is valid. -/
theorem connect_prefers_datagram (env : ConnEnv) (s : ConnState) (service : AJ_Service)
    (hudp : s.udpSock = INVALID_SOCKET) (htcp : s.tcpSock = INVALID_SOCKET)
    (hfds : ∀ fd ∈ s.openFds, (0 : Int) ≤ fd) :
    (service.addrTypes &&& (AJ_ADDR_UDP4 ||| AJ_ADDR_UDP6) ≠ 0 →
      (∃ more : List ConnCall, (AJ_Net_Connect env s service).2.calls =
        (AJ_Net_ARDP_Connect env s service).2.calls ++ more) ∧
      ((AJ_Net_ARDP_Connect env s service).1 = AJ_OK →
        AJ_Net_Connect env s service = AJ_Net_ARDP_Connect env s service)) ∧
    (∀ new : List ConnCall, (AJ_Net_Connect env s service).2.calls = s.calls ++ new →
      (∃ c ∈ new, isStreamSocket c = true) →
      service.addrTypes &&& (AJ_ADDR_TCP4 ||| AJ_ADDR_TCP6) ≠ 0 ∧
      (service.addrTypes &&& (AJ_ADDR_UDP4 ||| AJ_ADDR_UDP6) = 0 ∨
        (AJ_Net_ARDP_Connect env s service).1 ≠ AJ_OK)) ∧
    ((AJ_Net_Connect env s service).1 = AJ_OK ∨
      (AJ_Net_Connect env s service).1 = AJ_ERR_CONNECT) ∧
    (service.addrTypes &&& (AJ_ADDR_UDP4 ||| AJ_ADDR_UDP6) = 0 →
      service.addrTypes &&& (AJ_ADDR_TCP4 ||| AJ_ADDR_TCP6) = 0 →
      AJ_Net_Connect env s service = (AJ_ERR_CONNECT, s)) ∧
    ((AJ_Net_Connect env s service).1 = AJ_OK ↔
      ((service.addrTypes &&& (AJ_ADDR_UDP4 ||| AJ_ADDR_UDP6) ≠ 0 ∧
          (AJ_Net_ARDP_Connect env s service).1 = AJ_OK) ∨
        (service.addrTypes &&& (AJ_ADDR_TCP4 ||| AJ_ADDR_TCP6) ≠ 0 ∧
          (AJ_TCP_Connect env
            (if service.addrTypes &&& (AJ_ADDR_UDP4 ||| AJ_ADDR_UDP6) ≠ 0 then
              (AJ_Net_ARDP_Connect env s service).2 else s) service).1 = AJ_OK))) ∧
    ((AJ_Net_Connect env s service).1 = AJ_OK →
      ((AJ_Net_Connect env s service).2.udpSock ≠ INVALID_SOCKET ∧
          (AJ_Net_Connect env s service).2.tcpSock = INVALID_SOCKET) ∨
        ((AJ_Net_Connect env s service).2.udpSock = INVALID_SOCKET ∧
          (AJ_Net_Connect env s service).2.tcpSock ≠ INVALID_SOCKET)) := by
  obtain ⟨astep, ast, aok, aerr⟩ := AJ_Net_ARDP_Connect_spec env s service
  obtain ⟨atcp, _, anew, hanew, anostream⟩ := astep
  have tspec := AJ_TCP_Connect_spec env
  have hinv : ∀ x : Int, 0 ≤ x → x ≠ INVALID_SOCKET := by
    intro x hx
    unfold INVALID_SOCKET
    omega
  by_cases hU : service.addrTypes &&& (AJ_ADDR_UDP4 ||| AJ_ADDR_UDP6) ≠ 0
  · by_cases hA : (AJ_Net_ARDP_Connect env s service).1 = AJ_OK
    · have e : AJ_Net_Connect env s service = AJ_Net_ARDP_Connect env s service := by
        unfold AJ_Net_Connect
        rw [if_pos hU, if_pos hA]
      rw [e]
      refine ⟨fun _ => ⟨⟨[], by simp⟩, fun _ => rfl⟩, ?_, Or.inl hA, fun h => absurd h hU,
        ⟨fun _ => Or.inl ⟨hU, hA⟩, fun _ => hA⟩, fun _ => Or.inl ⟨hinv _ (aok hA hfds), ?_⟩⟩
      · intro new hnew ⟨c, hc, hs⟩
        rw [hanew] at hnew
        have := List.append_cancel_left hnew
        subst this
        rw [anostream c hc] at hs
        cases hs
      · rw [atcp]; exact htcp
    · have hE : (AJ_Net_ARDP_Connect env s service).1 = AJ_ERR_CONNECT := by
        rcases ast with h | h
        · exact absurd h hA
        · exact h
      by_cases hT : service.addrTypes &&& (AJ_ADDR_TCP4 ||| AJ_ADDR_TCP6) ≠ 0
      · have e : AJ_Net_Connect env s service =
            AJ_TCP_Connect env (AJ_Net_ARDP_Connect env s service).2 service := by
          unfold AJ_Net_Connect
          rw [if_pos hU, if_neg hA, if_pos hT]
        obtain ⟨tu, tst, tok, terr, tn, htn⟩ := tspec (AJ_Net_ARDP_Connect env s service).2 service
        rw [e]
        refine ⟨fun _ => ⟨⟨tn, htn⟩, fun h => absurd h hA⟩, fun _ _ _ => ⟨hT, Or.inr hA⟩, tst,
          fun h => absurd h hU, ?_, fun h => Or.inr ⟨?_, hinv _ (tok h)⟩⟩
        · rw [if_pos hU]
          exact ⟨fun h => Or.inr ⟨hT, h⟩, fun h => h.elim (fun h => absurd h.2 hA) (fun h => h.2)⟩
        · rw [tu]
          rcases (aerr hE).1 with h | h
          · exact h
          · exact h.trans hudp
      · have e : AJ_Net_Connect env s service = AJ_Net_ARDP_Connect env s service := by
          unfold AJ_Net_Connect
          rw [if_pos hU, if_neg hA, if_neg hT]
        rw [e]
        refine ⟨fun _ => ⟨⟨[], by simp⟩, fun _ => rfl⟩, ?_, Or.inr hE, fun h => absurd h hU,
          ⟨fun h => absurd h hA, fun h => h.elim (fun h => absurd h.2 hA) (fun h => absurd h.1 hT)⟩,
          fun h => absurd h hA⟩
        intro new hnew ⟨c, hc, hs⟩
        rw [hanew] at hnew
        have := List.append_cancel_left hnew
        subst this
        rw [anostream c hc] at hs
        cases hs
  · by_cases hT : service.addrTypes &&& (AJ_ADDR_TCP4 ||| AJ_ADDR_TCP6) ≠ 0
    · have e : AJ_Net_Connect env s service = AJ_TCP_Connect env s service := by
        unfold AJ_Net_Connect
        rw [if_neg hU, if_pos hT]
      obtain ⟨tu, tst, tok, terr, tn, htn⟩ := tspec s service
      rw [e]
      refine ⟨fun h => absurd h hU, fun _ _ _ => ⟨hT, Or.inl (not_not.mp hU)⟩, tst,
        fun _ h => absurd h hT, ?_, fun h => Or.inr ⟨tu.trans hudp, hinv _ (tok h)⟩⟩
      rw [if_neg hU]
      exact ⟨fun h => Or.inr ⟨hT, h⟩, fun h => h.elim (fun h => absurd h.1 hU) (fun h => h.2)⟩
    · have e : AJ_Net_Connect env s service = (AJ_ERR_CONNECT, s) := by
        unfold AJ_Net_Connect
        rw [if_neg hU, if_neg hT]
      rw [e]
      refine ⟨fun h => absurd h hU, ?_, Or.inr rfl, fun _ _ => rfl,
        ⟨(fun h => by cases h), fun h => h.elim (fun h => absurd h.1 hU) (fun h => absurd h.1 hT)⟩,
        (fun h => by cases h)⟩
      intro new hnew ⟨c, hc, _⟩
      have : new = [] := by
        have h2 : s.calls ++ new = s.calls ++ [] := by simpa using hnew.symm
        exact List.append_cancel_left h2
      subst this
      simp at hc

/-- Instance of `connect_prefers_datagram`: the candidate advertises `AJ_ADDR_UDP4` and
`AJ_ADDR_TCP4`, the ARDP handshake fails, and the stream path then succeeds. -/
theorem connect_prefers_datagram_witness :
    (connStart.udpSock = INVALID_SOCKET ∧ connStart.tcpSock = INVALID_SOCKET ∧
      ∀ fd ∈ connStart.openFds, (0 : Int) ≤ fd) ∧
    (AJ_Net_Connect (connEnv false) connStart (candidate (AJ_ADDR_UDP4 ||| AJ_ADDR_TCP4))).1 =
      AJ_OK ∧
    (((AJ_Net_Connect (connEnv false) connStart
          (candidate (AJ_ADDR_UDP4 ||| AJ_ADDR_TCP4))).2.udpSock ≠ INVALID_SOCKET ∧
        (AJ_Net_Connect (connEnv false) connStart
          (candidate (AJ_ADDR_UDP4 ||| AJ_ADDR_TCP4))).2.tcpSock = INVALID_SOCKET) ∨
      ((AJ_Net_Connect (connEnv false) connStart
          (candidate (AJ_ADDR_UDP4 ||| AJ_ADDR_TCP4))).2.udpSock = INVALID_SOCKET ∧
        (AJ_Net_Connect (connEnv false) connStart
          (candidate (AJ_ADDR_UDP4 ||| AJ_ADDR_TCP4))).2.tcpSock ≠ INVALID_SOCKET)) :=
  ⟨⟨rfl, rfl, by decide⟩, by decide,
    (connect_prefers_datagram (connEnv false) connStart
      (candidate (AJ_ADDR_UDP4 ||| AJ_ADDR_TCP4)) rfl rfl (by decide)).2.2.2.2.2 (by decide)⟩

/-- C23 fails in the code: for a candidate that advertises only `AJ_ADDR_TCP6`,
`AJ_TCP_Connect` creates the socket with `socket(AF_INET, SOCK_STREAM, 0)` and then calls
`connect` on it with an `AF_INET6` address of 28 bytes, and where `connect` refuses the
IPv6 address the call returns `AJ_ERR_CONNECT`; the datagram path creates an `AF_INET6`
socket for its IPv6 address. A candidate that advertises no stream address gets
`AJ_ERR_CONNECT` and both descriptors are closed. -/
theorem tcp6_candidate_gets_ipv4_socket :
    (candidate AJ_ADDR_TCP6).addrTypes &&& AJ_ADDR_TCP4 = 0 ∧
    (candidate AJ_ADDR_TCP6).addrTypes &&& AJ_ADDR_TCP6 ≠ 0 ∧
    (AJ_TCP_Connect (connEnv true) connStart (candidate AJ_ADDR_TCP6)).2.calls =
      [ConnCall.eventfd 3, ConnCall.socket AF_INET SOCK_STREAM 4,
        ConnCall.connect 4 AF_INET6 (some 28) 0] ∧
    AJ_TCP_Connect v4OnlyEnv connStart (candidate AJ_ADDR_TCP6) =
      (AJ_ERR_CONNECT,
        { connStart with
          calls := [ConnCall.eventfd 3, ConnCall.socket AF_INET SOCK_STREAM 4,
            ConnCall.connect 4 AF_INET6 (some 28) (-1), ConnCall.close 3,
            ConnCall.close 4] }) ∧
    (AJ_Net_ARDP_Connect (connEnv true) connStart (candidate AJ_ADDR_UDP6)).2.calls =
      [ConnCall.eventfd 3, ConnCall.connect (-1) 0 none (-1),
        ConnCall.socket AF_INET6 SOCK_DGRAM 4, ConnCall.connect 4 AF_INET6 (some 28) 0,
        ConnCall.ardpConnect true] ∧
    AJ_TCP_Connect (connEnv true) connStart (candidate 0) =
      (AJ_ERR_CONNECT,
        { connStart with
          calls := [ConnCall.eventfd 3, ConnCall.socket AF_INET SOCK_STREAM 4,
            ConnCall.close 3, ConnCall.close 4] }) :=
  ⟨by decide, by decide, by decide, by decide, by decide, by decide⟩

/-- C24 fails in the code: for a candidate that advertises only `AJ_ADDR_UDP4`, when the
handshake fails `AJ_Net_ARDP_Connect` returns `AJ_ERR_CONNECT` after closing the
datagram socket 4 twice; and for a candidate that advertises `AJ_ADDR_UDP4` and
`AJ_ADDR_UDP6`, when `connect` fails on the IPv4 address and the handshake fails on the
IPv6 one, it returns `AJ_ERR_CONNECT` with the first datagram socket 4 still open and
never closed and the second one, 5, closed twice. In both runs `interruptFd` and
`netContext.udpSock` are `INVALID_SOCKET` on return. -/
theorem ardp_failure_close_counts :
    AJ_Net_ARDP_Connect (connEnv false) connStart (candidate AJ_ADDR_UDP4) =
      (AJ_ERR_CONNECT,
        { connStart with
          calls := [ConnCall.eventfd 3, ConnCall.socket AF_INET SOCK_DGRAM 4,
            ConnCall.connect 4 AF_INET (some 16) 0, ConnCall.ardpConnect false,
            ConnCall.ardpDisconnect, ConnCall.close 4,
            ConnCall.connect 4 AF_INET (some 16) (-1), ConnCall.close 3,
            ConnCall.close 4] }) ∧
    closeCount 4
        (AJ_Net_ARDP_Connect (connEnv false) connStart (candidate AJ_ADDR_UDP4)).2.calls = 2 ∧
    AJ_Net_ARDP_Connect noV4Env connStart (candidate (AJ_ADDR_UDP4 ||| AJ_ADDR_UDP6)) =
      (AJ_ERR_CONNECT,
        { connStart with
          openFds := [0, 1, 2, 4],
          calls := [ConnCall.eventfd 3, ConnCall.socket AF_INET SOCK_DGRAM 4,
            ConnCall.connect 4 AF_INET (some 16) (-1),
            ConnCall.socket AF_INET6 SOCK_DGRAM 5,
            ConnCall.connect 5 AF_INET6 (some 28) 0, ConnCall.ardpConnect false,
            ConnCall.ardpDisconnect, ConnCall.close 5, ConnCall.close 3,
            ConnCall.close 5] }) ∧
    openedBy (AJ_Net_ARDP_Connect noV4Env connStart
        (candidate (AJ_ADDR_UDP4 ||| AJ_ADDR_UDP6))).2.calls = [3, 4, 5] ∧
    closeCount 4 (AJ_Net_ARDP_Connect noV4Env connStart
        (candidate (AJ_ADDR_UDP4 ||| AJ_ADDR_UDP6))).2.calls = 0 ∧
    closeCount 5 (AJ_Net_ARDP_Connect noV4Env connStart
        (candidate (AJ_ADDR_UDP4 ||| AJ_ADDR_UDP6))).2.calls = 2 :=
  ⟨by decide, by decide, by decide, by decide, by decide, by decide⟩

/-- C25, amended: applying `AJ_Net_Disconnect` twice gives the same state as applying it
once, for every state; after a disconnect of the state a successful `AJ_Net_Connect`
(entered with no transport descriptor live) produced, the handle is all zero,
`interruptFd`, `netContext.udpSock` and `netContext.tcpSock` are `INVALID_SOCKET`, and
the calls made are one `close` of the interrupt descriptor followed by the teardown of
the live socket with one `close` of it; and on a zeroed handle with no datagram socket
live the handle stays zeroed and nothing but the release of the interrupt descriptor
is done. -/
theorem disconnect_idempotent (env : ConnEnv) (s s0 : ConnState) (service : AJ_Service)
    (hudp : s0.udpSock = INVALID_SOCKET) (htcp : s0.tcpSock = INVALID_SOCKET)
    (hfds : ∀ fd ∈ s0.openFds, (0 : Int) ≤ fd)
    (hok : (AJ_Net_Connect env s0 service).1 = AJ_OK) :
    AJ_Net_Disconnect (AJ_Net_Disconnect s) = AJ_Net_Disconnect s ∧
    ((AJ_Net_Disconnect (AJ_Net_Connect env s0 service).2).sock = zeroNetSocket ∧
      (AJ_Net_Disconnect (AJ_Net_Connect env s0 service).2).interruptFd = INVALID_SOCKET ∧
      (AJ_Net_Disconnect (AJ_Net_Connect env s0 service).2).udpSock = INVALID_SOCKET ∧
      (AJ_Net_Disconnect (AJ_Net_Connect env s0 service).2).tcpSock = INVALID_SOCKET ∧
      closeCount (AJ_Net_Connect env s0 service).2.interruptFd
          (AJ_Net_Disconnect (AJ_Net_Connect env s0 service).2).calls =
        closeCount (AJ_Net_Connect env s0 service).2.interruptFd
          (AJ_Net_Connect env s0 service).2.calls + 1 ∧
      (((AJ_Net_Connect env s0 service).2.udpSock ≠ INVALID_SOCKET ∧
          (AJ_Net_Disconnect (AJ_Net_Connect env s0 service).2).calls =
            (AJ_Net_Connect env s0 service).2.calls ++
              [ConnCall.close (AJ_Net_Connect env s0 service).2.interruptFd,
                ConnCall.ardpDisconnect,
                ConnCall.close (AJ_Net_Connect env s0 service).2.udpSock] ∧
          closeCount (AJ_Net_Connect env s0 service).2.udpSock
              (AJ_Net_Disconnect (AJ_Net_Connect env s0 service).2).calls =
            closeCount (AJ_Net_Connect env s0 service).2.udpSock
              (AJ_Net_Connect env s0 service).2.calls + 1) ∨
        ((AJ_Net_Connect env s0 service).2.udpSock = INVALID_SOCKET ∧
          (AJ_Net_Connect env s0 service).2.tcpSock ≠ INVALID_SOCKET ∧
          (AJ_Net_Disconnect (AJ_Net_Connect env s0 service).2).calls =
            (AJ_Net_Connect env s0 service).2.calls ++
              [ConnCall.close (AJ_Net_Connect env s0 service).2.interruptFd,
                ConnCall.setsockopt (AJ_Net_Connect env s0 service).2.tcpSock,
                ConnCall.shutdown (AJ_Net_Connect env s0 service).2.tcpSock,
                ConnCall.close (AJ_Net_Connect env s0 service).2.tcpSock] ∧
          closeCount (AJ_Net_Connect env s0 service).2.tcpSock
              (AJ_Net_Disconnect (AJ_Net_Connect env s0 service).2).calls =
            closeCount (AJ_Net_Connect env s0 service).2.tcpSock
              (AJ_Net_Connect env s0 service).2.calls + 1))) ∧
    (s.sock = zeroNetSocket → s.udpSock = INVALID_SOCKET →
      (AJ_Net_Disconnect s).sock = zeroNetSocket ∧
      AJ_Net_Disconnect s = releaseInterrupt s) := by
  have hinv : ∀ x : Int, 0 ≤ x → x ≠ INVALID_SOCKET := by
    intro x hx
    unfold INVALID_SOCKET
    omega
  refine ⟨AJ_Net_Disconnect_twice s, ?_, ?_⟩
  · have hc := AJ_Net_Connect_ok env s0 service hudp htcp hfds hok
    generalize (AJ_Net_Connect env s0 service).2 = c at hc ⊢
    rcases hc with ⟨hu, ht, hi, hd⟩ | ⟨hu, ht, hi, hs, hd⟩
    · have er : releaseInterrupt c =
          { sys_close c c.interruptFd with interruptFd := INVALID_SOCKET } := by
        unfold releaseInterrupt
        rw [if_pos hi]
      have e : AJ_Net_Disconnect c =
          { AJ_Net_ARDP_Disconnect (releaseInterrupt c) with sock := zeroNetSocket } := by
        unfold AJ_Net_Disconnect
        rw [if_pos (by rw [er]; exact hinv _ hu)]
      have hcalls : (AJ_Net_Disconnect c).calls = c.calls ++
          [ConnCall.close c.interruptFd, ConnCall.ardpDisconnect, ConnCall.close c.udpSock] := by
        rw [e, er]
        simp [AJ_Net_ARDP_Disconnect, sys_close]
      refine ⟨by rw [e], by rw [e, er]; rfl, by rw [e]; rfl, by rw [e, er]; exact ht, ?_,
        Or.inl ⟨hinv _ hu, hcalls, ?_⟩⟩
      · rw [hcalls]
        unfold closeCount
        rw [List.count_append]
        simp [List.count_cons, Ne.symm hd]
      · rw [hcalls]
        unfold closeCount
        rw [List.count_append]
        simp [List.count_cons, hd]
    · have er : releaseInterrupt c =
          { sys_close c c.interruptFd with interruptFd := INVALID_SOCKET } := by
        unfold releaseInterrupt
        rw [if_pos hi]
      have hctx : (releaseInterrupt c).sock.rxContext = true := by
        rw [er]
        show c.sock.rxContext = true
        rw [hs]
        rfl
      have e : AJ_Net_Disconnect c =
          { sys_close { releaseInterrupt c with calls := (releaseInterrupt c).calls ++
                [ConnCall.setsockopt (releaseInterrupt c).tcpSock,
                  ConnCall.shutdown (releaseInterrupt c).tcpSock] }
              (releaseInterrupt c).tcpSock with
            tcpSock := INVALID_SOCKET, sock := zeroNetSocket } := by
        unfold AJ_Net_Disconnect
        rw [if_neg (by rw [er]; simpa [sys_close] using hu),
          if_pos (by rw [er]; exact hinv _ ht)]
        unfold CloseNetSock
        rw [if_pos hctx, if_pos (by rw [er]; exact hinv _ ht)]
      have hcalls : (AJ_Net_Disconnect c).calls = c.calls ++
          [ConnCall.close c.interruptFd, ConnCall.setsockopt c.tcpSock,
            ConnCall.shutdown c.tcpSock, ConnCall.close c.tcpSock] := by
        rw [e, er]
        simp [sys_close]
      refine ⟨by rw [e], by rw [e, er]; rfl, by rw [e, er]; exact hu, by rw [e], ?_,
        Or.inr ⟨hu, hinv _ ht, hcalls, ?_⟩⟩
      · rw [hcalls]
        unfold closeCount
        rw [List.count_append]
        simp [List.count_cons, Ne.symm hd]
      · rw [hcalls]
        unfold closeCount
        rw [List.count_append]
        simp [List.count_cons, hd]
  · intro hs hu
    obtain ⟨ru, rt, rs⟩ := releaseInterrupt_fields s
    have e : AJ_Net_Disconnect s = releaseInterrupt s := by
      unfold AJ_Net_Disconnect
      rw [if_neg (by rw [ru]; simp [hu])]
      split
      · exact CloseNetSock_zero _ (rs.trans hs)
      · rfl
    exact ⟨by rw [e, rs, hs], e⟩

/-- Instance of `disconnect_idempotent`: the stream connection that `AJ_Net_Connect`
sets up for a candidate advertising `AJ_ADDR_TCP4`, and the start state. -/
theorem disconnect_idempotent_witness :
    (connStart.udpSock = INVALID_SOCKET ∧ connStart.tcpSock = INVALID_SOCKET ∧
      (∀ fd ∈ connStart.openFds, (0 : Int) ≤ fd) ∧
      (AJ_Net_Connect (connEnv true) connStart (candidate AJ_ADDR_TCP4)).1 = AJ_OK) ∧
    AJ_Net_Disconnect (AJ_Net_Disconnect
        (AJ_Net_Connect (connEnv true) connStart (candidate AJ_ADDR_TCP4)).2) =
      AJ_Net_Disconnect (AJ_Net_Connect (connEnv true) connStart (candidate AJ_ADDR_TCP4)).2 ∧
    (AJ_Net_Disconnect
        (AJ_Net_Connect (connEnv true) connStart (candidate AJ_ADDR_TCP4)).2).sock =
      zeroNetSocket ∧
    ((AJ_Net_Disconnect connStart).sock = zeroNetSocket ∧
      AJ_Net_Disconnect connStart = releaseInterrupt connStart) :=
  ⟨⟨rfl, rfl, by decide, by decide⟩,
    (disconnect_idempotent (connEnv true)
      (AJ_Net_Connect (connEnv true) connStart (candidate AJ_ADDR_TCP4)).2 connStart
      (candidate AJ_ADDR_TCP4) rfl rfl (by decide) (by decide)).1,
    (disconnect_idempotent (connEnv true) connStart connStart
      (candidate AJ_ADDR_TCP4) rfl rfl (by decide) (by decide)).2.1.1,
    (disconnect_idempotent (connEnv true) connStart connStart
      (candidate AJ_ADDR_TCP4) rfl rfl (by decide) (by decide)).2.2 rfl rfl⟩

/-- C25 fails as stated: in `zeroHandleUdpState` the handle is all zero and
`netContext.udpSock` holds the open descriptor 4, and `AJ_Net_Disconnect` runs the ARDP
teardown and closes the socket 4. -/
theorem disconnect_zero_handle_closes_datagram :
    zeroHandleUdpState.sock = zeroNetSocket ∧
    AJ_Net_Disconnect zeroHandleUdpState =
      { connStart with calls := [ConnCall.ardpDisconnect, ConnCall.close 4] } ∧
    closeCount 4 (AJ_Net_Disconnect zeroHandleUdpState).calls = 1 :=
  ⟨by decide, by decide, by decide⟩

/-- C26, amended: while the `blocked` flag is clear `AJ_Net_Interrupt` does nothing, and
the `AJ_Net_Recv` that follows is the `AJ_Net_Recv` without the signal: it returns, and it
returns `AJ_ERR_INTERRUPTED` exactly when its `select` returns a value other than 0 with
the open interrupt descriptor set in the descriptor set. Where `select` treats the
interrupt descriptor as an eventfd (reported exactly when it is watched and its counter
is above 0, no failure that leaves the set as given), this means: with the counter at 0
the call does not return `AJ_ERR_INTERRUPTED`; with the counter above 0, from a wake
written earlier and not drained, it returns `AJ_ERR_INTERRUPTED` and its `read` takes
the counter back to 0. -/
theorem signal_needs_armed_wait (env : SysEnv) (context : NetContext) (st : SockState)
    (buf : AJ_IOBuffer) (len timeout : Nat)
    (hdir : env.ndebug = true ∨ buf.direction = AJ_IO_BUF_RX)
    (hblocked : st.blocked = false) :
    AJ_Net_Interrupt st = st ∧
    AJ_Net_Recv env context (AJ_Net_Interrupt st) buf len timeout =
      AJ_Net_Recv env context st buf len timeout ∧
    (∃ r, AJ_Net_Recv env context (AJ_Net_Interrupt st) buf len timeout = some r ∧
      (r.1 = AJ_ERR_INTERRUPTED ↔
        ((env.select st.calls ((recvFds context st).1 + 1) (recvFds context st).2
            (timeout / 1000) (1000 * (timeout % 1000))).rc ≠ 0 ∧
          0 ≤ st.interruptFd ∧
          st.interruptFd ∈ (env.select st.calls ((recvFds context st).1 + 1)
            (recvFds context st).2 (timeout / 1000) (1000 * (timeout % 1000))).fds))) ∧
    (EventfdFaithful env st.interruptFd → 0 ≤ st.interruptFd →
      (eventCounter st.interruptFd st.calls = 0 →
        ∀ r, AJ_Net_Recv env context (AJ_Net_Interrupt st) buf len timeout = some r →
          r.1 ≠ AJ_ERR_INTERRUPTED) ∧
      (0 < eventCounter st.interruptFd st.calls →
        ∃ st', AJ_Net_Recv env context (AJ_Net_Interrupt st) buf len timeout =
            some (AJ_ERR_INTERRUPTED, st', buf) ∧
          eventCounter st.interruptFd st'.calls = 0)) := by
  have hi : AJ_Net_Interrupt st = st := by
    unfold AJ_Net_Interrupt
    rw [hblocked]
    rfl
  have hassert := assert_passes env.ndebug buf.direction AJ_IO_BUF_RX hdir
  have hchar : ∃ r, AJ_Net_Recv env context st buf len timeout = some r ∧
      (r.1 = AJ_ERR_INTERRUPTED ↔
        ((env.select st.calls ((recvFds context st).1 + 1) (recvFds context st).2
            (timeout / 1000) (1000 * (timeout % 1000))).rc ≠ 0 ∧
          0 ≤ st.interruptFd ∧
          st.interruptFd ∈ (env.select st.calls ((recvFds context st).1 + 1)
            (recvFds context st).2 (timeout / 1000) (1000 * (timeout % 1000))).fds)) := by
    unfold AJ_Net_Recv
    rw [hassert]
    simp only [Bool.false_eq_true, if_false]
    by_cases hrc0 : (env.select st.calls ((recvFds context st).1 + 1) (recvFds context st).2
        (timeout / 1000) (1000 * (timeout % 1000))).rc = 0
    · rw [if_pos hrc0]
      exact ⟨_, rfl, (fun h => by cases h), fun h => absurd hrc0 h.1⟩
    · rw [if_neg hrc0]
      by_cases hset : 0 ≤ st.interruptFd ∧
          st.interruptFd ∈ (env.select st.calls ((recvFds context st).1 + 1)
            (recvFds context st).2 (timeout / 1000) (1000 * (timeout % 1000))).fds
      · rw [if_pos hset]
        exact ⟨_, rfl, fun _ => ⟨hrc0, hset⟩, fun _ => rfl⟩
      · rw [if_neg hset]
        by_cases hrx : min (AJ_IO_BUF_SPACE buf) len ≠ 0
        · rw [if_pos hrx]
          by_cases hret : env.recv (st.calls ++ [recvSelect context st timeout]) context.tcpSock
              (min (AJ_IO_BUF_SPACE buf) len) = -1 ∨
            env.recv (st.calls ++ [recvSelect context st timeout]) context.tcpSock
              (min (AJ_IO_BUF_SPACE buf) len) = 0
          · rw [if_pos hret]
            exact ⟨_, rfl, (fun h => by cases h), fun h => absurd h.2 hset⟩
          · rw [if_neg hret]
            exact ⟨_, rfl, (fun h => by cases h), fun h => absurd h.2 hset⟩
        · rw [if_neg hrx]
          exact ⟨_, rfl, (fun h => by cases h), fun h => absurd h.2 hset⟩
  refine ⟨hi, by rw [hi], by rw [hi]; exact hchar, ?_⟩
  intro hfaith hopen
  obtain ⟨hiff, hrc⟩ := hfaith st.calls ((recvFds context st).1 + 1) (recvFds context st).2
    (timeout / 1000) (1000 * (timeout % 1000))
  have hwatched : st.interruptFd ∈ (recvFds context st).2 := by
    simp [recvFds, hopen]
  obtain ⟨r0, hr0, hr0iff⟩ := hchar
  rw [hi]
  constructor
  · intro h0 r hr
    rw [hr0] at hr
    cases hr
    intro hint
    have := (hiff.mp (hr0iff.mp hint).2.2).2
    omega
  · intro hpos
    have hin : st.interruptFd ∈ (env.select st.calls ((recvFds context st).1 + 1)
        (recvFds context st).2 (timeout / 1000) (1000 * (timeout % 1000))).fds :=
      hiff.mpr ⟨hwatched, hpos⟩
    have hrc' := hrc (List.ne_nil_of_mem hin)
    refine ⟨{ interruptFd := st.interruptFd, blocked := false,
              calls := st.calls ++ [recvSelect context st timeout,
                SysCall.read st.interruptFd] }, ?_, ?_⟩
    · unfold AJ_Net_Recv
      rw [hassert]
      simp only [Bool.false_eq_true, if_false]
      rw [if_neg hrc', if_pos ⟨hopen, hin⟩]
    · show eventCounter st.interruptFd
        (st.calls ++ [recvSelect context st timeout, SysCall.read st.interruptFd]) = 0
      rw [show st.calls ++ [recvSelect context st timeout, SysCall.read st.interruptFd] =
        (st.calls ++ [recvSelect context st timeout]) ++ [SysCall.read st.interruptFd] by simp,
        eventCounter_append]
      simp

/-- Instance of `signal_needs_armed_wait`: no wait is armed. Where the descriptor 9 is an
eventfd, the signal changes nothing, and with one wake written earlier the wait
returns `AJ_ERR_INTERRUPTED` and drains it; where `select` fails and leaves the set as
given, the wait returns `AJ_ERR_INTERRUPTED` although no wake was written. -/
theorem signal_needs_armed_wait_witness :
    (((eventfdEnv 9 [] 0).ndebug = true ∨ rxBuf.direction = AJ_IO_BUF_RX) ∧
      idleState.blocked = false ∧
      EventfdFaithful (eventfdEnv 9 [] 0) idleState.interruptFd ∧
      (0 : Int) ≤ idleState.interruptFd) ∧
    AJ_Net_Interrupt idleState = idleState ∧
    (eventCounter idleState.interruptFd idleState.calls = 0 →
      ∀ r, AJ_Net_Recv (eventfdEnv 9 [] 0) tcpContext (AJ_Net_Interrupt idleState) rxBuf 32
          5000 = some r → r.1 ≠ AJ_ERR_INTERRUPTED) ∧
    (∃ st', AJ_Net_Recv (eventfdEnv 9 [] 0) tcpContext
        (AJ_Net_Interrupt { idleState with calls := [SysCall.write 9] }) rxBuf 32 5000 =
          some (AJ_ERR_INTERRUPTED, st', rxBuf) ∧
        eventCounter 9 st'.calls = 0) ∧
    (∃ r, AJ_Net_Recv failedSelectEnv tcpContext (AJ_Net_Interrupt idleState) rxBuf 32 5000 =
        some r ∧
      (r.1 = AJ_ERR_INTERRUPTED ↔
        ((failedSelectEnv.select idleState.calls ((recvFds tcpContext idleState).1 + 1)
            (recvFds tcpContext idleState).2 (5000 / 1000) (1000 * (5000 % 1000))).rc ≠ 0 ∧
          0 ≤ idleState.interruptFd ∧
          idleState.interruptFd ∈ (failedSelectEnv.select idleState.calls
            ((recvFds tcpContext idleState).1 + 1) (recvFds tcpContext idleState).2
            (5000 / 1000) (1000 * (5000 % 1000))).fds))) :=
  ⟨⟨Or.inr rfl, rfl, eventfdEnv_faithful 9 [] 0, by decide⟩,
    (signal_needs_armed_wait (eventfdEnv 9 [] 0) tcpContext idleState rxBuf 32 5000
      (Or.inr rfl) rfl).1,
    ((signal_needs_armed_wait (eventfdEnv 9 [] 0) tcpContext idleState rxBuf 32 5000
      (Or.inr rfl) rfl).2.2.2 (eventfdEnv_faithful 9 [] 0) (by decide)).1,
    ((signal_needs_armed_wait (eventfdEnv 9 [] 0) tcpContext
      { idleState with calls := [SysCall.write 9] } rxBuf 32 5000
      (Or.inr rfl) rfl).2.2.2 (eventfdEnv_faithful 9 [] 0) (by decide)).2 (by decide),
    (signal_needs_armed_wait failedSelectEnv tcpContext idleState rxBuf 32 5000
      (Or.inr rfl) rfl).2.2.1⟩

/-- C26 fails as stated: the descriptor 9 is an eventfd, `AJ_Net_Interrupt` is called
while `blocked` is clear, and the `AJ_Net_Recv` that follows waits and returns
`AJ_ERR_TIMEOUT`, not `AJ_ERR_INTERRUPTED`. -/
theorem early_signal_lost :
    EventfdFaithful (eventfdEnv 9 [] 0) idleState.interruptFd ∧
    idleState.blocked = false ∧
    AJ_Net_Recv (eventfdEnv 9 [] 0) tcpContext (AJ_Net_Interrupt idleState) rxBuf 32 5000 =
      some (AJ_ERR_TIMEOUT,
        { interruptFd := 9, blocked := false, calls := [SysCall.select 10 [5, 9] 5 0] },
        rxBuf) :=
  ⟨eventfdEnv_faithful 9 [] 0, rfl, by decide⟩

/-- C27 fails in the code: the first byte the scan loop of `RewriteSenderInfo` reads is
the byte at `writePtr`, for every buffer. On the 20-byte buffer of `mdnsNoMarkerState`
it reads the addresses 20 down to 1: the byte at `writePtr` is read and the byte at
`readPtr` is not. On the empty buffer `emptyBuf` (`readPtr = writePtr = 8`) it reads
the addresses 8 down to 2, all outside the buffer, and finds the marker that lies below
`readPtr`. -/
theorem scan_reads_outside_pending :
    (∀ (mem : Mem) (buf : AJ_IOBuffer),
      (scanReads mem buf.readPtr buf.writePtr 0).head? = some buf.writePtr) ∧
    (mdnsNoMarkerState.buf.readPtr, mdnsNoMarkerState.buf.writePtr) = (0, 20) ∧
    scanReads mdnsNoMarkerState.mem mdnsNoMarkerState.buf.readPtr
        mdnsNoMarkerState.buf.writePtr 0 =
      [20, 19, 18, 17, 16, 15, 14, 13, 12, 11, 10, 9, 8, 7, 6, 5, 4, 3, 2, 1] ∧
    scanMarker mdnsNoMarkerState.mem mdnsNoMarkerState.buf.readPtr
        mdnsNoMarkerState.buf.writePtr 0 = some (1, 0) ∧
    (emptyBuf.readPtr, emptyBuf.writePtr) = (8, 8) ∧
    scanReads markerBelowPacket emptyBuf.readPtr emptyBuf.writePtr 0 =
      [8, 7, 6, 5, 4, 3, 2] ∧
    scanMarker markerBelowPacket emptyBuf.readPtr emptyBuf.writePtr 0 = some (2, 4) :=
  ⟨fun mem buf => scanReads_head mem buf.readPtr buf.writePtr 0, by decide, by decide,
    by decide, by decide, by decide, by decide⟩

/-- C28: for every 32-bit `timeout` the initialiser
`{ timeout / 1000, 1000 * (timeout % 1000) }` gives `tv_usec < 1000000` and
`tv_sec * 1000000 + tv_usec = 1000 * timeout`; neither expression exceeds 32 bits, so the
32-bit unsigned arithmetic gives the exact values; and the `select` calls of
`AJ_Net_Recv`, `AJ_Net_RecvFrom` and `AJ_ARDP_UDP_Recv` are made with this timeval. -/
theorem timeval_exact (timeout : Nat) (htimeout : timeout < 4294967296) :
    (timevalOf timeout).2 < 1000000 ∧
    (timevalOf timeout).1 * 1000000 + (timevalOf timeout).2 = 1000 * timeout ∧
    timeout / 1000 < 4294967296 ∧ 1000 * (timeout % 1000) < 4294967296 ∧
    timevalOf timeout = (timeout / 1000, 1000 * (timeout % 1000)) ∧
    (∀ (context : NetContext) (st : SockState),
      recvSelect context st timeout =
        SysCall.select ((recvFds context st).1 + 1) (recvFds context st).2
          (timevalOf timeout).1 (timevalOf timeout).2) ∧
    (∀ (context : MCastContext),
      recvFromSelect context timeout =
        SysCall.select (recvFromMaxFd context + 1) (recvFromFds context)
          (timevalOf timeout).1 (timevalOf timeout).2) ∧
    (∀ (ctx : NetContext) (st : SockState),
      ardpSelect ctx st timeout =
        SysCall.select (max ctx.udpSock st.interruptFd + 1) (ardpFds ctx st)
          (timevalOf timeout).1 (timevalOf timeout).2) := by
  have e : timevalOf timeout = (timeout / 1000, 1000 * (timeout % 1000)) := by
    unfold timevalOf
    have h1 : timeout % 4294967296 = timeout := Nat.mod_eq_of_lt htimeout
    have h2 : timeout / 1000 % 4294967296 = timeout / 1000 := Nat.mod_eq_of_lt (by omega)
    have h3 : 1000 * (timeout % 1000) % 4294967296 = 1000 * (timeout % 1000) :=
      Nat.mod_eq_of_lt (by omega)
    rw [h1, h2, h3]
  refine ⟨?_, ?_, by omega, by omega, e, ?_, ?_, ?_⟩
  · rw [e]; simp only; omega
  · rw [e]; simp only; omega
  · intro context st; rw [e]; rfl
  · intro context; rw [e]; rfl
  · intro ctx st; rw [e]; rfl

/-- Instance of `timeval_exact`: the largest 32-bit timeout, 4294967295 ms, gives
4294967 s and 295000 us. -/
theorem timeval_exact_witness :
    (4294967295 : Nat) < 4294967296 ∧
    (timevalOf 4294967295).2 < 1000000 ∧
    (timevalOf 4294967295).1 * 1000000 + (timevalOf 4294967295).2 = 1000 * 4294967295 ∧
    timevalOf 4294967295 = (4294967295 / 1000, 1000 * (4294967295 % 1000)) :=
  ⟨by decide, (timeval_exact 4294967295 (by decide)).1,
    (timeval_exact 4294967295 (by decide)).2.1,
    (timeval_exact 4294967295 (by decide)).2.2.2.2.1⟩

/-- C29: let the scan locate the marker at `q` in a non-empty mDNS buffer whose fixed
part up to the first rewritten pair lies inside the buffer and whose two data-length
bytes and first rewritten length byte are no letters of the marker, and let the rewrite
for `a1` and the rewrite for `a2` both return `AJ_OK` on it, with one addressable byte
behind the result of the first and the IPv6 literal of `a1` made of digits, hex letters,
'.' and ':'. Then the rewrite for `a2` applied to the result of the rewrite for `a1`
returns `AJ_OK` with the same buffer pointers, the same `writePtr` included, as the
rewrite for `a2` applied directly, and the same bytes at every address below that
`writePtr`. With `a1 = a2` this is idempotence. -/
theorem rewrite_last_wins (ndebug : Bool) (mem mem1 mem2 : Mem) (buf buf1 buf2 : AJ_IOBuffer)
    (a1 a2 : SockAddr) (q : Nat)
    (hne : buf.readPtr < buf.writePtr)
    (hscan : scanMarker mem buf.readPtr buf.writePtr 0 = some (q, 4))
    (hpairs : q + 46 ≤ buf.writePtr)
    (hdl : neutralAt mem (q + 21) = true ∧ neutralAt mem (q + 22) = true)
    (hlen : neutralAt mem (q + 46) = true)
    (h1 : RewriteSenderInfo ndebug mem buf a1 = some (AJ_OK, mem1, buf1))
    (h2 : RewriteSenderInfo ndebug mem buf a2 = some (AJ_OK, mem2, buf2))
    (hroom : buf1.writePtr < mem.length)
    (htext : ∀ c ∈ a1.text6, isAddrChar c = true) :
    ∃ mem12, RewriteSenderInfo ndebug mem1 buf1 a2 = some (AJ_OK, mem12, buf2) ∧
      ∀ i, i < buf2.writePtr → load mem12 i = load mem2 i := by
  obtain ⟨b0, b1, d1, ip1, hb0, hb1, hfam1, hil1, hsl, hpl1, hrw1⟩ := RewriteSenderInfo_ok h1
  obtain ⟨c0, c1, d2, ip2, hc0, hc1, hfam2, hil2, _, hpl2, hrw2⟩ := RewriteSenderInfo_ok h2
  have e0 : c0 = b0 := Option.some.inj (hc0.symm.trans hb0)
  have e1 : c1 = b1 := Option.some.inj (hc1.symm.trans hb1)
  subst e0 e1
  obtain ⟨hbound1, hmem1, hbuf1⟩ := rewriteAt_ok hscan hrw1
  obtain ⟨hbound2, hmem2, hbuf2⟩ := rewriteAt_ok hscan hrw2
  have hq := scanMarker_bounds _ _ _ _ _ _ hscan hne
  have hmark := scanMarker_found mem buf.readPtr buf.writePtr 0 q (by omega)
    (by intro j hj; omega) hscan
  have hthrough : scanMarker mem buf.readPtr (q + 45) 0 = some (q, 4) := by
    obtain ⟨k, hk⟩ : ∃ k, buf.writePtr = q + 46 + k := ⟨buf.writePtr - (q + 46), by omega⟩
    rw [hk] at hscan
    exact scanMarker_through mem buf.readPtr q hlen k 0 hscan
  generalize hs1 : decimal (sidVal c0 c1) = s1 at *
  generalize hp1 : decimal (a1.port % 65536) = p1 at *
  generalize hp2 : decimal (a2.port % 65536) = p2 at *
  -- the fields of the first rewrite
  have hd1 : d1 = 52 ∨ d1 = 54 := by
    rcases hfam1 with ⟨_, h, _⟩ | ⟨_, h, _⟩
    · exact Or.inl h
    · exact Or.inr h
  have hip1 : ∀ b ∈ ip1, b ≠ 110 := by
    rcases hfam1 with ⟨_, _, h⟩ | ⟨_, _, h⟩
    · rw [h]; exact dottedQuad_char _
    · rw [h]; exact fun b hb => isAddrChar_ne b (htext b hb)
  have hdig : ∀ n : Nat, ∀ b ∈ decimal n, b ≠ 110 := by
    intro n b hb
    have := decimal_digit n b hb
    omega
  have hF1 := fields_ne d1 s1 ip1 p1 hd1 (by rw [← hs1]; exact hdig _) hip1
    (by rw [← hp1]; exact hdig _) hsl hil1 hpl1
  generalize hF1def : fieldBytes sid s1 ++ fieldBytes (ipv d1) ip1 ++ fieldBytes (upcv d1) p1
    = F1 at *
  generalize hF2def : fieldBytes sid s1 ++ fieldBytes (ipv d2) ip2 ++ fieldBytes (upcv d2) p2
    = F2 at *
  have c1' := cstr_length_le s1
  have c2' := cstr_length_le ip1
  have c3' := cstr_length_le p1
  have hk1 : sid.length = 4 := rfl
  have hk2 : (ipv d1).length = 5 := rfl
  have hk3 : (upcv d1).length = 6 := rfl
  have lF1 : F1.length = 18 + (cstr s1).length + (cstr ip1).length + (cstr p1).length := by
    rw [← hF1def]
    simp only [List.length_append, fieldBytes_length]
    omega
  have hF1_0 : F1[0]? = some (4 + (cstr s1).length) := by
    rw [← hF1def, List.append_assoc,
      List.getElem?_append_left (by rw [fieldBytes_length]; omega), fieldBytes_head, hk1,
      Nat.mod_eq_of_lt (by omega)]
  have hF1_1 : F1[1]? = some 115 := by
    rw [← hF1def, List.append_assoc,
      List.getElem?_append_left (by rw [fieldBytes_length]; omega)]
    rfl
  have hdl1 : dataLengthOf d1 s1 ip1 p1 = 23 + F1.length := by
    unfold dataLengthOf
    rw [hk1, hk2, hk3, lF1]
    omega
  -- the memory after the first rewrite
  have hl1 : mem1.length = mem.length := by
    rw [hmem1]
    rw [splice_length (by
      rw [splice_length (by simp only [List.length_cons, List.length_nil]; omega)]; omega)]
    exact splice_length (by simp only [List.length_cons, List.length_nil]; omega)
  have hload1 := fun i => load_rewritten mem q (dataLengthOf d1 s1 ip1 p1 / 256 % 256)
    (dataLengthOf d1 s1 ip1 p1 % 256) i F1 hbound1
  rw [← hmem1] at hload1
  have hw1 : buf1.writePtr = q + 46 + F1.length := by rw [hbuf1]
  have hr1 : buf1.readPtr = buf.readPtr := by rw [hbuf1]
  have hloadable : ∀ i, i < mem.length → ∃ b, load mem i = some b := by
    intro i hi
    exact ⟨mem[i], by unfold load; exact List.getElem?_eq_getElem hi⟩
  have hscan1 : scanMarker mem1 buf1.readPtr buf1.writePtr 0 = some (q, 4) := by
    rw [hr1, hw1]
    have hskip := scanMarker_skip mem1 buf.readPtr q (q + 46 + F1.length) hq.1
      (by
        rw [hload1, if_neg (by omega), if_neg (by omega), if_pos (by omega), Nat.sub_self,
          hF1_0]
        exact ⟨_, rfl, by omega, by omega⟩)
      (by
        intro a ha1 ha2
        rw [hload1, if_neg (by omega), if_neg (by omega), if_pos (by omega)]
        have hlt : a - (q + 46) < F1.length := by omega
        exact ⟨F1[a - (q + 46)], List.getElem?_eq_getElem hlt, hF1 _ (List.getElem_mem _)⟩)
      (by
        rw [hw1] at hroom
        rw [hload1, if_neg (by omega), if_neg (by omega), if_neg (by omega)]
        exact hloadable _ hroom)
      (by omega)
    have hcongr := scanMarker_congr mem1 mem buf.readPtr (q + 46) (q + 21) (q + 22)
      (by
        intro a ha e21 e22
        rw [hload1, if_neg e21, if_neg e22, if_neg (by omega)])
      (by
        unfold neutralAt
        rw [hload1, if_pos rfl]
        simp only [neutralByte, Bool.and_eq_true, bne_iff_ne, ne_eq]
        omega)
      (by
        unfold neutralAt
        rw [hload1, if_neg (by omega), if_pos rfl]
        simp only [neutralByte, Bool.and_eq_true, bne_iff_ne, ne_eq]
        omega)
      hdl.1 hdl.2 (q + 45) 0 (by omega)
    rw [hskip, hcongr]
    exact hthrough
  -- the second rewrite
  have hb0' : load mem1 buf1.readPtr = some c0 := by
    rw [hr1, hload1, if_neg (by omega), if_neg (by omega), if_neg (by omega)]
    exact hb0
  have hb1' : load mem1 (buf1.readPtr + 1) = some c1 := by
    rw [hr1, hload1, if_neg (by omega), if_neg (by omega), if_neg (by omega)]
    exact hb1
  have hassert : load mem1 (q + 47) = some 115 := by
    rw [hload1, if_neg (by omega), if_neg (by omega), if_pos (by omega),
      show q + 47 - (q + 46) = 1 by omega]
    exact hF1_1
  have heq := RewriteSenderInfo_eq ndebug mem1 buf1 a2 c0 c1 d2 ip2 hfam2 hil2 hb0' hb1'
  rw [hs1, hp2] at heq
  obtain ⟨mem12, buf12, hrw12⟩ := rewriteAt_total ndebug mem1 buf1 d2 q s1 ip2 p2 hscan1 hassert
    (by rw [hF2def, hl1]; exact hbound2)
  obtain ⟨hbound12, hmem12, hbuf12⟩ := rewriteAt_ok hscan1 hrw12
  rw [hF2def] at hbound12 hmem12 hbuf12
  have hbufeq : buf12 = buf2 := by
    rw [hbuf12, hbuf2, hbuf1]
  refine ⟨mem12, by rw [heq, hrw12, hbufeq], ?_⟩
  intro i hi
  have hw2 : buf2.writePtr = q + 46 + F2.length := by rw [hbuf2]
  rw [hw2] at hi
  rw [hmem12, hmem2, load_rewritten mem1 q _ _ i F2 hbound12,
    load_rewritten mem q _ _ i F2 hbound2]
  by_cases e21 : i = q + 21
  · rw [if_pos e21, if_pos e21]
  · rw [if_neg e21, if_neg e21]
    by_cases e22 : i = q + 22
    · rw [if_pos e22, if_pos e22]
    · rw [if_neg e22, if_neg e22]
      by_cases e46 : q + 46 ≤ i ∧ i < q + 46 + F2.length
      · rw [if_pos e46, if_pos e46]
      · rw [if_neg e46, if_neg e46, hload1, if_neg e21, if_neg e22, if_neg (by omega)]

/-- Instance of `rewrite_last_wins`: `samplePacket` is rewritten for 192.168.0.1:9956
and then for 10.0.0.1:40000; the result agrees with the direct rewrite for
10.0.0.1:40000 on the 94 bytes of the buffer. -/
theorem rewrite_last_wins_witness :
    (sampleBuf.readPtr < sampleBuf.writePtr ∧
      scanMarker samplePacket sampleBuf.readPtr sampleBuf.writePtr 0 = some (13, 4) ∧
      13 + 46 ≤ sampleBuf.writePtr ∧
      (neutralAt samplePacket (13 + 21) = true ∧ neutralAt samplePacket (13 + 22) = true) ∧
      neutralAt samplePacket (13 + 46) = true ∧
      RewriteSenderInfo false samplePacket sampleBuf sampleAddr =
        some (AJ_OK, samplePacketRewritten, sampleBufRewritten) ∧
      RewriteSenderInfo false samplePacket sampleBuf sampleContext.mDnsRecvAddr =
        some (AJ_OK, samplePacketRecv, { sampleBuf with writePtr := 94 }) ∧
      sampleBufRewritten.writePtr < samplePacket.length ∧
      ∀ c ∈ sampleAddr.text6, isAddrChar c = true) ∧
    ∃ mem12, RewriteSenderInfo false samplePacketRewritten sampleBufRewritten
        sampleContext.mDnsRecvAddr =
          some (AJ_OK, mem12, { sampleBuf with writePtr := 94 }) ∧
      ∀ i, i < ({ sampleBuf with writePtr := 94 } : AJ_IOBuffer).writePtr →
        load mem12 i = load samplePacketRecv i :=
  ⟨⟨by decide, by decide, by decide, ⟨by decide, by decide⟩, by decide, by decide,
      by decide, by decide, by decide⟩,
    rewrite_last_wins false samplePacket samplePacketRewritten samplePacketRecv sampleBuf
      sampleBufRewritten { sampleBuf with writePtr := 94 } sampleAddr
      sampleContext.mDnsRecvAddr 13 (by decide) (by decide) (by decide)
      ⟨by decide, by decide⟩ (by decide) (by decide) (by decide) (by decide) (by decide)⟩

/-- The extent of a rewrite. A call of `RewriteSenderInfo` that returns another status
than `AJ_OK` changes nothing. A call that returns `AJ_OK` found the marker at an address
`q` (for a non-empty buffer, with `readPtr < q` and `q + 3 <= writePtr`); it wrote the
two data-length bytes at `q + 21` and `q + 22` and `n` bytes from `q + 46` on, with
`n <= 67` (`n <= 43` for an IPv4 address), and set `writePtr` to `q + 46 + n`, which lies
inside the memory; no byte at another address has changed and the other fields of the
buffer are unchanged. The capacity of the buffer enters nowhere: the new `writePtr` is
at most `bufStart + bufSize` only when `q + 113 <= bufStart + bufSize` happens to
hold. -/
theorem rewrite_extent (ndebug : Bool) (mem mem' : Mem) (buf buf' : AJ_IOBuffer)
    (saddr : SockAddr) (status : AJ_Status)
    (h : RewriteSenderInfo ndebug mem buf saddr = some (status, mem', buf')) :
    (status ≠ AJ_OK → mem' = mem ∧ buf' = buf) ∧
    (status = AJ_OK →
      ∃ (q dl : Nat) (fields : List Nat), markerAt mem q ∧
        (buf.readPtr < buf.writePtr → buf.readPtr < q ∧ q + 3 ≤ buf.writePtr) ∧
        mem' = splice (splice mem (q + 21) [dl / 256 % 256, dl % 256]) (q + 46) fields ∧
        fields.length ≤ 67 ∧ (saddr.sa_family = AF_INET → fields.length ≤ 43) ∧
        buf' = { buf with writePtr := q + 46 + fields.length } ∧
        buf'.writePtr ≤ mem.length ∧
        (∀ i, load mem' i ≠ load mem i →
          (q + 21 ≤ i ∧ i < q + 23) ∨ (q + 46 ≤ i ∧ i < buf'.writePtr)) ∧
        (q + 113 ≤ buf.bufStart + buf.bufSize →
          buf'.writePtr ≤ buf.bufStart + buf.bufSize) ∧
        (buf.readPtr < buf.writePtr → buf.bufStart ≤ buf.readPtr →
          buf.bufStart ≤ q + 21)) := by
  constructor
  · intro hne
    rcases RewriteSenderInfo_cases h with hs | ⟨_, hm, hb⟩
    · exact absurd hs hne
    · exact ⟨hm, hb⟩
  · intro hs
    subst hs
    obtain ⟨q, dl, fields, hscan, _, _, hlen, hv4, hbound, hmem', hbuf'⟩ :=
      RewriteSenderInfo_shape h
    have hfound := scanMarker_found mem buf.readPtr buf.writePtr 0 q (by omega)
      (by intro j hj; omega) hscan
    have hrange : buf.readPtr < buf.writePtr → buf.readPtr < q ∧ q + 3 ≤ buf.writePtr := by
      intro hne
      have hb := scanMarker_bounds _ _ _ _ _ _ hscan hne
      have hle := scanMarker_found_le _ _ _ _ _ (by omega) hscan
      exact ⟨hb.1, by omega⟩
    refine ⟨q, dl, fields, hfound, hrange, hmem', hlen, hv4, hbuf', by rw [hbuf']; exact hbound,
      ?_, ?_, ?_⟩
    · intro i hi
      by_contra hout
      apply hi
      rw [hmem']
      apply splice_frame mem q i dl fields hbound
      rw [hbuf'] at hout
      exact hout
    · intro hcap
      rw [hbuf']
      show q + 46 + fields.length ≤ _
      omega
    · intro hne hstart
      have := (hrange hne).1
      omega

/-- Instance of `rewrite_extent`: the rewrite of `samplePacket` for 192.168.0.1:9956 in
the 106-byte buffer `sampleBuf`; the marker is at 13 and the new `writePtr` is 96. -/
theorem rewrite_extent_witness :
    RewriteSenderInfo false samplePacket sampleBuf sampleAddr =
      some (AJ_OK, samplePacketRewritten, sampleBufRewritten) ∧
    ∃ (q dl : Nat) (fields : List Nat), markerAt samplePacket q ∧
      (sampleBuf.readPtr < sampleBuf.writePtr →
        sampleBuf.readPtr < q ∧ q + 3 ≤ sampleBuf.writePtr) ∧
      samplePacketRewritten =
        splice (splice samplePacket (q + 21) [dl / 256 % 256, dl % 256]) (q + 46) fields ∧
      fields.length ≤ 67 ∧ (sampleAddr.sa_family = AF_INET → fields.length ≤ 43) ∧
      sampleBufRewritten = { sampleBuf with writePtr := q + 46 + fields.length } ∧
      sampleBufRewritten.writePtr ≤ samplePacket.length ∧
      (∀ i, load samplePacketRewritten i ≠ load samplePacket i →
        (q + 21 ≤ i ∧ i < q + 23) ∨ (q + 46 ≤ i ∧ i < sampleBufRewritten.writePtr)) ∧
      (q + 113 ≤ sampleBuf.bufStart + sampleBuf.bufSize →
        sampleBufRewritten.writePtr ≤ sampleBuf.bufStart + sampleBuf.bufSize) ∧
      (sampleBuf.readPtr < sampleBuf.writePtr → sampleBuf.bufStart ≤ sampleBuf.readPtr →
        sampleBuf.bufStart ≤ q + 21) :=
  ⟨by decide,
    (rewrite_extent false samplePacket samplePacketRewritten sampleBuf sampleBufRewritten
      sampleAddr AJ_OK (by decide)).2 rfl⟩

set_option maxRecDepth 100000 in
/-- C30 fails in the code: `RewriteSenderInfo` writes behind the end of the buffer. The
transmit buffer `mcastTxBuf` is the 475 bytes of `txDataMCast`, filled to the last byte
by a packet whose sender-info record has the longest IPv4 fields; the rewrite for the
IPv6 address fe80::1234:5678:9abc:def0, port 9956, returns `AJ_OK` with `writePtr` 484
and has put the byte '6' at address 483, behind the array, where the rewrite for the
IPv4 address 192.168.100.100, port 40000, fits exactly. Likewise on the buffer `fullBuf`
of capacity 86 that holds the 86 bytes of `samplePacket`: the rewrite for
192.168.0.1:9956 returns `AJ_OK` with `writePtr` 96 and has changed the byte at
address 95. -/
theorem rewrite_exceeds_capacity :
    (mcastTxBuf.bufStart + mcastTxBuf.bufSize = 475 ∧ mcastTxBuf.writePtr = 475 ∧
      load fullQueryPacket 483 = some 0) ∧
    (RewriteSenderInfo false fullQueryPacket mcastTxBuf linkLocalAddr).map
        (fun r => (r.1, r.2.2, load r.2.1 483)) =
      some (AJ_OK, { mcastTxBuf with writePtr := 484 }, some 54) ∧
    RewriteSenderInfo false fullQueryPacket mcastTxBuf longV4Addr =
      some (AJ_OK, fullQueryPacket, mcastTxBuf) ∧
    fullBuf.bufStart + fullBuf.bufSize = 86 ∧
    RewriteSenderInfo false samplePacket fullBuf sampleAddr =
      some (AJ_OK, samplePacketRewritten, { fullBuf with writePtr := 96 }) ∧
    load samplePacket 95 = some 0 ∧
    load samplePacketRewritten 95 = some 54 :=
  ⟨⟨by decide, by decide, by decide⟩, by decide, by decide, by decide, by decide, by decide,
    by decide⟩

end AJ
